import Mathlib

/-!
# DroneSwarmApp: a shallow embedding of the swarm kernel

The definitions below follow `src/DroneSwarmApp/src/DroneSwarmApp.h` and
`src/DroneSwarmApp/src/DroneSwarmApp.cpp`.

* `float` values live in an arbitrary linearly ordered field `K` with a floor
  function (the rationals for evaluation, the reals for the statements made
  "over real arithmetic"); `int` values are `Int`, with C++ `/` and `%` as
  `Int.tdiv` and `Int.tmod`.
* The `<cmath>` functions are passed in as a `CMath K` record.
* Random sources are explicit arguments (oracles).
* Undefined behaviour of the C++ program (out-of-range `operator[]`, integer
  modulo by zero) is the result `none`.
* The conversion `static_cast<int>` of a `float` is `staticCastInt`, undefined when
  the truncated value is not an `int`. The loop body of `generateMidi` is written with
  the truncation `truncToInt`: it is the code's value wherever the conversion is
  defined, which includes every position in the cube (`intCastDefined_inCube`); the
  note mapping with the conversion itself is `noteIndex?`, `noteVelocity?`, `ccValue?`.
* `midiOutput->sendMessageNow` appends to an explicit list of messages.
* State that outlives a call (the statics of `RandomRhythm`, the velocity cache of
  `FlockFormation`) is passed in and returned.
-/

namespace DroneSwarm

variable {K : Type} [LinearOrderedField K]

/-! ## Library primitives (C++ standard library and JUCE) -/

/-- The `<cmath>` functions and the JUCE constant `MathConstants<float>::twoPi`,
over the scalar type `K`. -/
structure CMath (K : Type) where
  sqrt : K → K
  sin : K → K
  cos : K → K
  twoPi : K

/-- The truncation towards zero that the conversion `static_cast<int>(f)` of a
floating value performs: the value of the conversion whenever the conversion is
defined (see `staticCastInt`). -/
def truncToInt [FloorRing K] (f : K) : Int :=
  if 0 ≤ f then ⌊f⌋ else ⌈f⌉

/-- The least value of the 32-bit `int`. -/
def INT_MIN : Int := -2147483648

/-- The greatest value of the 32-bit `int`. -/
def INT_MAX : Int := 2147483647

/-- The conversion `static_cast<int>(f)` is defined: the truncation of `f` can be
represented in the 32-bit `int`. -/
def intCastDefined [FloorRing K] (f : K) : Prop :=
  INT_MIN ≤ truncToInt f ∧ truncToInt f ≤ INT_MAX

/-- Whether the conversion is defined can be computed. -/
instance decidableIntCastDefined [FloorRing K] (f : K) : Decidable (intCastDefined f) :=
  inferInstanceAs (Decidable (INT_MIN ≤ truncToInt f ∧ truncToInt f ≤ INT_MAX))

/-- The template `juce::jlimit (lowerLimit, upperLimit, valueToConstrain)`. -/
def jlimit {α : Type} [LT α] [DecidableRel (fun (a b : α) => a < b)]
    (lowerLimit upperLimit valueToConstrain : α) : α :=
  if valueToConstrain < lowerLimit then lowerLimit
  else if upperLimit < valueToConstrain then upperLimit
  else valueToConstrain

/-- The read `v[i]` of a `std::vector` at an `int` index; `none` when the index is
out of range (undefined behaviour in C++). -/
def vectorAt {α : Type} (v : List α) (i : Int) : Option α :=
  if i < 0 then none else v[i.toNat]?

/-- One draw of `std::normal_distribution<float>(mean, stddev)`: the standard-normal
draw `z` of the generator, scaled by `stddev` and shifted by `mean`. -/
def normal_distribution (mean stddev z : K) : K :=
  z * stddev + mean

/-- The class `juce::Vector3D<float>`. -/
structure Vector3D (K : Type) where
  x : K
  y : K
  z : K
deriving DecidableEq

namespace Vector3D

/-- The operator `a + b` (also `+=`). -/
def add (a b : Vector3D K) : Vector3D K := ⟨a.x + b.x, a.y + b.y, a.z + b.z⟩

/-- The operator `a - b`. -/
def sub (a b : Vector3D K) : Vector3D K := ⟨a.x - b.x, a.y - b.y, a.z - b.z⟩

/-- The operator `a * scaleFactor` (also `*=`). -/
def mul (a : Vector3D K) (scaleFactor : K) : Vector3D K :=
  ⟨a.x * scaleFactor, a.y * scaleFactor, a.z * scaleFactor⟩

/-- The operator `a / scaleFactor`. -/
def div (a : Vector3D K) (scaleFactor : K) : Vector3D K :=
  ⟨a.x / scaleFactor, a.y / scaleFactor, a.z / scaleFactor⟩

/-- The method `lengthSquared()`. -/
def lengthSquared (a : Vector3D K) : K := a.x * a.x + a.y * a.y + a.z * a.z

/-- The method `length()`: `std::sqrt (lengthSquared())`. -/
def length (m : CMath K) (a : Vector3D K) : K := m.sqrt a.lengthSquared

end Vector3D

/-- The class `juce::MidiMessage`, restricted to the messages the program builds
with `noteOn`, `noteOff` and `controllerEvent`. -/
inductive MidiMessage (K : Type) where
  | noteOn (channel noteNumber : Int) (velocity : K)
  | noteOff (channel noteNumber : Int) (velocity : K)
  | controllerEvent (channel controllerType value : Int)
deriving DecidableEq

/-- The factory `juce::MidiMessage::allNotesOff (channel)`: controller 123 with value 0. -/
def MidiMessage.allNotesOff (channel : Int) : MidiMessage K :=
  MidiMessage.controllerEvent channel 123 0

/-! ## SwarmDrone -/

/-- The class `SwarmDrone` (the colour is left out; the private generator `rng`
is replaced by the draws passed to `construct` and `update`). -/
structure SwarmDrone (K : Type) where
  position : Vector3D K
  velocity : Vector3D K
  targetPosition : Vector3D K
  droneId : Int
  size : K
  noteActive : Bool
  currentNote : Int
  midiChannel : Int
  trail : List (Vector3D K)
deriving DecidableEq

namespace SwarmDrone

/-- The constant `SwarmDrone::MAX_TRAIL_LENGTH`. -/
def MAX_TRAIL_LENGTH : Nat := 20

/-- The constructor `SwarmDrone::SwarmDrone (id, colour)`; `posDraw` holds the three
draws of `posDist (-10, 10)`. -/
def construct (id : Int) (posDraw : Vector3D K) : SwarmDrone K where
  position := posDraw
  velocity := ⟨0, 0, 0⟩
  targetPosition := posDraw
  droneId := id
  size := 100
  noteActive := false
  currentNote := 0
  midiChannel := id.tmod 16
  trail := []

/-- One axis of `enforceBoundaries`: the coordinate and the velocity component
after the bounce. -/
def bounceAxis (coord vel : K) : K × K :=
  let boundary : K := 15
  let bounceFactor : K := -0.7
  if coord > boundary then (boundary - (coord - boundary), vel * bounceFactor)
  else if coord < -boundary then (-boundary - (coord + boundary), vel * bounceFactor)
  else (coord, vel)

/-- The method `SwarmDrone::enforceBoundaries`: the same bounce on the X, Y and Z axes. -/
def enforceBoundaries (d : SwarmDrone K) : SwarmDrone K :=
  let bX := bounceAxis d.position.x d.velocity.x
  let bY := bounceAxis d.position.y d.velocity.y
  let bZ := bounceAxis d.position.z d.velocity.z
  { d with position := ⟨bX.1, bY.1, bZ.1⟩, velocity := ⟨bX.2, bY.2, bZ.2⟩ }

/-- The first two statements of `update`: `trail.push_front (position)` and then
`if (trail.size() > MAX_TRAIL_LENGTH) trail.pop_back()`. -/
def pushTrail (d : SwarmDrone K) : List (Vector3D K) :=
  let pushed := d.position :: d.trail
  if pushed.length > MAX_TRAIL_LENGTH then pushed.dropLast else pushed

/-- The velocity of `update` after the target force, the noise and the damping, before
the speed limit; `gauss` holds the three standard-normal draws behind the three calls
`noiseDist (rng)`. -/
def dampedVelocity (m : CMath K) (d : SwarmDrone K) (chaosLevel formationStrength : K)
    (gauss : Vector3D K) : Vector3D K :=
  -- vector to target, normalised when longer than 0.001
  let toTarget := d.targetPosition.sub d.position
  let distanceToTarget := toTarget.length m
  let toTarget := if distanceToTarget > 0.001 then toTarget.div distanceToTarget else toTarget
  let velocity := d.velocity.add (toTarget.mul (0.1 * formationStrength))
  -- chaos
  let stddev := chaosLevel * 0.05
  let velocity : Vector3D K :=
    ⟨velocity.x + normal_distribution 0 stddev gauss.x,
     velocity.y + normal_distribution 0 stddev gauss.y,
     velocity.z + normal_distribution 0 stddev gauss.z⟩
  -- damping
  velocity.mul 0.95

/-- The speed limit of `update`: a velocity longer than `maxSpeed = 0.5` is rescaled. -/
def limitSpeed (m : CMath K) (velocity : Vector3D K) : Vector3D K :=
  let maxSpeed : K := 0.5
  let currentSpeed := velocity.length m
  if currentSpeed > maxSpeed then velocity.mul (maxSpeed / currentSpeed) else velocity

/-- The method `SwarmDrone::update (chaosLevel, formationStrength)`: trail, velocity
(force, noise, damping, speed limit), position, then `enforceBoundaries`. -/
def update (m : CMath K) (d : SwarmDrone K) (chaosLevel formationStrength : K)
    (gauss : Vector3D K) : SwarmDrone K :=
  let trail := pushTrail d
  let velocity := limitSpeed m (dampedVelocity m d chaosLevel formationStrength gauss)
  let position := d.position.add velocity
  enforceBoundaries { d with trail := trail, velocity := velocity, position := position }

end SwarmDrone

/-! ## RhythmPattern -/

/-- The six subclasses of `RhythmPattern`. -/
inductive RhythmPattern where
  | Continuous
  | Alternating
  | Sequential
  | Wave
  | Random
  | Polyrhythm
deriving DecidableEq

/-- The function-local statics `lastUpdateFrame` and `pattern` of
`RandomRhythm::calculateActiveNotes`, which persist across calls. -/
structure RandomRhythmStatics where
  lastUpdateFrame : Int
  pattern : List Bool
deriving DecidableEq

/-- The values of the statics before the first call: `lastUpdateFrame = -1` and an
empty `pattern`. -/
def RandomRhythmStatics.initial : RandomRhythmStatics := ⟨-1, []⟩

namespace RhythmPattern

/-- The method `getName()` of each subclass. -/
def getName : RhythmPattern → String
  | Continuous => "Continuous"
  | Alternating => "Alternating"
  | Sequential => "Sequential"
  | Wave => "Wave"
  | Random => "Random"
  | Polyrhythm => "Polyrhythm"

/-- The method `calculateActiveNotes (numDrones, frameCount)` of each subclass.
`statics` are the statics of `RandomRhythm` before the call and the second component
of the result are the statics after it; `rand i` is the value of the i-th call of
`std::rand()` made during this call. The result is `none` where the C++ code has
undefined behaviour (`% numDrones` with `numDrones = 0`, a write at a negative index). -/
def calculateActiveNotes (m : CMath K) (r : RhythmPattern) (statics : RandomRhythmStatics)
    (rand : Nat → Int) (numDrones : Nat) (frameCount : Int) :
    Option (List Bool × RandomRhythmStatics) :=
  match r with
  | Continuous => some (List.replicate numDrones true, statics)
  | Alternating =>
    let evenActive : Bool := decide ((frameCount.tdiv 30).tmod 2 = 0)
    some ((List.range numDrones).map (fun (i : Nat) =>
        if i % 2 = 0 then evenActive else !evenActive),
      statics)
  | Sequential =>
    let active := List.replicate numDrones false
    if numDrones = 0 then none
    else
      let activeIndex := (frameCount.tdiv 10).tmod (numDrones : Int)
      if activeIndex < 0 then none
      else some (active.set activeIndex.toNat true, statics)
  | Wave =>
    some ((List.range numDrones).map (fun (i : Nat) =>
        let phase : K := (frameCount : K) * 0.05 + (i : K) / (numDrones : K) * m.twoPi
        decide (m.sin phase > 0)),
      statics)
  | Random =>
    if frameCount.tdiv 20 ≠ statics.lastUpdateFrame.tdiv 20
        ∨ statics.pattern.length ≠ numDrones then
      let pattern :=
        (List.range numDrones).map (fun (i : Nat) => decide ((rand i).tmod 100 < 30))
      some (pattern, ⟨frameCount, pattern⟩)
    else some (statics.pattern, statics)
  | Polyrhythm =>
    some ((List.range numDrones).map (fun (i : Nat) =>
        match i % 3 with
        | 0 => decide (frameCount.tmod 8 = 0)
        | 1 => decide (frameCount.tmod 12 = 0)
        | _ => decide (frameCount.tmod 16 = 0)),
      statics)

/-- The factory `RhythmPattern::create (name)`, with its default to Continuous. -/
def create (name : String) : RhythmPattern :=
  if name = "Continuous" then Continuous
  else if name = "Alternating" then Alternating
  else if name = "Sequential" then Sequential
  else if name = "Wave" then Wave
  else if name = "Random" then Random
  else if name = "Polyrhythm" then Polyrhythm
  else Continuous

/-- The static method `RhythmPattern::getRhythmTypes`. -/
def getRhythmTypes : List String :=
  ["Continuous", "Alternating", "Sequential", "Wave", "Random", "Polyrhythm"]

end RhythmPattern

/-! ## Formation -/

/-- The seven subclasses of `Formation`. -/
inductive Formation where
  | Free
  | Circle
  | Spiral
  | Grid
  | Wave
  | Flock
  | Custom
deriving DecidableEq

namespace Formation

/-- The method `getName()` of each subclass. -/
def getName : Formation → String
  | Free => "Free"
  | Circle => "Circle"
  | Spiral => "Spiral"
  | Grid => "Grid"
  | Wave => "Wave"
  | Flock => "Flock"
  | Custom => "Custom"

/-- The factory `Formation::create (name)`, with its default to Circle. -/
def create (name : String) : Formation :=
  if name = "Free" then Free
  else if name = "Circle" then Circle
  else if name = "Spiral" then Spiral
  else if name = "Grid" then Grid
  else if name = "Wave" then Wave
  else if name = "Flock" then Flock
  else if name = "Custom" then Custom
  else Circle

/-- The static method `Formation::getFormationTypes`. -/
def getFormationTypes : List String :=
  ["Free", "Circle", "Spiral", "Grid", "Wave", "Flock", "Custom"]

end Formation

namespace CircleFormation

/-- The loop of `CircleFormation::calculateTargets` from index `i` on, for a swarm of
`numDrones` drones: drone `i` gets its target on the circle of radius 10. -/
def calculateTargetsFrom (m : CMath K) (numDrones : Nat) :
    Nat → List (SwarmDrone K) → List (SwarmDrone K)
  | _, [] => []
  | i, drone :: rest =>
    let radius : K := 10
    let angle : K := ((i : K) / (numDrones : K)) * m.twoPi
    let x : K := m.cos angle * radius
    let z : K := m.sin angle * radius
    { drone with targetPosition := ⟨x, if i % 2 = 0 then 2 else -2, z⟩ }
      :: calculateTargetsFrom m numDrones (i + 1) rest

/-- The method `CircleFormation::calculateTargets (drones, timeFactor)`. -/
def calculateTargets (m : CMath K) (drones : List (SwarmDrone K)) (_timeFactor : K) :
    List (SwarmDrone K) :=
  calculateTargetsFrom m drones.length 0 drones

end CircleFormation

/-- The function `std::ceil`: the least whole value not below `f`, as a scalar. -/
def ceil [FloorRing K] (f : K) : K := ((⌈f⌉ : Int) : K)

namespace FreeFormation

/-- The loop of `FreeFormation::calculateTargets` from drone `i` on: `rand i` is the
value of `std::rand()` drawn for drone `i`, and `dist i` the three draws of the uniform
distribution on `[-15, 15]` made for it. -/
def calculateTargetsFrom (rand : Nat → Int) (dist : Nat → Vector3D K) :
    Nat → List (SwarmDrone K) → List (SwarmDrone K)
  | _, [] => []
  | i, drone :: rest =>
    (if (rand i).tmod 100 < 5 then { drone with targetPosition := dist i } else drone)
      :: calculateTargetsFrom rand dist (i + 1) rest

/-- The method `FreeFormation::calculateTargets (drones, timeFactor)`. -/
def calculateTargets (rand : Nat → Int) (dist : Nat → Vector3D K)
    (drones : List (SwarmDrone K)) (_timeFactor : K) : List (SwarmDrone K) :=
  calculateTargetsFrom rand dist 0 drones

end FreeFormation

namespace SpiralFormation

/-- The loop of `SpiralFormation::calculateTargets` from index `i` on. -/
def calculateTargetsFrom (m : CMath K) (numDrones : Nat) (timeFactor : K) :
    Nat → List (SwarmDrone K) → List (SwarmDrone K)
  | _, [] => []
  | i, drone :: rest =>
    let baseRadius : K := 5
    let height : K := 12
    let t : K := (i : K) / (numDrones : K)
    let angle : K := t * 4 * m.twoPi + timeFactor
    let radius : K := baseRadius + t * 5
    let x : K := m.cos angle * radius
    let y : K := height * (0.5 - t)
    let z : K := m.sin angle * radius
    { drone with targetPosition := ⟨x, y, z⟩ }
      :: calculateTargetsFrom m numDrones timeFactor (i + 1) rest

/-- The method `SpiralFormation::calculateTargets (drones, timeFactor)`. -/
def calculateTargets (m : CMath K) (drones : List (SwarmDrone K)) (timeFactor : K) :
    List (SwarmDrone K) :=
  calculateTargetsFrom m drones.length timeFactor 0 drones

end SpiralFormation

namespace GridFormation

/-- The local `gridSize` of `GridFormation::calculateTargets`:
`static_cast<int> (std::ceil (std::sqrt (numDrones)))`. -/
def gridSize [FloorRing K] (m : CMath K) (numDrones : Nat) : Int :=
  truncToInt (ceil (m.sqrt (numDrones : K)))

/-- The loop of `GridFormation::calculateTargets` from index `i` on; `none` when
`i / gridSize` and `i % gridSize` divide by zero. -/
def calculateTargetsFrom [FloorRing K] (m : CMath K) (numDrones : Nat) (timeFactor : K) :
    Nat → List (SwarmDrone K) → Option (List (SwarmDrone K))
  | _, [] => some []
  | i, drone :: rest =>
    let gridSize : Int := gridSize m numDrones
    let spacing : K := 5
    let offset : K := spacing * ((gridSize - 1 : Int) : K) * 0.5
    if gridSize = 0 then none
    else
      let row : Int := (i : Int).tdiv gridSize
      let col : Int := (i : Int).tmod gridSize
      let x : K := spacing * (col : K) - offset
      let z : K := spacing * (row : K) - offset
      let y : K := 2 * m.sin (timeFactor + (i : K) * 0.2)
      match calculateTargetsFrom m numDrones timeFactor (i + 1) rest with
      | none => none
      | some rest1 => some ({ drone with targetPosition := ⟨x, y, z⟩ } :: rest1)

/-- The method `GridFormation::calculateTargets (drones, timeFactor)`. -/
def calculateTargets [FloorRing K] (m : CMath K) (drones : List (SwarmDrone K))
    (timeFactor : K) : Option (List (SwarmDrone K)) :=
  calculateTargetsFrom m drones.length timeFactor 0 drones

end GridFormation

namespace WaveFormation

/-- The divisor `std::max (1, numDrones - 1)` of `WaveFormation::calculateTargets`. -/
def divisor (numDrones : Nat) : Int := max 1 ((numDrones : Int) - 1)

/-- The loop of `WaveFormation::calculateTargets` from index `i` on. -/
def calculateTargetsFrom (m : CMath K) (numDrones : Nat) (timeFactor : K) :
    Nat → List (SwarmDrone K) → List (SwarmDrone K)
  | _, [] => []
  | i, drone :: rest =>
    let width : K := 15
    let depth : K := 10
    let t : K := (i : K) / ((divisor numDrones : Int) : K)
    let x : K := width * (t - 0.5)
    let phase : K := timeFactor * 0.5 + t * m.twoPi
    let y : K := 3 * m.sin phase
    let z : K := depth * (0.5 - t) * m.cos (phase * 0.5)
    { drone with targetPosition := ⟨x, y, z⟩ }
      :: calculateTargetsFrom m numDrones timeFactor (i + 1) rest

/-- The method `WaveFormation::calculateTargets (drones, timeFactor)`. -/
def calculateTargets (m : CMath K) (drones : List (SwarmDrone K)) (timeFactor : K) :
    List (SwarmDrone K) :=
  calculateTargetsFrom m drones.length timeFactor 0 drones

end WaveFormation

namespace CustomFormation

/-- The loop of `CustomFormation::calculateTargets` from index `i` on; `pi` is the
constant `MathConstants<float>::pi`. Only the chosen branch of the conditional that
computes `normalizedIndex` is evaluated, and both divisions are floating-point. -/
def calculateTargetsFrom (m : CMath K) (pi : K) (numDrones : Nat) (timeFactor : K) :
    Nat → List (SwarmDrone K) → List (SwarmDrone K)
  | _, [] => []
  | i, drone :: rest =>
    let t : K := (i : K) / (numDrones : K)
    let height : K := 15 * (0.5 - t)
    let half : Int := (numDrones : Int).tdiv 2
    let firstHelix : Bool := decide ((i : Int) < half)
    let offset : K := if firstHelix = true then 0 else pi
    let index : Int := if firstHelix = true then (i : Int) else (i : Int) - half
    let normalizedIndex : K :=
      if firstHelix = true then (index : K) / (half : K)
      else (index : K) / (((numDrones : Int) - half : Int) : K)
    let angle : K := normalizedIndex * 4 * m.twoPi + timeFactor + offset
    let radius : K := 8
    let x : K := m.cos angle * radius
    let z : K := m.sin angle * radius
    { drone with targetPosition := ⟨x, height, z⟩ }
      :: calculateTargetsFrom m pi numDrones timeFactor (i + 1) rest

/-- The method `CustomFormation::calculateTargets (drones, timeFactor)`. -/
def calculateTargets (m : CMath K) (pi : K) (drones : List (SwarmDrone K)) (timeFactor : K) :
    List (SwarmDrone K) :=
  calculateTargetsFrom m pi drones.length timeFactor 0 drones

end CustomFormation

/-- The member `velocities` of a `FlockFormation` object: the velocity cache, empty
after construction. -/
structure FlockFormation (K : Type) where
  velocities : List (Vector3D K)

/-- The accumulators of the inner loop of `FlockFormation::calculateTargets`. -/
structure FlockSums (K : Type) where
  cohesion : Vector3D K
  separation : Vector3D K
  alignment : Vector3D K
  cohesionCount : Int
  separationCount : Int
  alignmentCount : Int

namespace FlockFormation

/-- The velocities the cache is filled with when its size differs from the number of
drones. -/
def initialVelocities (m : CMath K) (numDrones : Nat) : List (Vector3D K) :=
  (List.range numDrones).map (fun (i : Nat) =>
    (⟨m.sin ((i : K) * 0.1) * 0.1, m.cos ((i : K) * 0.2) * 0.1,
      m.sin ((i : K) * 0.3 + 0.5) * 0.1⟩ : Vector3D K))

/-- The inner loop `for (int j = 0; j < numDrones; ++j)` for drone `i` at `position`,
over the indices `j` still to visit; `none` when a read of `drones[j]` or
`velocities[j]` is out of range. -/
def neighbours (m : CMath K) (drones : List (SwarmDrone K)) (velocities : List (Vector3D K))
    (i : Nat) (position : Vector3D K) : List Nat → FlockSums K → Option (FlockSums K)
  | [], sums => some sums
  | j :: js, sums =>
    if i = j then neighbours m drones velocities i position js sums
    else
      match drones[j]? with
      | none => none
      | some other =>
        let distance : K := (position.sub other.position).length m
        let sums : FlockSums K :=
          if distance < 10 then
            { sums with cohesion := sums.cohesion.add other.position,
                        cohesionCount := sums.cohesionCount + 1 }
          else sums
        let sums : FlockSums K :=
          if distance < 5 then
            { sums with
                separation := sums.separation.add
                  ((position.sub other.position).div (max 0.1 distance)),
                separationCount := sums.separationCount + 1 }
          else sums
        if distance < 7 then
          match velocities[j]? with
          | none => none
          | some otherVelocity =>
            neighbours m drones velocities i position js
              { sums with alignment := sums.alignment.add otherVelocity,
                          alignmentCount := sums.alignmentCount + 1 }
        else neighbours m drones velocities i position js sums

/-- The force on drone `i` at `position`: the three flocking forces, the wandering
term and the boundary avoidance. -/
def force (m : CMath K) (timeFactor : K) (i : Nat) (position : Vector3D K)
    (sums : FlockSums K) : Vector3D K :=
  let force : Vector3D K := ⟨0, 0, 0⟩
  let force : Vector3D K :=
    if sums.cohesionCount > 0 then
      force.add (((sums.cohesion.div (sums.cohesionCount : K)).sub position).mul 0.01)
    else force
  let force : Vector3D K :=
    if sums.separationCount > 0 then
      force.add ((sums.separation.div (sums.separationCount : K)).mul 0.04)
    else force
  let force : Vector3D K :=
    if sums.alignmentCount > 0 then
      force.add ((sums.alignment.div (sums.alignmentCount : K)).mul 0.02)
    else force
  let t : K := timeFactor + (i : K) * 0.1
  let wander : Vector3D K := ⟨m.sin t * 0.02, m.cos (t * 1.3) * 0.01, m.sin (t * 0.7) * 0.02⟩
  let force : Vector3D K := force.add wander
  let boundary : K := 14
  let avoidStrength : K := 0.1
  let fx : K :=
    if position.x > boundary then force.x - avoidStrength
    else if position.x < -boundary then force.x + avoidStrength
    else force.x
  let fy : K :=
    if position.y > boundary then force.y - avoidStrength
    else if position.y < -boundary then force.y + avoidStrength
    else force.y
  let fz : K :=
    if position.z > boundary then force.z - avoidStrength
    else if position.z < -boundary then force.z + avoidStrength
    else force.z
  ⟨fx, fy, fz⟩

/-- The steps "Update velocity" and "Limit velocity": the cached velocity plus the
force, scaled down to `maxSpeed = 0.3` when faster. -/
def limitVelocity (m : CMath K) (velocity force : Vector3D K) : Vector3D K :=
  let velocity := velocity.add force
  let maxSpeed : K := 0.3
  let speed := velocity.length m
  if speed > maxSpeed then velocity.mul (maxSpeed / speed) else velocity

/-- The outer loop `for (int i = 0; i < numDrones; ++i)` over the indices still to
visit, on the drones and the velocity cache as they are when the iteration starts;
`none` when a read of `drones` or `velocities` is out of range. -/
def updateFlock (m : CMath K) (numDrones : Nat) (timeFactor : K) :
    List Nat → List (SwarmDrone K) → List (Vector3D K) →
      Option (List (SwarmDrone K) × List (Vector3D K))
  | [], drones, velocities => some (drones, velocities)
  | i :: rest, drones, velocities =>
    match drones[i]? with
    | none => none
    | some drone =>
      match neighbours m drones velocities i drone.position (List.range numDrones)
          ⟨⟨0, 0, 0⟩, ⟨0, 0, 0⟩, ⟨0, 0, 0⟩, 0, 0, 0⟩ with
      | none => none
      | some sums =>
        match velocities[i]? with
        | none => none
        | some velocity =>
          let velocity := limitVelocity m velocity (force m timeFactor i drone.position sums)
          updateFlock m numDrones timeFactor rest
            (drones.set i
              { drone with targetPosition := drone.position.add (velocity.mul 5) })
            (velocities.set i velocity)

/-- The method `FlockFormation::calculateTargets (drones, timeFactor)`: the drones and
the object after the call. -/
def calculateTargets (m : CMath K) (flock : FlockFormation K) (drones : List (SwarmDrone K))
    (timeFactor : K) : Option (List (SwarmDrone K) × FlockFormation K) :=
  let numDrones := drones.length
  let velocities :=
    if flock.velocities.length ≠ numDrones then initialVelocities m numDrones
    else flock.velocities
  match updateFlock m numDrones timeFactor (List.range numDrones) drones velocities with
  | none => none
  | some (drones1, velocities1) => some (drones1, ⟨velocities1⟩)

end FlockFormation

/-- The virtual call `currentFormation->calculateTargets (drones, timeFactor)` on an
object of the given subclass: the drones after the call and the velocity cache, which
only a `FlockFormation` has and writes. `rand` and `dist` feed the Free formation and
`pi` is the constant `MathConstants<float>::pi`. The result is `none` where the C++
code divides an `int` by zero or reads a vector out of range. -/
def Formation.calculateTargets [FloorRing K] (m : CMath K) (pi : K) (f : Formation)
    (flock : FlockFormation K) (rand : Nat → Int) (dist : Nat → Vector3D K)
    (drones : List (SwarmDrone K)) (timeFactor : K) :
    Option (List (SwarmDrone K) × FlockFormation K) :=
  match f with
  | Formation.Free => some (FreeFormation.calculateTargets rand dist drones timeFactor, flock)
  | Formation.Circle => some (CircleFormation.calculateTargets m drones timeFactor, flock)
  | Formation.Spiral => some (SpiralFormation.calculateTargets m drones timeFactor, flock)
  | Formation.Grid =>
    match GridFormation.calculateTargets m drones timeFactor with
    | none => none
    | some drones1 => some (drones1, flock)
  | Formation.Wave => some (WaveFormation.calculateTargets m drones timeFactor, flock)
  | Formation.Flock => FlockFormation.calculateTargets m flock drones timeFactor
  | Formation.Custom => some (CustomFormation.calculateTargets m pi drones timeFactor, flock)

/-! ## MusicScales -/

namespace MusicScales

/-- The map `scales` as filled by the constructor `MusicScales::MusicScales`. -/
def scales : List (String × List Int) :=
  [("Chromatic", [0, 1, 2, 3, 4, 5, 6, 7, 8, 9, 10, 11]),
   ("Major", [0, 2, 4, 5, 7, 9, 11]),
   ("Minor", [0, 2, 3, 5, 7, 8, 10]),
   ("Pentatonic", [0, 2, 4, 7, 9]),
   ("Blues", [0, 3, 5, 6, 7, 10]),
   ("Dorian", [0, 2, 3, 5, 7, 9, 10]),
   ("Phrygian", [0, 1, 3, 5, 7, 8, 10]),
   ("Mixolydian", [0, 2, 4, 5, 7, 9, 10]),
   ("Lydian", [0, 2, 4, 6, 7, 9, 11]),
   ("Locrian", [0, 1, 3, 5, 6, 8, 10])]

/-- The intervals `scaleIt->second` after the lookup with its fallback to "Chromatic". -/
def intervalsOf (scaleName : String) : List Int :=
  match scales.lookup scaleName with
  | some intervals => intervals
  | none => (scales.lookup "Chromatic").getD []

/-- The method `MusicScales::getScaleNotes (scaleName, rootNote)`. -/
def getScaleNotes (scaleName : String) (rootNote : Int) : List Int :=
  (List.range 3).flatMap (fun (octave : Nat) =>
    ((intervalsOf scaleName).map (fun interval => rootNote + (octave : Int) * 12 + interval)).filter
      (fun note => decide (note ≥ 0 ∧ note < 128)))

/-- The static method `MusicScales::getScaleTypes`. -/
def getScaleTypes : List String :=
  ["Chromatic", "Major", "Minor", "Pentatonic", "Blues", "Dorian", "Phrygian", "Mixolydian",
   "Lydian", "Locrian"]

/-- The expansion of a root note in the words of the specification: all the values
`root + 12 * octave + interval`, for the octaves 0, 1, 2 in that order and within an
octave for the intervals in their order, with the values outside 0..127 removed. -/
def specExpansion (intervals : List Int) (rootNote : Int) : List Int :=
  (([0, 1, 2] : List Int).flatMap (fun octave =>
      intervals.map (fun interval => rootNote + 12 * octave + interval))).filter
    (fun note => decide (0 ≤ note ∧ note ≤ 127))

end MusicScales

/-! ## MainComponent -/

/-- The members of `MainComponent` read or written by the swarm kernel. `midiOutput`
is true when the pointer `midiOutput` is not null; `scaleSelector` is the text of the
scale combo box and `rootNote` the value of the root-note slider converted to `int`. -/
structure MainComponent (K : Type) where
  midiOutput : Bool
  drones : List (SwarmDrone K)
  currentRhythm : RhythmPattern
  frameCount : Int
  paused : Bool
  chaosLevel : K
  formationStrength : K
  scaleSelector : String
  rootNote : Int

namespace MainComponent

/-- The constant `MainComponent::DEFAULT_NUM_DRONES`. -/
def DEFAULT_NUM_DRONES : Nat := 8

/-- The constant `MainComponent::NOTE_CHECK_INTERVAL`. -/
def NOTE_CHECK_INTERVAL : Int := 3

/-- The constructor `MainComponent::MainComponent`, as far as the kernel is concerned:
eight drones with ids 0 to 7, the Continuous rhythm, the Major scale from root 60,
frame 0. `midiOutput` tells whether `setupMidi` found an output device and `posDraws i`
holds the position draws of drone `i`. -/
def construct (midiOutput : Bool) (posDraws : Nat → Vector3D K) : MainComponent K where
  midiOutput := midiOutput
  drones := (List.range DEFAULT_NUM_DRONES).map (fun (i : Nat) =>
    SwarmDrone.construct (i : Int) (posDraws i))
  currentRhythm := RhythmPattern.Continuous
  frameCount := 0
  paused := false
  chaosLevel := 0.3
  formationStrength := 0.7
  scaleSelector := "Major"
  rootNote := 60

/-- The index `noteIdx` of `generateMidi`: the X coordinate mapped onto the scale list
and limited with `jlimit (0, scaleNotes.size() - 1, noteIdx)`, for an X coordinate at
which the conversion to `int` is defined (`noteIndex?` has the conversion itself). -/
def noteIndex [FloorRing K] (scaleNotes : List Int) (x : K) : Int :=
  jlimit 0 ((scaleNotes.length : Int) - 1)
    (truncToInt ((x + 15) / 30 * (scaleNotes.length : K)))

/-- The note-on velocity `velocity` of `generateMidi`, from the Y coordinate. -/
def noteVelocity [FloorRing K] (y : K) : Int :=
  jlimit 30 100 (truncToInt ((y + 15) / 30 * 70 + 30))

/-- The controller value `ccValue` of `generateMidi`, from the Z coordinate. -/
def ccValue [FloorRing K] (z : K) : Int :=
  jlimit 0 127 (truncToInt ((z + 15) / 30 * 127))

/-- The body of the loop of `generateMidi` for one drone: `active` is
`activePattern[i]`, `nextFloat` the value `Random::getSystemRandom().nextFloat()`
would return if called. The result is the drone after the iteration and the messages
sent, in order; `none` when `scaleNotes[noteIdx]` is out of range. -/
def processDrone [FloorRing K] (m : CMath K) (active : Bool) (scaleNotes : List Int)
    (nextFloat : K) (drone : SwarmDrone K) : Option (SwarmDrone K × List (MidiMessage K)) :=
  let speed := drone.velocity.length m
  if active = true ∧ speed > 0.3 then
    match vectorAt scaleNotes (noteIndex scaleNotes drone.position.x) with
    | none => none
    | some note =>
      let velocity : Int := noteVelocity drone.position.y
      let channel := drone.midiChannel
      if note ≠ drone.currentNote then
        let offs : List (MidiMessage K) :=
          if drone.noteActive = true ∧ drone.currentNote > 0 then
            [MidiMessage.noteOff (channel + 1) drone.currentNote 0]
          else []
        let ons : List (MidiMessage K) :=
          [MidiMessage.noteOn (channel + 1) note ((velocity : K) / 127)]
        let ccs : List (MidiMessage K) :=
          if nextFloat < 0.3 then
            [MidiMessage.controllerEvent (channel + 1) 1 (ccValue drone.position.z)]
          else []
        some ({ drone with noteActive := true, currentNote := note, size := 150 },
          offs ++ ons ++ ccs)
      else
        some ({ drone with size := 100 }, [])
  else
    if drone.noteActive = true ∧ drone.currentNote > 0 then
      some ({ drone with noteActive := false, currentNote := 0, size := 100 },
        [MidiMessage.noteOff (drone.midiChannel + 1) drone.currentNote 0])
    else
      some ({ drone with size := 100 }, [])

/-- The loop `for (size_t i = 0; i < drones.size(); ++i)` of `generateMidi`, from index
`i` on. Each message is paired with the index of the drone whose iteration sent it;
`none` when `activePattern[i]` or `scaleNotes[noteIdx]` is out of range. -/
def processDrones [FloorRing K] (m : CMath K) (activePattern : List Bool) (scaleNotes : List Int)
    (nextFloat : Nat → K) :
    Nat → List (SwarmDrone K) → Option (List (SwarmDrone K) × List (Nat × MidiMessage K))
  | _, [] => some ([], [])
  | i, drone :: rest =>
    match activePattern[i]? with
    | none => none
    | some active =>
      match processDrone m active scaleNotes (nextFloat i) drone with
      | none => none
      | some (drone1, sent) =>
        match processDrones m activePattern scaleNotes nextFloat (i + 1) rest with
        | none => none
        | some (rest1, sentRest) =>
          some (drone1 :: rest1, sent.map (fun msg => (i, msg)) ++ sentRest)

/-- The method `MainComponent::generateMidi`. The result holds the component after the
call, the statics of `RandomRhythm` after it, and the messages sent in order, each with
the index of the drone whose loop iteration sent it. `rand` feeds `std::rand()` and
`nextFloat i` is the draw available to the iteration of drone `i`. -/
def generateMidi [FloorRing K] (m : CMath K) (mc : MainComponent K) (statics : RandomRhythmStatics)
    (rand : Nat → Int) (nextFloat : Nat → K) :
    Option (MainComponent K × RandomRhythmStatics × List (Nat × MidiMessage K)) :=
  if mc.midiOutput = false then some (mc, statics, [])
  else if mc.frameCount.tmod NOTE_CHECK_INTERVAL ≠ 0 then some (mc, statics, [])
  else
    match mc.currentRhythm.calculateActiveNotes m statics rand mc.drones.length mc.frameCount with
    | none => none
    | some (activePattern, statics1) =>
      let scaleNotes := MusicScales.getScaleNotes mc.scaleSelector mc.rootNote
      match processDrones m activePattern scaleNotes nextFloat 0 mc.drones with
      | none => none
      | some (drones1, sent) => some ({ mc with drones := drones1 }, statics1, sent)

/-- The destructor `MainComponent::~MainComponent`, up to the destruction of the
members: the component at the end of its body (no member of a drone is written) and
the messages sent. -/
def destructor (mc : MainComponent K) : MainComponent K × List (MidiMessage K) :=
  if mc.midiOutput = true then
    (mc, (List.range 16).map (fun (channel : Nat) =>
      MidiMessage.allNotesOff ((channel : Int) + 1)))
  else (mc, [])

end MainComponent

/-! ## Vocabulary of the note protocol -/

/-- The drone sounds no note: the state left by the constructor and by a release. -/
def SwarmDrone.Silent (d : SwarmDrone K) : Prop :=
  d.noteActive = false ∧ d.currentNote = 0

/-- The drone holds the pitch `p`: a note is active and `currentNote` is `p`. -/
def SwarmDrone.Holding (d : SwarmDrone K) (p : Int) : Prop :=
  d.noteActive = true ∧ d.currentNote = p

/-- The note state of the drone is one of the two states of the protocol: silent, or
holding a pitch greater than 0. -/
def SwarmDrone.Consistent (d : SwarmDrone K) : Prop :=
  d.Silent ∨ (d.noteActive = true ∧ 0 < d.currentNote)

/-- The drone moves fast enough to sound: the test `speed > 0.3f` of `generateMidi`. -/
def SwarmDrone.fast (m : CMath K) (d : SwarmDrone K) : Prop :=
  d.velocity.length m > 0.3

/-- The pitch a drone holds, if any. -/
def SwarmDrone.heldNote (d : SwarmDrone K) : Option Int :=
  if d.noteActive = true then some d.currentNote else none

namespace MainComponent

/-- The call of `generateMidi` is a note check: there is a MIDI output and the frame
counter is a multiple of `NOTE_CHECK_INTERVAL`. -/
def isNoteCheck (mc : MainComponent K) : Prop :=
  mc.midiOutput = true ∧ mc.frameCount.tmod NOTE_CHECK_INTERVAL = 0

/-- Whether a call is a note check can be computed. -/
instance decidableIsNoteCheck (mc : MainComponent K) : Decidable mc.isNoteCheck :=
  inferInstanceAs (Decidable (mc.midiOutput = true ∧ mc.frameCount.tmod NOTE_CHECK_INTERVAL = 0))

/-- The list `scaleNotes` computed by `generateMidi` from the two selectors. -/
def scaleNotes (mc : MainComponent K) : List Int :=
  MusicScales.getScaleNotes mc.scaleSelector mc.rootNote

/-- The entry `activePattern[i]` computed by `generateMidi`, when the rhythm returns a
mask and the mask has an entry `i`. -/
def activeAt (m : CMath K) (mc : MainComponent K) (statics : RandomRhythmStatics)
    (rand : Nat → Int) (i : Nat) : Option Bool :=
  match mc.currentRhythm.calculateActiveNotes m statics rand mc.drones.length mc.frameCount with
  | none => none
  | some (activePattern, _) => activePattern[i]?

/-- The candidate pitch `note = scaleNotes[noteIdx]` that `generateMidi` computes for
the drone `d`. -/
def candidateNote [FloorRing K] (mc : MainComponent K) (d : SwarmDrone K) : Option Int :=
  vectorAt mc.scaleNotes (noteIndex mc.scaleNotes d.position.x)

end MainComponent

/-- The messages of a log that were sent by the loop iteration of drone `i`, in order. -/
def eventsOf (i : Nat) (sent : List (Nat × MidiMessage K)) : List (MidiMessage K) :=
  (sent.filter (fun e => decide (e.1 = i))).map (fun e => e.2)

/-- A note event: the kind and the pitch of a note-on or note-off message. -/
inductive NoteEvent where
  | On (pitch : Int)
  | Off (pitch : Int)
deriving DecidableEq

/-- The note event carried by a message; a controller message carries none. -/
def MidiMessage.noteEvent : MidiMessage K → Option NoteEvent
  | MidiMessage.noteOn _ noteNumber _ => some (NoteEvent.On noteNumber)
  | MidiMessage.noteOff _ noteNumber _ => some (NoteEvent.Off noteNumber)
  | MidiMessage.controllerEvent _ _ _ => none

/-- The note events sent for drone `i`, in order. -/
def noteEventsOf (i : Nat) (sent : List (Nat × MidiMessage K)) : List NoteEvent :=
  (eventsOf i sent).filterMap MidiMessage.noteEvent

/-- The monitor of the note protocol of one drone. From the pitch currently sounding
(`none` when silent) it reads note events: an On is accepted only when silent, an Off
only when it carries the sounding pitch. The result is the pitch sounding at the end,
or `none` when an event was refused. -/
def noteMonitor : Option Int → List NoteEvent → Option (Option Int)
  | held, [] => some held
  | none, NoteEvent.On p :: rest => noteMonitor (some p) rest
  | some _, NoteEvent.On _ :: _ => none
  | none, NoteEvent.Off _ :: _ => none
  | some h, NoteEvent.Off p :: rest => if p = h then noteMonitor none rest else none

/-- The note events the protocol prescribes for a drone that triggers at every check:
from the held pitch `held` and the candidate pitches of the successive checks, one list
of events per check. -/
def expectedEvents : Option Int → List Int → List (List NoteEvent)
  | _, [] => []
  | none, p :: rest => [NoteEvent.On p] :: expectedEvents (some p) rest
  | some h, p :: rest =>
    if p = h then [] :: expectedEvents (some h) rest
    else [NoteEvent.Off h, NoteEvent.On p] :: expectedEvents (some p) rest

/-- The held-note flag agrees with the held pitch: `noteActive` is true exactly when
`currentNote` is not 0. -/
def SwarmDrone.flagConsistent (d : SwarmDrone K) : Prop :=
  d.noteActive = true ↔ d.currentNote ≠ 0

/-- Entry `k` of the velocity cache respects the speed limit 0.3 and the target of
drone `k` is its position plus 5 times that entry. -/
def FlockFormation.aheadAt (m : CMath K) (drones : List (SwarmDrone K))
    (velocities : List (Vector3D K)) (k : Nat) : Prop :=
  ∃ d v, drones[k]? = some d ∧ velocities[k]? = some v ∧ v.length m ≤ 0.3
    ∧ d.targetPosition = d.position.add (v.mul 5)

/-! ## Runs of timer ticks -/

/-- What the rest of the program has done to the component when `generateMidi` is
entered on one timer tick: `updateSwarm` has rewritten the position and velocity of
every drone (`physics i` for drone `i`), the combo boxes and the slider hold the
current rhythm, scale and root; `rand` and `nextFloat` are the random draws available
to the call. -/
structure TickInput (K : Type) where
  physics : Nat → Vector3D K × Vector3D K
  currentRhythm : RhythmPattern
  scaleSelector : String
  rootNote : Int
  rand : Nat → Int
  nextFloat : Nat → K

/-- The drones with the position and velocity of drone `i + j` (for the `j`-th list
entry) replaced by `physics (i + j)`; the note state is untouched. -/
def setPhysics (physics : Nat → Vector3D K × Vector3D K) :
    Nat → List (SwarmDrone K) → List (SwarmDrone K)
  | _, [] => []
  | i, d :: rest =>
    { d with position := (physics i).1, velocity := (physics i).2 }
      :: setPhysics physics (i + 1) rest

/-- The component on entry to `generateMidi` on a tick with input `inp`. -/
def TickInput.entry (inp : TickInput K) (mc : MainComponent K) : MainComponent K :=
  { mc with
    drones := setPhysics inp.physics 0 mc.drones
    currentRhythm := inp.currentRhythm
    scaleSelector := inp.scaleSelector
    rootNote := inp.rootNote }

/-- The record of one tick: the component and the statics on entry to `generateMidi`,
the draws of `std::rand()`, and the messages the call sent. -/
structure TickRecord (K : Type) where
  entry : MainComponent K
  statics : RandomRhythmStatics
  rand : Nat → Int
  sent : List (Nat × MidiMessage K)

/-- The ticks of `MainComponent::timerCallback` while not paused, seen from the note
engine: on each tick `generateMidi` runs on the entry state and then `frameCount++`.
The result is the final component and statics and one record per tick; `none` when a
call of `generateMidi` has undefined behaviour. -/
def runTicks [FloorRing K] (m : CMath K) :
    MainComponent K → RandomRhythmStatics → List (TickInput K) →
      Option (MainComponent K × RandomRhythmStatics × List (TickRecord K))
  | mc, statics, [] => some (mc, statics, [])
  | mc, statics, inp :: rest =>
    match MainComponent.generateMidi m (inp.entry mc) statics inp.rand inp.nextFloat with
    | none => none
    | some (mc1, statics1, sent) =>
      match runTicks m { mc1 with frameCount := mc1.frameCount + 1 } statics1 rest with
      | none => none
      | some (mc2, statics2, records) =>
        some (mc2, statics2, ⟨inp.entry mc, statics, inp.rand, sent⟩ :: records)

/-- Drone `i` triggers at the tick of record `r`: it is rhythm-active and fast. -/
def TickRecord.triggers (m : CMath K) (r : TickRecord K) (i : Nat) : Prop :=
  r.entry.activeAt m r.statics r.rand i = some true
    ∧ ∃ d, r.entry.drones[i]? = some d ∧ d.fast m

/-- The candidate pitches of drone `i` at the note checks of a run, in order. -/
def checkPitches [FloorRing K] (i : Nat) : List (TickRecord K) → List Int
  | [] => []
  | r :: rest =>
    if r.entry.isNoteCheck then
      match r.entry.drones[i]? with
      | some d =>
        match r.entry.candidateNote d with
        | some p => p :: checkPitches i rest
        | none => checkPitches i rest
      | none => checkPitches i rest
    else checkPitches i rest

/-- The note events sent for drone `i` at the note checks of a run, one list per check. -/
def checkEvents (i : Nat) : List (TickRecord K) → List (List NoteEvent)
  | [] => []
  | r :: rest =>
    if r.entry.isNoteCheck then
      noteEventsOf i r.sent :: checkEvents i rest
    else checkEvents i rest

/-- All note events sent for drone `i` during a run, in order. -/
def runEvents (i : Nat) (records : List (TickRecord K)) : List NoteEvent :=
  records.flatMap (fun r => noteEventsOf i r.sent)

/-! ## Runs of the physics step -/

/-- What reaches one drone during one timer tick before its `update`: the target the
formation step leaves in `targetPosition`, the two slider values, and the noise draws. -/
structure TickDraw (K : Type) where
  target : Vector3D K
  chaosLevel : K
  formationStrength : K
  gauss : Vector3D K

/-- The drone after a sequence of timer ticks: on each tick the target is set and
`update` runs (the loop of `MainComponent::updateSwarm`, seen from one drone). -/
def SwarmDrone.updates (m : CMath K) (d : SwarmDrone K) : List (TickDraw K) → SwarmDrone K
  | [] => d
  | t :: ts =>
    SwarmDrone.updates m
      (SwarmDrone.update m { d with targetPosition := t.target } t.chaosLevel
        t.formationStrength t.gauss) ts

/-- Every coordinate of `p` lies in the interval from `-b` to `b`. -/
def Vector3D.inCube (b : K) (p : Vector3D K) : Prop :=
  (-b ≤ p.x ∧ p.x ≤ b) ∧ (-b ≤ p.y ∧ p.y ≤ b) ∧ (-b ≤ p.z ∧ p.z ≤ b)

/-! ## Inputs for the examples -/

/-- A swarm of one drone for the examples: MIDI output present, Continuous rhythm. -/
def soloSwarm (frameCount : Int) (scale : String) (root : Int) (d : SwarmDrone K) :
    MainComponent K where
  midiOutput := true
  drones := [d]
  currentRhythm := RhythmPattern.Continuous
  frameCount := frameCount
  paused := false
  chaosLevel := 0.3
  formationStrength := 0.7
  scaleSelector := scale
  rootNote := root

/-- A drone with the given X coordinate and X velocity, its other coordinates zero. -/
def droneAt (x vx : K) (noteActive : Bool) (currentNote : Int) : SwarmDrone K where
  position := ⟨x, 0, 0⟩
  velocity := ⟨vx, 0, 0⟩
  targetPosition := ⟨x, 0, 0⟩
  droneId := 0
  size := 100
  noteActive := noteActive
  currentNote := currentNote
  midiChannel := 0
  trail := []

/-- A drone on the X axis for the example runs: position `(x, 0, 0)`, velocity
`(vx, 0, 0)`, id 0 on channel 0, with the target a drone constructed at `(-10, 0, 0)`
starts with. -/
def runDrone (x vx size : K) (noteActive : Bool) (currentNote : Int) : SwarmDrone K where
  position := ⟨x, 0, 0⟩
  velocity := ⟨vx, 0, 0⟩
  targetPosition := ⟨-10, 0, 0⟩
  droneId := 0
  size := size
  noteActive := noteActive
  currentNote := currentNote
  midiChannel := 0
  trail := []

/-- A tick input for the example runs: the drone is at `(x, 0, 0)` with velocity
`(vx, 0, 0)`, the rhythm is Continuous, and the controller draw is 1 (no controller
message). -/
def soloInput (x vx : K) (scale : String) (root : Int) : TickInput K where
  physics := fun _ => (⟨x, 0, 0⟩, ⟨vx, 0, 0⟩)
  currentRhythm := RhythmPattern.Continuous
  scaleSelector := scale
  rootNote := root
  rand := fun _ => 0
  nextFloat := fun _ => 1

/-- A drone at rest at the origin with id `id` on channel `id`, holding `pitch`. -/
def holdingDrone (id pitch : Int) : SwarmDrone K :=
  { droneAt 0 0 true pitch with droneId := id, midiChannel := id }

/-- A component at teardown with a MIDI output and two drones that hold the pitches
60 and 67 on the channels of the ids 0 and 1. -/
def examplePair : MainComponent K where
  midiOutput := true
  drones := [holdingDrone 0 60, holdingDrone 1 67]
  currentRhythm := RhythmPattern.Continuous
  frameCount := 7
  paused := false
  chaosLevel := 0.3
  formationStrength := 0.7
  scaleSelector := "Major"
  rootNote := 60

/-- The example run of claim C4: ten ticks in C Major from root 60; at the note checks
of frames 0, 3, 6 and 9 the drone is at X = -14.0, -13.6, -13.6 and -12.1. -/
def exampleRunMajor : List (TickInput K) :=
  [soloInput (-14.0) 0.4 "Major" 60, soloInput (-14.4) (-0.4) "Major" 60,
   soloInput (-14.0) 0.4 "Major" 60, soloInput (-13.6) 0.4 "Major" 60,
   soloInput (-14.0) (-0.4) "Major" 60, soloInput (-14.1) (-0.1) "Major" 60,
   soloInput (-13.6) 0.5 "Major" 60, soloInput (-13.1) 0.5 "Major" 60,
   soloInput (-12.6) 0.5 "Major" 60, soloInput (-12.1) 0.5 "Major" 60]

/-- A run of four ticks in the Chromatic scale from root 0: at the note checks of
frames 0 and 3 the drone is at X = -14.5 and -13.7. -/
def exampleRunPitchZero : List (TickInput K) :=
  [soloInput (-14.5) (-0.4) "Chromatic" 0, soloInput (-14.3) 0.2 "Chromatic" 0,
   soloInput (-14.1) 0.2 "Chromatic" 0, soloInput (-13.7) 0.4 "Chromatic" 0]

/-- A run of ten ticks in the Pentatonic scale from root 0: the drone leaves X = -10
at speed 0.5 towards the wall, turns after frame 6 and comes back. -/
def exampleRunRootZero : List (TickInput K) :=
  [soloInput (-10.5) (-0.5) "Pentatonic" 0, soloInput (-11.0) (-0.5) "Pentatonic" 0,
   soloInput (-11.5) (-0.5) "Pentatonic" 0, soloInput (-12.0) (-0.5) "Pentatonic" 0,
   soloInput (-12.5) (-0.5) "Pentatonic" 0, soloInput (-13.0) (-0.5) "Pentatonic" 0,
   soloInput (-13.5) (-0.5) "Pentatonic" 0, soloInput (-13.0) 0.5 "Pentatonic" 0,
   soloInput (-12.5) 0.5 "Pentatonic" 0, soloInput (-12.0) 0.5 "Pentatonic" 0]

/-- Four drones as constructed, with ids 0 to 3, for the circle example. -/
def exampleFour : List (SwarmDrone K) :=
  [SwarmDrone.construct 0 ⟨1, 2, 3⟩, SwarmDrone.construct 1 ⟨-4, 0, 5⟩,
   SwarmDrone.construct 2 ⟨0, 0, 0⟩, SwarmDrone.construct 3 ⟨7, -8, 9⟩]

/-- A component with a MIDI output, the four example drones and the Polyrhythm rhythm,
at the given frame. -/
def examplePoly (frameCount : Int) : MainComponent K where
  midiOutput := true
  drones := exampleFour
  currentRhythm := RhythmPattern.Polyrhythm
  frameCount := frameCount
  paused := false
  chaosLevel := 0.3
  formationStrength := 0.7
  scaleSelector := "Major"
  rootNote := 60

/-- A component with a MIDI output and no drone, under the given rhythm at the given
frame. -/
def emptySwarm (rhythm : RhythmPattern) (frameCount : Int) : MainComponent K where
  midiOutput := true
  drones := []
  currentRhythm := rhythm
  frameCount := frameCount
  paused := false
  chaosLevel := 0.3
  formationStrength := 0.7
  scaleSelector := "Major"
  rootNote := 60

/-- A drone at the origin with velocity `(0.2, 0, 0)` whose target is 0.001 away on
the X axis. -/
def nearTargetDrone : SwarmDrone K :=
  { droneAt 0 0.2 false 0 with targetPosition := ⟨0.001, 0, 0⟩ }

/-! # Theorems -/

section Physics

/-- The real square root is a square root: its square gives back a non-negative input. -/
theorem real_sqrt_sq_lengthSquared (v : Vector3D ℝ) :
    Real.sqrt v.lengthSquared * Real.sqrt v.lengthSquared = v.lengthSquared := by
  apply Real.mul_self_sqrt
  unfold Vector3D.lengthSquared
  have hx := mul_self_nonneg v.x
  have hy := mul_self_nonneg v.y
  have hz := mul_self_nonneg v.z
  linarith

/-- The speed limit of `update`, over the reals: the limited velocity has squared
length at most a quarter. -/
theorem speed_limit_lengthSquared (sin cos : ℝ → ℝ) (twoPi : ℝ) (v : Vector3D ℝ) :
    (SwarmDrone.limitSpeed ⟨Real.sqrt, sin, cos, twoPi⟩ v).lengthSquared ≤ 0.25 := by
  have hsq := real_sqrt_sq_lengthSquared v
  unfold SwarmDrone.limitSpeed
  simp only [Vector3D.length]
  split
  · next h =>
    have hpos : (0 : ℝ) < Real.sqrt v.lengthSquared := by linarith
    have hne : Real.sqrt v.lengthSquared ≠ 0 := ne_of_gt hpos
    have key : (v.mul (0.5 / Real.sqrt v.lengthSquared)).lengthSquared
        = v.lengthSquared * (0.5 / Real.sqrt v.lengthSquared) ^ 2 := by
      simp only [Vector3D.mul, Vector3D.lengthSquared]
      ring
    rw [key]
    have h2 : (0.5 / Real.sqrt v.lengthSquared) ^ 2
        = 0.25 / (Real.sqrt v.lengthSquared * Real.sqrt v.lengthSquared) := by
      field_simp
      ring
    rw [h2, hsq]
    have hl : v.lengthSquared ≠ 0 := by
      intro h0
      apply hne
      rw [h0]
      exact Real.sqrt_zero
    rw [mul_div_assoc', mul_comm, mul_div_assoc, div_self hl]
    norm_num
  · next h =>
    have h1 : Real.sqrt v.lengthSquared ≤ 0.5 := not_lt.mp h
    have h0 : 0 ≤ Real.sqrt v.lengthSquared := Real.sqrt_nonneg _
    nlinarith

/-- A component of a vector of squared length at most a quarter is at most a half in
absolute value. -/
theorem component_le_half (v : Vector3D ℝ) (h : v.lengthSquared ≤ 0.25) :
    (-0.5 ≤ v.x ∧ v.x ≤ 0.5) ∧ (-0.5 ≤ v.y ∧ v.y ≤ 0.5) ∧ (-0.5 ≤ v.z ∧ v.z ≤ 0.5) := by
  unfold Vector3D.lengthSquared at h
  refine ⟨⟨?_, ?_⟩, ⟨?_, ?_⟩, ⟨?_, ?_⟩⟩ <;> nlinarith [sq_nonneg v.x, sq_nonneg v.y, sq_nonneg v.z]

/-- One axis of the bounce: a coordinate that left the cube by at most a half is
reflected back into it. -/
theorem bounceAxis_in_range (p v : ℝ) (hp : -15 ≤ p ∧ p ≤ 15) (hv : -0.5 ≤ v ∧ v ≤ 0.5) :
    -15 ≤ (SwarmDrone.bounceAxis (p + v) v).1 ∧ (SwarmDrone.bounceAxis (p + v) v).1 ≤ 15 := by
  unfold SwarmDrone.bounceAxis
  obtain ⟨hp1, hp2⟩ := hp
  obtain ⟨hv1, hv2⟩ := hv
  simp only
  split_ifs with h1 h2
  · constructor <;> norm_num at * <;> linarith
  · constructor <;> norm_num at * <;> linarith
  · constructor <;> norm_num at * <;> linarith

/-- One axis of the bounce never increases the square of the velocity component. -/
theorem bounceAxis_vel_sq (c v : ℝ) :
    (SwarmDrone.bounceAxis c v).2 * (SwarmDrone.bounceAxis c v).2 ≤ v * v := by
  unfold SwarmDrone.bounceAxis
  simp only
  split_ifs <;> nlinarith [mul_self_nonneg v]

/-- Claim C1 (boundary invariant). Over real arithmetic, `SwarmDrone::update` maps a
drone whose position lies in the cube of half-width 15 to a drone whose position lies
in that cube, whatever the velocity, target, chaos level, formation strength and noise
draws are; the same holds after any sequence of ticks, and therefore for a newly
constructed drone, whose position is drawn from the cube of half-width 10. -/
theorem update_position_in_cube (d : SwarmDrone ℝ) (chaosLevel formationStrength : ℝ)
    (gauss : Vector3D ℝ) (ticks : List (TickDraw ℝ)) (id : Int) (posDraw : Vector3D ℝ)
    (h : d.position.inCube 15) (hdraw : posDraw.inCube 10) :
    (SwarmDrone.update ⟨Real.sqrt, Real.sin, Real.cos, 2 * Real.pi⟩ d chaosLevel
        formationStrength gauss).position.inCube 15
    ∧ (SwarmDrone.updates ⟨Real.sqrt, Real.sin, Real.cos, 2 * Real.pi⟩ d ticks).position.inCube 15
    ∧ (SwarmDrone.updates ⟨Real.sqrt, Real.sin, Real.cos, 2 * Real.pi⟩
        (SwarmDrone.construct id posDraw) ticks).position.inCube 15 := by
  have step : ∀ (e : SwarmDrone ℝ) (c f : ℝ) (g : Vector3D ℝ), e.position.inCube 15 →
      (SwarmDrone.update ⟨Real.sqrt, Real.sin, Real.cos, 2 * Real.pi⟩ e c f g).position.inCube
        15 := by
    intro e c f g he
    have hv := component_le_half _
      (speed_limit_lengthSquared Real.sin Real.cos (2 * Real.pi)
        (SwarmDrone.dampedVelocity ⟨Real.sqrt, Real.sin, Real.cos, 2 * Real.pi⟩ e c f g))
    obtain ⟨hx, hy, hz⟩ := he
    obtain ⟨vx, vy, vz⟩ := hv
    exact ⟨bounceAxis_in_range _ _ hx vx, bounceAxis_in_range _ _ hy vy,
      bounceAxis_in_range _ _ hz vz⟩
  have run : ∀ (ts : List (TickDraw ℝ)) (e : SwarmDrone ℝ), e.position.inCube 15 →
      (SwarmDrone.updates ⟨Real.sqrt, Real.sin, Real.cos, 2 * Real.pi⟩ e ts).position.inCube
        15 := by
    intro ts
    induction ts with
    | nil => intro e he; exact he
    | cons t ts ih =>
      intro e he
      exact ih _ (step { e with targetPosition := t.target } _ _ _ he)
  refine ⟨step d _ _ _ h, run ticks d h, run ticks _ ?_⟩
  obtain ⟨⟨a1, a2⟩, ⟨b1, b2⟩, ⟨c1, c2⟩⟩ := hdraw
  refine ⟨⟨?_, ?_⟩, ⟨?_, ?_⟩, ⟨?_, ?_⟩⟩ <;> simp only [SwarmDrone.construct] <;> linarith

/-- Witness for C1: a drone in the corner of the cube, moving outwards. -/
theorem update_position_in_cube_witness :
    (⟨15, -15, 0⟩ : Vector3D ℝ).inCube 15 ∧ (⟨-10, 10, 3⟩ : Vector3D ℝ).inCube 10
    ∧ (SwarmDrone.update ⟨Real.sqrt, Real.sin, Real.cos, 2 * Real.pi⟩
        (⟨⟨15, -15, 0⟩, ⟨2, -3, 1⟩, ⟨40, -40, 7⟩, 0, 100, false, 0, 0, []⟩ : SwarmDrone ℝ)
        1 1 ⟨1, -1, 2⟩).position.inCube 15 := by
  have h1 : (⟨15, -15, 0⟩ : Vector3D ℝ).inCube 15 := by
    simp only [Vector3D.inCube]; norm_num
  have h2 : (⟨-10, 10, 3⟩ : Vector3D ℝ).inCube 10 := by
    simp only [Vector3D.inCube]; norm_num
  exact ⟨h1, h2,
    (update_position_in_cube
      (⟨⟨15, -15, 0⟩, ⟨2, -3, 1⟩, ⟨40, -40, 7⟩, 0, 100, false, 0, 0, []⟩ : SwarmDrone ℝ)
      1 1 ⟨1, -1, 2⟩ [] 0 ⟨-10, 10, 3⟩ h1 h2).1⟩

/-- Claim C2 (speed-clamp invariant). Over real arithmetic, the velocity left by
`SwarmDrone::update`, bounce of `enforceBoundaries` included, has length at most 0.5,
for every drone state, chaos level, formation strength and noise draw. -/
theorem update_speed_le_half (d : SwarmDrone ℝ) (chaosLevel formationStrength : ℝ)
    (gauss : Vector3D ℝ) :
    (SwarmDrone.update ⟨Real.sqrt, Real.sin, Real.cos, 2 * Real.pi⟩ d chaosLevel
        formationStrength gauss).velocity.length ⟨Real.sqrt, Real.sin, Real.cos, 2 * Real.pi⟩
      ≤ 0.5 := by
  have hl := speed_limit_lengthSquared Real.sin Real.cos (2 * Real.pi)
    (SwarmDrone.dampedVelocity ⟨Real.sqrt, Real.sin, Real.cos, 2 * Real.pi⟩ d chaosLevel
      formationStrength gauss)
  simp only [Vector3D.length]
  rw [Real.sqrt_le_left (by norm_num : (0 : ℝ) ≤ 0.5)]
  simp only [SwarmDrone.update, SwarmDrone.enforceBoundaries, Vector3D.lengthSquared] at hl ⊢
  have bx := bounceAxis_vel_sq
    (d.position.add (SwarmDrone.limitSpeed ⟨Real.sqrt, Real.sin, Real.cos, 2 * Real.pi⟩
      (SwarmDrone.dampedVelocity ⟨Real.sqrt, Real.sin, Real.cos, 2 * Real.pi⟩ d chaosLevel
        formationStrength gauss))).x
    (SwarmDrone.limitSpeed ⟨Real.sqrt, Real.sin, Real.cos, 2 * Real.pi⟩
      (SwarmDrone.dampedVelocity ⟨Real.sqrt, Real.sin, Real.cos, 2 * Real.pi⟩ d chaosLevel
        formationStrength gauss)).x
  have by1 := bounceAxis_vel_sq
    (d.position.add (SwarmDrone.limitSpeed ⟨Real.sqrt, Real.sin, Real.cos, 2 * Real.pi⟩
      (SwarmDrone.dampedVelocity ⟨Real.sqrt, Real.sin, Real.cos, 2 * Real.pi⟩ d chaosLevel
        formationStrength gauss))).y
    (SwarmDrone.limitSpeed ⟨Real.sqrt, Real.sin, Real.cos, 2 * Real.pi⟩
      (SwarmDrone.dampedVelocity ⟨Real.sqrt, Real.sin, Real.cos, 2 * Real.pi⟩ d chaosLevel
        formationStrength gauss)).y
  have bz := bounceAxis_vel_sq
    (d.position.add (SwarmDrone.limitSpeed ⟨Real.sqrt, Real.sin, Real.cos, 2 * Real.pi⟩
      (SwarmDrone.dampedVelocity ⟨Real.sqrt, Real.sin, Real.cos, 2 * Real.pi⟩ d chaosLevel
        formationStrength gauss))).z
    (SwarmDrone.limitSpeed ⟨Real.sqrt, Real.sin, Real.cos, 2 * Real.pi⟩
      (SwarmDrone.dampedVelocity ⟨Real.sqrt, Real.sin, Real.cos, 2 * Real.pi⟩ d chaosLevel
        formationStrength gauss)).z
  norm_num at hl ⊢
  linarith

/-- The trail written by `update` is the one computed by its first two statements. -/
theorem update_trail_eq (m : CMath K) (d : SwarmDrone K) (c f : K) (g : Vector3D K) :
    (SwarmDrone.update m d c f g).trail = SwarmDrone.pushTrail d := rfl

/-- Pushing onto a trail of at most 20 entries keeps the first 20 entries. -/
theorem pushTrail_eq_take {F : Type} (d : SwarmDrone F) (h : d.trail.length ≤ 20) :
    SwarmDrone.pushTrail d = (d.position :: d.trail).take 20 := by
  unfold SwarmDrone.pushTrail SwarmDrone.MAX_TRAIL_LENGTH
  simp only [List.length_cons]
  split
  · next hgt =>
    have hlen : d.trail.length = 20 := by omega
    rw [List.dropLast_eq_take, List.length_cons, hlen]
  · next hle =>
    rw [List.take_of_length_le]
    simp only [List.length_cons]
    omega

/-- Claim C3 (trail bound). For a drone whose trail has at most 20 entries, the trail
after `SwarmDrone::update` is the old position followed by the old trail, cut to its
first 20 entries; and the trail of a newly constructed drone has at most 20 entries
after any number of updates. -/
theorem update_trail_bound (m : CMath K) (d : SwarmDrone K) (chaosLevel formationStrength : K)
    (gauss : Vector3D K) (ticks : List (TickDraw K)) (id : Int) (posDraw : Vector3D K)
    (h : d.trail.length ≤ 20) :
    (SwarmDrone.update m d chaosLevel formationStrength gauss).trail
        = (d.position :: d.trail).take 20
    ∧ (SwarmDrone.updates m (SwarmDrone.construct id posDraw) ticks).trail.length ≤ 20 := by
  refine ⟨by rw [update_trail_eq, pushTrail_eq_take d h], ?_⟩
  have run : ∀ (ts : List (TickDraw K)) (e : SwarmDrone K), e.trail.length ≤ 20 →
      (SwarmDrone.updates m e ts).trail.length ≤ 20 := by
    intro ts
    induction ts with
    | nil => intro e he; exact he
    | cons t ts ih =>
      intro e he
      apply ih
      rw [update_trail_eq, pushTrail_eq_take { e with targetPosition := t.target } he]
      simp only [List.length_take]
      omega
  apply run
  simp [SwarmDrone.construct]

/-- Witness for C3: a drone with a trail of two entries. -/
theorem update_trail_bound_witness :
    (⟨⟨1, 2, 3⟩, ⟨0, 0, 0⟩, ⟨1, 2, 3⟩, 0, 100, false, 0, 0, [⟨1, 1, 1⟩, ⟨0, 0, 0⟩]⟩ :
        SwarmDrone ℝ).trail.length ≤ 20
    ∧ (SwarmDrone.update ⟨Real.sqrt, Real.sin, Real.cos, 2 * Real.pi⟩
        (⟨⟨1, 2, 3⟩, ⟨0, 0, 0⟩, ⟨1, 2, 3⟩, 0, 100, false, 0, 0, [⟨1, 1, 1⟩, ⟨0, 0, 0⟩]⟩ :
          SwarmDrone ℝ) 0 0 ⟨0, 0, 0⟩).trail
        = [⟨1, 2, 3⟩, ⟨1, 1, 1⟩, ⟨0, 0, 0⟩] := by
  have h : (⟨⟨1, 2, 3⟩, ⟨0, 0, 0⟩, ⟨1, 2, 3⟩, 0, 100, false, 0, 0, [⟨1, 1, 1⟩, ⟨0, 0, 0⟩]⟩ :
        SwarmDrone ℝ).trail.length ≤ 20 := by
    simp
  refine ⟨h, ?_⟩
  rw [(update_trail_bound ⟨Real.sqrt, Real.sin, Real.cos, 2 * Real.pi⟩ _ 0 0 ⟨0, 0, 0⟩ [] 0
    ⟨0, 0, 0⟩ h).1]
  rfl

/-! ## Steering near the target (C25) -/

/-- The distance of the example drone to its target is 0.001. -/
theorem nearTargetDrone_distance :
    ((nearTargetDrone : SwarmDrone ℝ).targetPosition.sub nearTargetDrone.position).length
      ⟨Real.sqrt, Real.sin, Real.cos, 2 * Real.pi⟩ = 0.001 := by
  simp only [nearTargetDrone, droneAt, Vector3D.sub, Vector3D.length, Vector3D.lengthSquared]
  have e : ((0.001 : ℝ) - 0) * (0.001 - 0) + (0 - 0) * (0 - 0) + (0 - 0) * (0 - 0)
      = 0.001 * 0.001 := by norm_num
  rw [e]
  exact Real.sqrt_mul_self (by norm_num)

/-- Counterexample for C25: the drone at the origin with velocity `(0.2, 0, 0)` and its
target 0.001 away is within 0.001 of its target, and with formation strength 1 and no
noise its velocity before the speed clamp is not 0.95 times its old velocity. -/
theorem dampedVelocity_near_target_steers :
    ((nearTargetDrone : SwarmDrone ℝ).targetPosition.sub nearTargetDrone.position).length
        ⟨Real.sqrt, Real.sin, Real.cos, 2 * Real.pi⟩ ≤ 0.001
      ∧ SwarmDrone.dampedVelocity ⟨Real.sqrt, Real.sin, Real.cos, 2 * Real.pi⟩
          (nearTargetDrone : SwarmDrone ℝ) 0 1 ⟨0, 0, 0⟩
        = ⟨0.190095, 0, 0⟩
      ∧ SwarmDrone.dampedVelocity ⟨Real.sqrt, Real.sin, Real.cos, 2 * Real.pi⟩
          (nearTargetDrone : SwarmDrone ℝ) 0 1 ⟨0, 0, 0⟩
        ≠ (nearTargetDrone : SwarmDrone ℝ).velocity.mul 0.95 := by
  have hd := nearTargetDrone_distance
  have hv : SwarmDrone.dampedVelocity ⟨Real.sqrt, Real.sin, Real.cos, 2 * Real.pi⟩
      (nearTargetDrone : SwarmDrone ℝ) 0 1 ⟨0, 0, 0⟩ = ⟨0.190095, 0, 0⟩ := by
    unfold SwarmDrone.dampedVelocity
    simp only [hd]
    rw [if_neg (by norm_num)]
    simp only [nearTargetDrone, droneAt, Vector3D.sub, Vector3D.add, Vector3D.mul,
      normal_distribution]
    norm_num
  refine ⟨le_of_eq hd, hv, ?_⟩
  rw [hv]
  simp only [nearTargetDrone, droneAt, Vector3D.mul]
  norm_num

/-- Claim C25, amended (steering at the target). For every drone within 0.001 of its
target, every formation strength and zero noise, `SwarmDrone::update` skips the
normalisation and applies the force `0.1 * formationStrength * (targetPosition -
position)`: the velocity before the speed clamp is 0.95 times the sum of the old
velocity and that force, which is 0.95 times the old velocity when the target is the
position or the formation strength is 0. -/
theorem dampedVelocity_near_target (m : CMath K) (d : SwarmDrone K) (formationStrength : K)
    (gauss : Vector3D K)
    (hnear : (d.targetPosition.sub d.position).length m ≤ 0.001) :
    SwarmDrone.dampedVelocity m d 0 formationStrength gauss
        = (d.velocity.add
            ((d.targetPosition.sub d.position).mul (0.1 * formationStrength))).mul 0.95
      ∧ (d.targetPosition = d.position ∨ formationStrength = 0 →
          SwarmDrone.dampedVelocity m d 0 formationStrength gauss = d.velocity.mul 0.95) := by
  have hv : SwarmDrone.dampedVelocity m d 0 formationStrength gauss
      = (d.velocity.add
          ((d.targetPosition.sub d.position).mul (0.1 * formationStrength))).mul 0.95 := by
    unfold SwarmDrone.dampedVelocity
    simp only
    rw [if_neg (not_lt.mpr hnear)]
    simp only [Vector3D.add, Vector3D.mul, normal_distribution]
    norm_num
  refine ⟨hv, ?_⟩
  rintro (h | h)
  · rw [hv, h]
    simp only [Vector3D.add, Vector3D.mul, Vector3D.sub]
    norm_num
  · rw [hv, h]
    simp only [Vector3D.add, Vector3D.mul, Vector3D.sub]
    norm_num

/-- Witness for C25: the example drone, with formation strength 1. -/
theorem dampedVelocity_near_target_witness :
    SwarmDrone.dampedVelocity ⟨Real.sqrt, Real.sin, Real.cos, 2 * Real.pi⟩
        (nearTargetDrone : SwarmDrone ℝ) 0 1 ⟨0, 0, 0⟩
        = ((nearTargetDrone : SwarmDrone ℝ).velocity.add
            (((nearTargetDrone : SwarmDrone ℝ).targetPosition.sub
              nearTargetDrone.position).mul (0.1 * 1))).mul 0.95
      ∧ ((nearTargetDrone : SwarmDrone ℝ).targetPosition = nearTargetDrone.position
            ∨ (1 : ℝ) = 0 →
          SwarmDrone.dampedVelocity ⟨Real.sqrt, Real.sin, Real.cos, 2 * Real.pi⟩
            (nearTargetDrone : SwarmDrone ℝ) 0 1 ⟨0, 0, 0⟩
            = (nearTargetDrone : SwarmDrone ℝ).velocity.mul 0.95) :=
  dampedVelocity_near_target ⟨Real.sqrt, Real.sin, Real.cos, 2 * Real.pi⟩
    nearTargetDrone 1 ⟨0, 0, 0⟩ (le_of_eq nearTargetDrone_distance)

end Physics

section NoteEngine

/-! ## Scale lists, rhythm masks and the loop of generateMidi -/

theorem lookup_mem_values {α : Type} (k : String) (v : α) :
    ∀ l : List (String × α), l.lookup k = some v → v ∈ l.map Prod.snd := by
  intro l
  induction l with
  | nil => intro h; simp [List.lookup] at h
  | cons e l ih =>
    intro h
    obtain ⟨k1, v1⟩ := e
    simp only [List.lookup] at h
    split at h
    · simp only [Option.some.injEq] at h
      simp [h]
    · simp only [List.map_cons, List.mem_cons]
      exact Or.inr (ih h)

theorem intervalsOf_mem (name : String) :
    MusicScales.intervalsOf name ∈ MusicScales.scales.map Prod.snd := by
  unfold MusicScales.intervalsOf
  split
  · next intervals h => exact lookup_mem_values _ _ _ h
  · decide

theorem scales_shape :
    ∀ ivs ∈ MusicScales.scales.map Prod.snd,
      ivs.head? = some 0 ∧ ∀ iv ∈ ivs, 0 ≤ iv := by
  decide

theorem intervalsOf_shape (name : String) :
    ∃ tl : List Int, MusicScales.intervalsOf name = 0 :: tl
      ∧ ∀ iv ∈ MusicScales.intervalsOf name, 0 ≤ iv := by
  obtain ⟨h1, h2⟩ := scales_shape _ (intervalsOf_mem name)
  cases h : MusicScales.intervalsOf name with
  | nil => rw [h] at h1; simp at h1
  | cons a tl =>
    rw [h] at h1 h2
    simp only [List.head?_cons, Option.some.injEq] at h1
    exact ⟨tl, by rw [h1], h2⟩

theorem getScaleNotes_head (name : String) (root : Int) (h0 : 0 ≤ root) (h1 : root ≤ 127) :
    ∃ tl, MusicScales.getScaleNotes name root = root :: tl := by
  obtain ⟨tl, h, _⟩ := intervalsOf_shape name
  unfold MusicScales.getScaleNotes
  rw [h]
  have hd : 0 ≤ root ∧ root < 128 := by omega
  simp [List.range_succ_eq_map, List.filter_cons, hd]

theorem getScaleNotes_ge (name : String) (root : Int) :
    ∀ note ∈ MusicScales.getScaleNotes name root, root ≤ note ∧ 0 ≤ note ∧ note ≤ 127 := by
  obtain ⟨_, _, h⟩ := intervalsOf_shape name
  intro note hn
  unfold MusicScales.getScaleNotes at hn
  simp only [List.mem_flatMap, List.mem_range, List.mem_filter, List.mem_map,
    decide_eq_true_eq] at hn
  obtain ⟨octave, _, ⟨iv, hiv, rfl⟩, h0, h1⟩ := hn
  have := h iv hiv
  omega

theorem calculateActiveNotes_length (m : CMath K) (r : RhythmPattern)
    (statics : RandomRhythmStatics) (rand : Nat → Int) (n : Nat) (f : Int)
    (mask : List Bool) (statics1 : RandomRhythmStatics)
    (h : r.calculateActiveNotes m statics rand n f = some (mask, statics1)) :
    mask.length = n := by
  cases r <;> simp only [RhythmPattern.calculateActiveNotes] at h
  · simp only [Option.some.injEq, Prod.mk.injEq] at h
    rw [← h.1]; simp
  · simp only [Option.some.injEq, Prod.mk.injEq] at h
    rw [← h.1]; simp
  · split at h
    · simp at h
    · split at h
      · simp at h
      · simp only [Option.some.injEq, Prod.mk.injEq] at h
        rw [← h.1]; simp
  · simp only [Option.some.injEq, Prod.mk.injEq] at h
    rw [← h.1]; simp
  · split at h
    · simp only [Option.some.injEq, Prod.mk.injEq] at h
      rw [← h.1]; simp
    · next hc =>
      simp only [Option.some.injEq, Prod.mk.injEq] at h
      rw [← h.1]
      by_contra hne
      exact hc (Or.inr hne)
  · simp only [Option.some.injEq, Prod.mk.injEq] at h
    rw [← h.1]; simp

theorem calculateActiveNotes_isSome (m : CMath K) (r : RhythmPattern)
    (statics : RandomRhythmStatics) (rand : Nat → Int) (n : Nat) (f : Int)
    (hn : n ≠ 0) (hf : 0 ≤ f) :
    ∃ mask statics1, r.calculateActiveNotes m statics rand n f = some (mask, statics1) := by
  cases r <;> simp only [RhythmPattern.calculateActiveNotes]
  · exact ⟨_, _, rfl⟩
  · exact ⟨_, _, rfl⟩
  · rw [if_neg hn]
    have h1 : 0 ≤ (f.tdiv 10).tmod (n : Int) :=
      Int.tmod_nonneg _ (Int.tdiv_nonneg hf (by decide))
    rw [if_neg (not_lt.mpr h1)]
    exact ⟨_, _, rfl⟩
  · exact ⟨_, _, rfl⟩
  · split
    · exact ⟨_, _, rfl⟩
    · exact ⟨_, _, rfl⟩
  · exact ⟨_, _, rfl⟩

theorem jlimit_range (lo hi v : Int) (h : lo ≤ hi) :
    lo ≤ jlimit lo hi v ∧ jlimit lo hi v ≤ hi := by
  unfold jlimit
  split_ifs <;> omega

theorem vectorAt_mem {α : Type} (l : List α) (i : Int) (x : α) (h : vectorAt l i = some x) :
    x ∈ l := by
  unfold vectorAt at h
  split at h
  · simp at h
  · exact List.mem_iff_getElem?.mpr ⟨_, h⟩

theorem vectorAt_isSome {α : Type} (l : List α) (i : Int) (h0 : 0 ≤ i)
    (h1 : i < (l.length : Int)) : ∃ x, vectorAt l i = some x := by
  unfold vectorAt
  rw [if_neg (not_lt.mpr h0)]
  have : i.toNat < l.length := by omega
  exact ⟨l[i.toNat], List.getElem?_eq_getElem this⟩

theorem candidate_isSome [FloorRing K] (scale : List Int) (x : K) (h : scale ≠ []) :
    ∃ note, vectorAt scale (MainComponent.noteIndex scale x) = some note := by
  have hlen : 0 < scale.length := List.length_pos.mpr h
  have hr := jlimit_range 0 ((scale.length : Int) - 1)
    (truncToInt ((x + 15) / 30 * (scale.length : K))) (by omega)
  apply vectorAt_isSome
  · exact hr.1
  · unfold MainComponent.noteIndex
    omega

theorem candidate_ne_nil [FloorRing K] (scale : List Int) (x : K) (note : Int)
    (h : vectorAt scale (MainComponent.noteIndex scale x) = some note) : scale ≠ [] := by
  intro he
  have := vectorAt_mem _ _ _ h
  rw [he] at this
  simp at this

/-- The loop body on a drone that is not rhythm-active or not fast. -/
theorem processDrone_idle [FloorRing K] (m : CMath K) (active : Bool) (scale : List Int)
    (nf : K) (d : SwarmDrone K) (h : ¬ (active = true ∧ d.velocity.length m > 0.3)) :
    MainComponent.processDrone m active scale nf d
      = if d.noteActive = true ∧ d.currentNote > 0 then
          some ({ d with noteActive := false, currentNote := 0, size := 100 },
            [MidiMessage.noteOff (d.midiChannel + 1) d.currentNote 0])
        else some ({ d with size := 100 }, []) := by
  unfold MainComponent.processDrone
  simp only []
  rw [if_neg h]

/-- The loop body on a drone that is rhythm-active and fast, with candidate pitch `note`. -/
theorem processDrone_trigger [FloorRing K] (m : CMath K) (scale : List Int)
    (nf : K) (d : SwarmDrone K) (note : Int) (hfast : d.velocity.length m > 0.3)
    (hnote : vectorAt scale (MainComponent.noteIndex scale d.position.x) = some note) :
    MainComponent.processDrone m true scale nf d
      = if note ≠ d.currentNote then
          some ({ d with noteActive := true, currentNote := note, size := 150 },
            (if d.noteActive = true ∧ d.currentNote > 0 then
              [MidiMessage.noteOff (d.midiChannel + 1) d.currentNote 0] else [])
            ++ [MidiMessage.noteOn (d.midiChannel + 1) note
                ((MainComponent.noteVelocity d.position.y : K) / 127)]
            ++ (if nf < 0.3 then
              [MidiMessage.controllerEvent (d.midiChannel + 1) 1
                (MainComponent.ccValue d.position.z)] else []))
        else some ({ d with size := 100 }, []) := by
  unfold MainComponent.processDrone
  simp only []
  rw [if_pos ⟨by trivial, hfast⟩, hnote]

theorem processDrone_isSome [FloorRing K] (m : CMath K) (active : Bool) (scale : List Int)
    (nf : K) (d : SwarmDrone K) (h : scale ≠ []) :
    ∃ d1 ev, MainComponent.processDrone m active scale nf d = some (d1, ev) := by
  by_cases hc : active = true ∧ d.velocity.length m > 0.3
  · obtain ⟨note, hn⟩ := candidate_isSome scale d.position.x h
    obtain ⟨ha, hf⟩ := hc
    subst ha
    rw [processDrone_trigger m scale nf d note hf hn]
    split <;> exact ⟨_, _, rfl⟩
  · rw [processDrone_idle m active scale nf d hc]
    split <;> exact ⟨_, _, rfl⟩

theorem eventsOf_append {F : Type} (i : Nat) (a b : List (Nat × MidiMessage F)) :
    eventsOf i (a ++ b) = eventsOf i a ++ eventsOf i b := by
  simp [eventsOf]

theorem eventsOf_tagged_self {F : Type} (i : Nat) (ev : List (MidiMessage F)) :
    eventsOf i (ev.map (fun msg => (i, msg))) = ev := by
  induction ev with
  | nil => rfl
  | cons a l ih =>
    simp only [eventsOf, List.map_cons, List.filter_cons, decide_True, if_true] at ih ⊢
    rw [ih]

theorem eventsOf_tagged_other {F : Type} (i j : Nat) (h : j ≠ i) (ev : List (MidiMessage F)) :
    eventsOf i (ev.map (fun msg => (j, msg))) = [] := by
  induction ev with
  | nil => rfl
  | cons a l ih =>
    simp only [eventsOf, List.map_cons, List.filter_cons, decide_eq_true_eq] at ih ⊢
    rw [if_neg h]
    exact ih

theorem eventsOf_of_tags_ne {F : Type} (i : Nat) (sent : List (Nat × MidiMessage F))
    (h : ∀ e ∈ sent, e.1 ≠ i) : eventsOf i sent = [] := by
  induction sent with
  | nil => rfl
  | cons a l ih =>
    simp only [eventsOf, List.filter_cons, decide_eq_true_eq] at ih ⊢
    rw [if_neg (h a (List.mem_cons_self _ _))]
    exact ih (fun e he => h e (List.mem_cons_of_mem _ he))

/-- The loop of `generateMidi` from index `k` on: with a mask entry for every drone and a
non-empty scale list it runs through, and what it does to the `j`-th drone of the
list and sends for it is what the loop body does. -/
theorem processDrones_spec [FloorRing K] (m : CMath K) (mask : List Bool) (scale : List Int)
    (nf : Nat → K) (hscale : scale ≠ []) :
    ∀ (ds : List (SwarmDrone K)) (k : Nat), k + ds.length ≤ mask.length →
      ∃ ds1 sent, MainComponent.processDrones m mask scale nf k ds = some (ds1, sent)
        ∧ ds1.length = ds.length
        ∧ (∀ e ∈ sent, k ≤ e.1)
        ∧ ∀ j d, ds[j]? = some d →
            ∃ a d1 ev, mask[k + j]? = some a
              ∧ MainComponent.processDrone m a scale (nf (k + j)) d = some (d1, ev)
              ∧ ds1[j]? = some d1 ∧ eventsOf (k + j) sent = ev := by
  intro ds
  induction ds with
  | nil =>
    intro k _
    exact ⟨[], [], rfl, rfl, by simp, by simp⟩
  | cons d rest ih =>
    intro k hk
    simp only [List.length_cons] at hk
    have hk1 : k < mask.length := by omega
    obtain ⟨d1, ev, hpd⟩ := processDrone_isSome m mask[k] scale (nf k) d hscale
    obtain ⟨rest1, sentRest, hrest, hlen, htags, hproj⟩ := ih (k + 1) (by omega)
    refine ⟨d1 :: rest1, ev.map (fun msg => (k, msg)) ++ sentRest, ?_, ?_, ?_, ?_⟩
    · simp only [MainComponent.processDrones, List.getElem?_eq_getElem hk1, hpd, hrest]
    · simp [hlen]
    · intro e he
      rcases List.mem_append.mp he with h | h
      · obtain ⟨msg, _, rfl⟩ := List.mem_map.mp h
        exact le_refl _
      · have := htags e h
        omega
    · intro j dj hj
      cases j with
      | zero =>
        simp only [List.getElem?_cons_zero, Option.some.injEq] at hj
        subst hj
        refine ⟨mask[k], d1, ev, List.getElem?_eq_getElem hk1, hpd, by simp, ?_⟩
        rw [Nat.add_zero, eventsOf_append, eventsOf_tagged_self,
          eventsOf_of_tags_ne k sentRest (fun e he => by have := htags e he; omega)]
        simp
      | succ j =>
        simp only [List.getElem?_cons_succ] at hj
        obtain ⟨a, dj1, evj, hm, hp, hd1, hev⟩ := hproj j dj hj
        have hidx : k + (j + 1) = k + 1 + j := by omega
        refine ⟨a, dj1, evj, by rw [hidx]; exact hm, by rw [hidx]; exact hp, ?_, ?_⟩
        · simp only [List.getElem?_cons_succ]; exact hd1
        · rw [hidx, eventsOf_append, eventsOf_tagged_other _ _ (by omega), hev]
          simp

/-- A note check with a mask from the rhythm and a non-empty scale list runs through;
the drones keep their number, and drone `j` and the messages sent for it are those of
the loop body. -/
theorem generateMidi_spec [FloorRing K] (m : CMath K) (mc : MainComponent K)
    (statics : RandomRhythmStatics) (rand : Nat → Int) (nf : Nat → K)
    (mask : List Bool) (statics1 : RandomRhythmStatics)
    (hcheck : mc.isNoteCheck)
    (hmask : mc.currentRhythm.calculateActiveNotes m statics rand mc.drones.length
      mc.frameCount = some (mask, statics1))
    (hscale : mc.scaleNotes ≠ []) :
    ∃ drones1 sent,
      MainComponent.generateMidi m mc statics rand nf
          = some ({ mc with drones := drones1 }, statics1, sent)
        ∧ drones1.length = mc.drones.length
        ∧ ∀ j d, mc.drones[j]? = some d →
            ∃ a d1 ev, mask[j]? = some a
              ∧ MainComponent.processDrone m a mc.scaleNotes (nf j) d = some (d1, ev)
              ∧ drones1[j]? = some d1 ∧ eventsOf j sent = ev := by
  have hlen := calculateActiveNotes_length m _ _ _ _ _ _ _ hmask
  obtain ⟨ds1, sent, hrun, hl, _, hproj⟩ :=
    processDrones_spec m mask mc.scaleNotes nf hscale mc.drones 0 (by omega)
  refine ⟨ds1, sent, ?_, hl, ?_⟩
  · obtain ⟨h1, h2⟩ := hcheck
    unfold MainComponent.generateMidi
    rw [if_neg (by rw [h1]; decide), if_neg (by rw [h2]; decide), hmask]
    simp only []
    unfold MainComponent.scaleNotes at hrun
    rw [hrun]
  · intro j d hj
    obtain ⟨a, d1, ev, h1, h2, h3, h4⟩ := hproj j d hj
    rw [Nat.zero_add] at h1 h2 h4
    exact ⟨a, d1, ev, h1, h2, h3, h4⟩

theorem activeAt_eq_some (m : CMath K) (mc : MainComponent K)
    (statics : RandomRhythmStatics) (rand : Nat → Int) (i : Nat) (a : Bool)
    (h : mc.activeAt m statics rand i = some a) :
    ∃ mask statics1, mc.currentRhythm.calculateActiveNotes m statics rand mc.drones.length
      mc.frameCount = some (mask, statics1) ∧ mask[i]? = some a := by
  unfold MainComponent.activeAt at h
  split at h
  · simp at h
  · next mask st heq => exact ⟨mask, st, heq, h⟩

theorem fast_real_iff (sin cos : ℝ → ℝ) (twoPi : ℝ) (d : SwarmDrone ℝ) :
    d.fast ⟨Real.sqrt, sin, cos, twoPi⟩ ↔ 0.09 < d.velocity.lengthSquared := by
  unfold SwarmDrone.fast Vector3D.length
  rw [gt_iff_lt, Real.lt_sqrt (by norm_num)]
  norm_num

theorem truncToInt_eq [FloorRing K] (f : K) (n : Int) (h0 : 0 ≤ f) (h1 : (n : K) ≤ f)
    (h2 : f < (n : K) + 1) : truncToInt f = n := by
  unfold truncToInt
  rw [if_pos h0, Int.floor_eq_iff]
  exact ⟨h1, h2⟩

/-- A note check on a swarm of one drone under the Continuous rhythm is the loop body
applied to that drone with `active = true`. -/
theorem generateMidi_solo [FloorRing K] (m : CMath K) (f : Int) (scale : String) (root : Int)
    (d : SwarmDrone K) (statics : RandomRhythmStatics) (rand : Nat → Int) (nf : Nat → K)
    (hf : f.tmod 3 = 0) :
    MainComponent.generateMidi m (soloSwarm f scale root d) statics rand nf
      = match MainComponent.processDrone m true (MusicScales.getScaleNotes scale root)
          (nf 0) d with
        | none => none
        | some (d1, ev) =>
          some (soloSwarm f scale root d1, statics, ev.map (fun msg => (0, msg))) := by
  unfold MainComponent.generateMidi MainComponent.NOTE_CHECK_INTERVAL
  simp only [soloSwarm, hf, RhythmPattern.calculateActiveNotes, List.length_singleton,
    List.replicate, MainComponent.processDrones, List.getElem?_cons_zero]
  generalize MainComponent.processDrone m true (MusicScales.getScaleNotes scale root) (nf 0) d
    = r
  cases r with
  | none => simp
  | some r => simp

/-! ## Single note checks (C5, C6, C7, C9) -/

/-- Claim C9 (note-check interval). On a frame whose counter is not a multiple of 3,
`generateMidi` returns the component and the statics unchanged (so `noteActive`,
`currentNote` and `size` of every drone are unchanged) and sends no message. -/
theorem generateMidi_off_interval [FloorRing K] (m : CMath K) (mc : MainComponent K)
    (statics : RandomRhythmStatics) (rand : Nat → Int) (nextFloat : Nat → K)
    (h : mc.frameCount.tmod 3 ≠ 0) :
    MainComponent.generateMidi m mc statics rand nextFloat = some (mc, statics, []) := by
  unfold MainComponent.generateMidi MainComponent.NOTE_CHECK_INTERVAL
  by_cases hm : mc.midiOutput = false
  · rw [if_pos hm]
  · rw [if_neg hm, if_pos h]

/-- Amended claim C5 (off before on). At a note check, for a drone that holds a pitch
`p > 0`, is rhythm-active and fast and has candidate pitch `q ≠ p`, `generateMidi`
returns, the messages sent for the drone are Off(p), then On(q), then the controller
message when the draw is below 0.3, all on channel `midiChannel + 1`, and afterwards
the drone holds `q`. -/
theorem generateMidi_off_before_on [FloorRing K] (m : CMath K) (mc : MainComponent K)
    (statics : RandomRhythmStatics) (rand : Nat → Int) (nextFloat : Nat → K) (i : Nat)
    (d : SwarmDrone K) (p q : Int)
    (hcheck : mc.isNoteCheck) (hd : mc.drones[i]? = some d)
    (hhold : d.Holding p) (hp : 0 < p)
    (hactive : mc.activeAt m statics rand i = some true) (hfast : d.fast m)
    (hq : mc.candidateNote d = some q) (hqp : q ≠ p) :
    ∃ mc1 statics1 sent,
      MainComponent.generateMidi m mc statics rand nextFloat = some (mc1, statics1, sent)
        ∧ eventsOf i sent
            = [MidiMessage.noteOff (d.midiChannel + 1) p 0,
               MidiMessage.noteOn (d.midiChannel + 1) q
                 ((MainComponent.noteVelocity d.position.y : K) / 127)]
              ++ (if nextFloat i < 0.3 then
                    [MidiMessage.controllerEvent (d.midiChannel + 1) 1
                      (MainComponent.ccValue d.position.z)]
                  else [])
        ∧ ∃ d1, mc1.drones[i]? = some d1 ∧ d1.Holding q := by
  obtain ⟨mask, statics1, hmask, hmi⟩ := activeAt_eq_some m mc statics rand i true hactive
  have hscale : mc.scaleNotes ≠ [] := candidate_ne_nil _ _ _ hq
  obtain ⟨drones1, sent, hrun, _, hproj⟩ :=
    generateMidi_spec m mc statics rand nextFloat mask statics1 hcheck hmask hscale
  obtain ⟨a, d1, ev, ha, hpd, hd1, hev⟩ := hproj i d hd
  rw [hmi] at ha
  simp only [Option.some.injEq] at ha
  subst ha
  obtain ⟨hna, hcn⟩ := hhold
  rw [processDrone_trigger m _ _ d q hfast hq, if_pos (by rw [hcn]; exact hqp)] at hpd
  simp only [Option.some.injEq, Prod.mk.injEq] at hpd
  obtain ⟨hd1eq, heveq⟩ := hpd
  refine ⟨_, statics1, sent, hrun, ?_, d1, hd1, ?_⟩
  · rw [hev, ← heveq, if_pos ⟨hna, by rw [hcn]; exact hp⟩, hcn]
    rfl
  · rw [← hd1eq]
    exact ⟨rfl, rfl⟩

/-- Amended claim C6 (release on inactivity). At a note check with a non-negative frame
counter and a root in 0..127, for a drone that is silent or holds a pitch `p > 0`, and
that is not rhythm-active or not fast, `generateMidi` returns, sends for the drone
exactly Off(p) when it holds `p` and nothing when it is silent, and leaves the drone
silent with `size` 100. -/
theorem generateMidi_release [FloorRing K] (m : CMath K) (mc : MainComponent K)
    (statics : RandomRhythmStatics) (rand : Nat → Int) (nextFloat : Nat → K) (i : Nat)
    (d : SwarmDrone K) (p : Int)
    (hcheck : mc.isNoteCheck) (hframe : 0 ≤ mc.frameCount)
    (hroot : 0 ≤ mc.rootNote ∧ mc.rootNote ≤ 127)
    (hd : mc.drones[i]? = some d)
    (hstate : d.Silent ∨ (d.Holding p ∧ 0 < p))
    (hidle : mc.activeAt m statics rand i ≠ some true ∨ ¬ d.fast m) :
    ∃ mc1 statics1 sent,
      MainComponent.generateMidi m mc statics rand nextFloat = some (mc1, statics1, sent)
        ∧ eventsOf i sent
            = (if d.noteActive = true then
                [MidiMessage.noteOff (d.midiChannel + 1) p 0] else [])
        ∧ ∃ d1, mc1.drones[i]? = some d1 ∧ d1.Silent ∧ d1.size = 100 := by
  have hn : mc.drones.length ≠ 0 := by
    intro h0
    have := List.getElem?_eq_some.mp hd
    obtain ⟨hlt, _⟩ := this
    omega
  obtain ⟨mask, statics1, hmask⟩ :=
    calculateActiveNotes_isSome m mc.currentRhythm statics rand _ _ hn hframe
  obtain ⟨tl, hhead⟩ := getScaleNotes_head mc.scaleSelector mc.rootNote hroot.1 hroot.2
  have hscale : mc.scaleNotes ≠ [] := by
    unfold MainComponent.scaleNotes
    rw [hhead]
    exact List.cons_ne_nil _ _
  obtain ⟨drones1, sent, hrun, _, hproj⟩ :=
    generateMidi_spec m mc statics rand nextFloat mask statics1 hcheck hmask hscale
  obtain ⟨a, d1, ev, ha, hpd, hd1, hev⟩ := hproj i d hd
  have hnot : ¬ (a = true ∧ d.velocity.length m > 0.3) := by
    rintro ⟨hat, hf⟩
    rcases hidle with h | h
    · apply h
      unfold MainComponent.activeAt
      rw [hmask]
      simp only []
      rw [ha, hat]
    · exact h hf
  rw [processDrone_idle m a _ _ d hnot] at hpd
  refine ⟨_, statics1, sent, hrun, ?_, d1, hd1, ?_⟩
  · rcases hstate with ⟨hna, hcn⟩ | ⟨⟨hna, hcn⟩, hp⟩
    · rw [if_neg (by rw [hna]; simp)] at hpd
      simp only [Option.some.injEq, Prod.mk.injEq] at hpd
      rw [hev, ← hpd.2, if_neg (by rw [hna]; simp)]
    · rw [if_pos ⟨hna, by rw [hcn]; exact hp⟩] at hpd
      simp only [Option.some.injEq, Prod.mk.injEq] at hpd
      rw [hev, ← hpd.2, if_pos hna, hcn]
  · rcases hstate with ⟨hna, hcn⟩ | ⟨⟨hna, hcn⟩, hp⟩
    · rw [if_neg (by rw [hna]; simp)] at hpd
      simp only [Option.some.injEq, Prod.mk.injEq] at hpd
      rw [← hpd.1]
      exact ⟨⟨hna, hcn⟩, rfl⟩
    · rw [if_pos ⟨hna, by rw [hcn]; exact hp⟩] at hpd
      simp only [Option.some.injEq, Prod.mk.injEq] at hpd
      rw [← hpd.1]
      exact ⟨⟨rfl, rfl⟩, rfl⟩

/-- Amended claim C7 (silent to holding). At a note check, for a silent drone that is
rhythm-active and fast and whose candidate pitch is `p` with `1 ≤ p`, `generateMidi`
returns, the messages sent for the drone are On(p), then the controller message when
the draw is below 0.3, and afterwards the drone holds `p`. -/
theorem generateMidi_silent_to_holding [FloorRing K] (m : CMath K) (mc : MainComponent K)
    (statics : RandomRhythmStatics) (rand : Nat → Int) (nextFloat : Nat → K) (i : Nat)
    (d : SwarmDrone K) (p : Int)
    (hcheck : mc.isNoteCheck) (hd : mc.drones[i]? = some d)
    (hsilent : d.Silent)
    (hactive : mc.activeAt m statics rand i = some true) (hfast : d.fast m)
    (hcand : mc.candidateNote d = some p) (hp : 1 ≤ p) :
    ∃ mc1 statics1 sent,
      MainComponent.generateMidi m mc statics rand nextFloat = some (mc1, statics1, sent)
        ∧ eventsOf i sent
            = [MidiMessage.noteOn (d.midiChannel + 1) p
                 ((MainComponent.noteVelocity d.position.y : K) / 127)]
              ++ (if nextFloat i < 0.3 then
                    [MidiMessage.controllerEvent (d.midiChannel + 1) 1
                      (MainComponent.ccValue d.position.z)]
                  else [])
        ∧ ∃ d1, mc1.drones[i]? = some d1 ∧ d1.Holding p := by
  obtain ⟨mask, statics1, hmask, hmi⟩ := activeAt_eq_some m mc statics rand i true hactive
  have hscale : mc.scaleNotes ≠ [] := candidate_ne_nil _ _ _ hcand
  obtain ⟨drones1, sent, hrun, _, hproj⟩ :=
    generateMidi_spec m mc statics rand nextFloat mask statics1 hcheck hmask hscale
  obtain ⟨a, d1, ev, ha, hpd, hd1, hev⟩ := hproj i d hd
  rw [hmi] at ha
  simp only [Option.some.injEq] at ha
  subst ha
  obtain ⟨hna, hcn⟩ := hsilent
  rw [processDrone_trigger m _ _ d p hfast hcand, if_pos (by rw [hcn]; omega)] at hpd
  simp only [Option.some.injEq, Prod.mk.injEq] at hpd
  obtain ⟨hd1eq, heveq⟩ := hpd
  refine ⟨_, statics1, sent, hrun, ?_, d1, hd1, ?_⟩
  · rw [hev, ← heveq, if_neg (by rw [hna]; simp)]
    rfl
  · rw [← hd1eq]
    exact ⟨rfl, rfl⟩

/-- Counterexample to C7 as stated: root 0 with the Chromatic scale puts pitch 0 in the
scale list; a silent drone that is rhythm-active and fast with candidate pitch 0 gets
no On message and stays silent. -/
theorem generateMidi_silent_pitch_zero :
    (soloSwarm 0 "Chromatic" 0 (droneAt (-14.5 : ℝ) (-0.4) false 0)).isNoteCheck
    ∧ (droneAt (-14.5 : ℝ) (-0.4) false 0).Silent
    ∧ (soloSwarm 0 "Chromatic" 0 (droneAt (-14.5 : ℝ) (-0.4) false 0)).activeAt
        ⟨Real.sqrt, Real.sin, Real.cos, 2 * Real.pi⟩ RandomRhythmStatics.initial
        (fun _ => 0) 0 = some true
    ∧ (droneAt (-14.5 : ℝ) (-0.4) false 0).fast ⟨Real.sqrt, Real.sin, Real.cos, 2 * Real.pi⟩
    ∧ (soloSwarm 0 "Chromatic" 0 (droneAt (-14.5 : ℝ) (-0.4) false 0)).candidateNote
        (droneAt (-14.5 : ℝ) (-0.4) false 0) = some 0
    ∧ MainComponent.generateMidi ⟨Real.sqrt, Real.sin, Real.cos, 2 * Real.pi⟩
        (soloSwarm 0 "Chromatic" 0 (droneAt (-14.5 : ℝ) (-0.4) false 0))
        RandomRhythmStatics.initial (fun _ => 0) (fun _ => 0)
      = some (soloSwarm 0 "Chromatic" 0 (droneAt (-14.5 : ℝ) (-0.4) false 0),
          RandomRhythmStatics.initial, []) := by
  have hs : MusicScales.getScaleNotes "Chromatic" 0
      = List.map (fun (n : Nat) => (n : Int)) (List.range 36) := by decide
  have hfast : (droneAt (-14.5 : ℝ) (-0.4) false 0).fast
      ⟨Real.sqrt, Real.sin, Real.cos, 2 * Real.pi⟩ := by
    rw [fast_real_iff]
    norm_num [droneAt, Vector3D.lengthSquared]
  have hcand : vectorAt (MusicScales.getScaleNotes "Chromatic" 0)
      (MainComponent.noteIndex (MusicScales.getScaleNotes "Chromatic" 0)
        (droneAt (-14.5 : ℝ) (-0.4) false 0).position.x) = some 0 := by
    unfold MainComponent.noteIndex
    simp only [droneAt, hs]
    rw [truncToInt_eq _ 0 (by norm_num) (by norm_num) (by norm_num)]
    decide
  refine ⟨⟨rfl, by decide⟩, ⟨rfl, rfl⟩, rfl, hfast, hcand, ?_⟩
  rw [generateMidi_solo _ _ _ _ _ _ _ _ (by decide),
    processDrone_trigger _ _ _ _ 0 hfast hcand]
  rfl

/-- Witness for C9: frame 1 of a swarm of one drone that holds pitch 60. -/
theorem generateMidi_off_interval_witness :
    (soloSwarm 1 "Major" 60 (droneAt (-12 : ℝ) 0.4 true 60)).frameCount.tmod 3 ≠ 0
    ∧ MainComponent.generateMidi ⟨Real.sqrt, Real.sin, Real.cos, 2 * Real.pi⟩
        (soloSwarm 1 "Major" 60 (droneAt (-12 : ℝ) 0.4 true 60))
        RandomRhythmStatics.initial (fun _ => 0) (fun _ => 0)
      = some (soloSwarm 1 "Major" 60 (droneAt (-12 : ℝ) 0.4 true 60),
          RandomRhythmStatics.initial, []) :=
  ⟨by decide, generateMidi_off_interval _ _ _ _ _ (by decide)⟩

/-- The scale list of C Major from middle C, as `getScaleNotes` computes it. -/
theorem getScaleNotes_major_60 :
    MusicScales.getScaleNotes "Major" 60
      = [60, 62, 64, 65, 67, 69, 71, 72, 74, 76, 77, 79, 81, 83, 84, 86, 88, 89, 91, 93, 95] := by
  decide

/-- At X = -12 the Major scale from 60 gives the candidate pitch 64. -/
theorem candidateNote_major_64 (vx : ℝ) (noteActive : Bool) (currentNote : Int) :
    (soloSwarm 0 "Major" 60 (droneAt (-12 : ℝ) vx noteActive currentNote)).candidateNote
      (droneAt (-12 : ℝ) vx noteActive currentNote) = some 64 := by
  unfold MainComponent.candidateNote MainComponent.scaleNotes MainComponent.noteIndex
  simp only [soloSwarm, droneAt, getScaleNotes_major_60]
  rw [truncToInt_eq _ 2 (by norm_num) (by norm_num) (by norm_num)]
  decide

/-- Witness for C5: a drone holding 60 whose candidate pitch becomes 64. -/
theorem generateMidi_off_before_on_witness :
    (droneAt (-12 : ℝ) 0.4 true 60).Holding 60
    ∧ ∃ mc1 statics1 sent,
      MainComponent.generateMidi ⟨Real.sqrt, Real.sin, Real.cos, 2 * Real.pi⟩
          (soloSwarm 0 "Major" 60 (droneAt (-12 : ℝ) 0.4 true 60))
          RandomRhythmStatics.initial (fun _ => 0) (fun _ => 1) = some (mc1, statics1, sent)
        ∧ eventsOf 0 sent
            = [MidiMessage.noteOff ((droneAt (-12 : ℝ) 0.4 true 60).midiChannel + 1) 60 0,
               MidiMessage.noteOn ((droneAt (-12 : ℝ) 0.4 true 60).midiChannel + 1) 64
                 ((MainComponent.noteVelocity (droneAt (-12 : ℝ) 0.4 true 60).position.y : ℝ)
                   / 127)]
              ++ (if (1 : ℝ) < 0.3 then
                    [MidiMessage.controllerEvent
                      ((droneAt (-12 : ℝ) 0.4 true 60).midiChannel + 1) 1
                      (MainComponent.ccValue (droneAt (-12 : ℝ) 0.4 true 60).position.z)]
                  else [])
        ∧ ∃ d1, mc1.drones[0]? = some d1 ∧ d1.Holding 64 :=
  ⟨⟨rfl, rfl⟩,
    generateMidi_off_before_on ⟨Real.sqrt, Real.sin, Real.cos, 2 * Real.pi⟩
      (soloSwarm 0 "Major" 60 (droneAt (-12 : ℝ) 0.4 true 60))
      RandomRhythmStatics.initial (fun _ => 0) (fun _ => 1) 0
      (droneAt (-12 : ℝ) 0.4 true 60) 60 64
      ⟨rfl, by decide⟩ rfl ⟨rfl, rfl⟩ (by decide) rfl
      (by rw [fast_real_iff]; norm_num [droneAt, Vector3D.lengthSquared])
      (candidateNote_major_64 _ _ _) (by decide)⟩

/-- Witness for C7: a silent drone whose candidate pitch is 64. -/
theorem generateMidi_silent_to_holding_witness :
    (droneAt (-12 : ℝ) 0.4 false 0).Silent
    ∧ ∃ mc1 statics1 sent,
      MainComponent.generateMidi ⟨Real.sqrt, Real.sin, Real.cos, 2 * Real.pi⟩
          (soloSwarm 0 "Major" 60 (droneAt (-12 : ℝ) 0.4 false 0))
          RandomRhythmStatics.initial (fun _ => 0) (fun _ => 1) = some (mc1, statics1, sent)
        ∧ eventsOf 0 sent
            = [MidiMessage.noteOn ((droneAt (-12 : ℝ) 0.4 false 0).midiChannel + 1) 64
                 ((MainComponent.noteVelocity (droneAt (-12 : ℝ) 0.4 false 0).position.y : ℝ)
                   / 127)]
              ++ (if (1 : ℝ) < 0.3 then
                    [MidiMessage.controllerEvent
                      ((droneAt (-12 : ℝ) 0.4 false 0).midiChannel + 1) 1
                      (MainComponent.ccValue (droneAt (-12 : ℝ) 0.4 false 0).position.z)]
                  else [])
        ∧ ∃ d1, mc1.drones[0]? = some d1 ∧ d1.Holding 64 :=
  ⟨⟨rfl, rfl⟩,
    generateMidi_silent_to_holding ⟨Real.sqrt, Real.sin, Real.cos, 2 * Real.pi⟩
      (soloSwarm 0 "Major" 60 (droneAt (-12 : ℝ) 0.4 false 0))
      RandomRhythmStatics.initial (fun _ => 0) (fun _ => 1) 0
      (droneAt (-12 : ℝ) 0.4 false 0) 64
      ⟨rfl, by decide⟩ rfl ⟨rfl, rfl⟩ rfl
      (by rw [fast_real_iff]; norm_num [droneAt, Vector3D.lengthSquared])
      (candidateNote_major_64 _ _ _) (by decide)⟩

/-- Witness for C6: a drone holding 60 that has come to rest. -/
theorem generateMidi_release_witness :
    (droneAt (-12 : ℝ) 0 true 60).Holding 60
    ∧ ¬ (droneAt (-12 : ℝ) 0 true 60).fast ⟨Real.sqrt, Real.sin, Real.cos, 2 * Real.pi⟩
    ∧ ∃ mc1 statics1 sent,
      MainComponent.generateMidi ⟨Real.sqrt, Real.sin, Real.cos, 2 * Real.pi⟩
          (soloSwarm 0 "Major" 60 (droneAt (-12 : ℝ) 0 true 60))
          RandomRhythmStatics.initial (fun _ => 0) (fun _ => 1) = some (mc1, statics1, sent)
        ∧ eventsOf 0 sent
            = (if (droneAt (-12 : ℝ) 0 true 60).noteActive = true then
                [MidiMessage.noteOff ((droneAt (-12 : ℝ) 0 true 60).midiChannel + 1) 60 0]
               else [])
        ∧ ∃ d1, mc1.drones[0]? = some d1 ∧ d1.Silent ∧ d1.size = 100 := by
  have hslow : ¬ (droneAt (-12 : ℝ) 0 true 60).fast
      ⟨Real.sqrt, Real.sin, Real.cos, 2 * Real.pi⟩ := by
    rw [fast_real_iff]; norm_num [droneAt, Vector3D.lengthSquared]
  exact ⟨⟨rfl, rfl⟩, hslow,
    generateMidi_release ⟨Real.sqrt, Real.sin, Real.cos, 2 * Real.pi⟩
      (soloSwarm 0 "Major" 60 (droneAt (-12 : ℝ) 0 true 60))
      RandomRhythmStatics.initial (fun _ => 0) (fun _ => 1) 0
      (droneAt (-12 : ℝ) 0 true 60) 60
      ⟨rfl, by decide⟩ (by decide) ⟨by decide, by decide⟩ rfl
      (Or.inr ⟨⟨rfl, rfl⟩, by decide⟩) (Or.inr hslow)⟩

/-- The scale list of the Chromatic scale from root 0: the pitches 0 to 35. -/
theorem getScaleNotes_chromatic_0 :
    MusicScales.getScaleNotes "Chromatic" 0
      = List.map (fun (n : Nat) => (n : Int)) (List.range 36) := by
  decide

/-- Counterexample to C6 as stated: a drone that holds pitch 0 (note active, current
note 0, as left by an On for pitch 0) and has come to rest gets no Off message at the
note check and stays active. -/
theorem generateMidi_release_pitch_zero :
    (droneAt (-14.5 : ℝ) 0 true 0).Holding 0
    ∧ ¬ (droneAt (-14.5 : ℝ) 0 true 0).fast ⟨Real.sqrt, Real.sin, Real.cos, 2 * Real.pi⟩
    ∧ (soloSwarm 0 "Chromatic" 0 (droneAt (-14.5 : ℝ) 0 true 0)).isNoteCheck
    ∧ MainComponent.generateMidi ⟨Real.sqrt, Real.sin, Real.cos, 2 * Real.pi⟩
        (soloSwarm 0 "Chromatic" 0 (droneAt (-14.5 : ℝ) 0 true 0))
        RandomRhythmStatics.initial (fun _ => 0) (fun _ => 0)
      = some (soloSwarm 0 "Chromatic" 0 (droneAt (-14.5 : ℝ) 0 true 0),
          RandomRhythmStatics.initial, [])
    ∧ ¬ (droneAt (-14.5 : ℝ) 0 true 0).Silent := by
  have hslow : ¬ (droneAt (-14.5 : ℝ) 0 true 0).fast
      ⟨Real.sqrt, Real.sin, Real.cos, 2 * Real.pi⟩ := by
    rw [fast_real_iff]; norm_num [droneAt, Vector3D.lengthSquared]
  refine ⟨⟨rfl, rfl⟩, hslow, ⟨rfl, by decide⟩, ?_, ?_⟩
  · rw [generateMidi_solo _ _ _ _ _ _ _ _ (by decide),
      processDrone_idle _ _ _ _ _ (fun h => hslow h.2)]
    rfl
  · intro h
    exact Bool.noConfusion h.1

/-- Counterexample to C5 as stated: a drone that holds pitch 0 and whose candidate pitch
becomes 1 gets the On for 1 but no Off for 0. -/
theorem generateMidi_change_from_pitch_zero :
    (droneAt (-14 : ℝ) 0.4 true 0).Holding 0
    ∧ (droneAt (-14 : ℝ) 0.4 true 0).fast ⟨Real.sqrt, Real.sin, Real.cos, 2 * Real.pi⟩
    ∧ (soloSwarm 0 "Chromatic" 0 (droneAt (-14 : ℝ) 0.4 true 0)).isNoteCheck
    ∧ (soloSwarm 0 "Chromatic" 0 (droneAt (-14 : ℝ) 0.4 true 0)).activeAt
        ⟨Real.sqrt, Real.sin, Real.cos, 2 * Real.pi⟩ RandomRhythmStatics.initial
        (fun _ => 0) 0 = some true
    ∧ (soloSwarm 0 "Chromatic" 0 (droneAt (-14 : ℝ) 0.4 true 0)).candidateNote
        (droneAt (-14 : ℝ) 0.4 true 0) = some 1
    ∧ ∃ mc1, MainComponent.generateMidi ⟨Real.sqrt, Real.sin, Real.cos, 2 * Real.pi⟩
        (soloSwarm 0 "Chromatic" 0 (droneAt (-14 : ℝ) 0.4 true 0))
        RandomRhythmStatics.initial (fun _ => 0) (fun _ => 1)
      = some (mc1, RandomRhythmStatics.initial,
          [(0, MidiMessage.noteOn 1 1
            ((MainComponent.noteVelocity (0 : ℝ) : ℝ) / 127))]) := by
  have hfast : (droneAt (-14 : ℝ) 0.4 true 0).fast
      ⟨Real.sqrt, Real.sin, Real.cos, 2 * Real.pi⟩ := by
    rw [fast_real_iff]; norm_num [droneAt, Vector3D.lengthSquared]
  have hcand : vectorAt (MusicScales.getScaleNotes "Chromatic" 0)
      (MainComponent.noteIndex (MusicScales.getScaleNotes "Chromatic" 0)
        (droneAt (-14 : ℝ) 0.4 true 0).position.x) = some 1 := by
    unfold MainComponent.noteIndex
    simp only [droneAt, getScaleNotes_chromatic_0]
    rw [truncToInt_eq _ 1 (by norm_num) (by norm_num) (by norm_num)]
    decide
  refine ⟨⟨rfl, rfl⟩, hfast, ⟨rfl, by decide⟩, rfl, hcand, ?_⟩
  rw [generateMidi_solo _ _ _ _ _ _ _ _ (by decide),
    processDrone_trigger _ _ _ _ 1 hfast hcand]
  simp only [droneAt]
  norm_num

/-! ## Runs of note checks (C4, C8) -/

/-- The note events of one check prescribed by the protocol: from the held pitch and
the candidate pitch. -/
theorem expectedEvents_cons (held : Option Int) (p : Int) (rest : List Int) :
    expectedEvents held (p :: rest)
      = (match held with
          | none => [NoteEvent.On p]
          | some h => if p = h then [] else [NoteEvent.Off h, NoteEvent.On p])
        :: expectedEvents (some p) rest := by
  cases held with
  | none => rfl
  | some h =>
    simp only [expectedEvents]
    split
    · next hp => rw [hp]
    · rfl

theorem noteMonitor_append (evs1 : List NoteEvent) :
    ∀ (held : Option Int) (evs2 : List NoteEvent),
      noteMonitor held (evs1 ++ evs2)
        = match noteMonitor held evs1 with
          | none => none
          | some held1 => noteMonitor held1 evs2 := by
  induction evs1 with
  | nil => intro held evs2; simp [noteMonitor]
  | cons e rest ih =>
    intro held evs2
    cases e with
    | On p =>
      cases held with
      | none => simp only [List.cons_append, noteMonitor]; exact ih _ _
      | some h => simp [noteMonitor]
    | Off p =>
      cases held with
      | none => simp [noteMonitor]
      | some h =>
        simp only [List.cons_append, noteMonitor]
        split
        · exact ih _ _
        · rfl

theorem heldNote_silent {F : Type} (d : SwarmDrone F) (h : d.Silent) : d.heldNote = none := by
  unfold SwarmDrone.heldNote
  rw [h.1]
  rfl

theorem heldNote_active {F : Type} (d : SwarmDrone F) (h : d.noteActive = true) :
    d.heldNote = some d.currentNote := by
  unfold SwarmDrone.heldNote
  rw [if_pos h]

/-- The loop body keeps the protocol: on a consistent drone with a scale list of
pitches that are all at least 1, the note events it sends are accepted by the monitor
from the held pitch, the monitor ends on the new held pitch, and the drone is
consistent again. When the drone triggers with candidate pitch `p` the events are the
prescribed ones and the drone holds `p`. -/
theorem processDrone_protocol [FloorRing K] (m : CMath K) (a : Bool) (scale : List Int)
    (nf : K) (d d1 : SwarmDrone K) (ev : List (MidiMessage K))
    (hpos : ∀ note ∈ scale, 1 ≤ note) (hc : d.Consistent)
    (h : MainComponent.processDrone m a scale nf d = some (d1, ev)) :
    d1.Consistent
      ∧ noteMonitor d.heldNote (ev.filterMap MidiMessage.noteEvent) = some d1.heldNote
      ∧ (a = true → d.fast m →
          ∃ p, vectorAt scale (MainComponent.noteIndex scale d.position.x) = some p
            ∧ d1.heldNote = some p
            ∧ ev.filterMap MidiMessage.noteEvent
                = match d.heldNote with
                  | none => [NoteEvent.On p]
                  | some h => if p = h then [] else [NoteEvent.Off h, NoteEvent.On p]) := by
  by_cases hcond : a = true ∧ d.velocity.length m > 0.3
  · obtain ⟨ha, hf⟩ := hcond
    subst ha
    have hscale : scale ≠ [] := by
      intro he
      unfold MainComponent.processDrone at h
      simp only [] at h
      rw [if_pos ⟨by trivial, hf⟩] at h
      rw [he] at h
      simp [vectorAt, MainComponent.noteIndex, jlimit] at h
    obtain ⟨p, hp⟩ := candidate_isSome scale d.position.x hscale
    have hp1 : 1 ≤ p := hpos p (vectorAt_mem _ _ _ hp)
    rw [processDrone_trigger m scale nf d p hf hp] at h
    rcases hc with ⟨hna, hcn⟩ | ⟨hna, hcn⟩
    · -- silent
      rw [if_pos (by rw [hcn]; omega), if_neg (by rw [hna]; simp)] at h
      simp only [Option.some.injEq, Prod.mk.injEq] at h
      obtain ⟨h1, h2⟩ := h
      subst h1
      subst h2
      have hheld : d.heldNote = none := heldNote_silent d ⟨hna, hcn⟩
      refine ⟨Or.inr ⟨rfl, by show 0 < p; omega⟩, ?_, fun _ _ => ⟨p, hp, rfl, ?_⟩⟩
      · rw [hheld]
        by_cases hnf : nf < 0.3 <;>
          simp [hnf, MidiMessage.noteEvent, noteMonitor, SwarmDrone.heldNote]
      · rw [hheld]
        by_cases hnf : nf < 0.3 <;> simp [hnf, MidiMessage.noteEvent]
    · -- holding
      have hheld : d.heldNote = some d.currentNote := heldNote_active d hna
      by_cases hpc : p = d.currentNote
      · rw [if_neg (by simp [hpc])] at h
        simp only [Option.some.injEq, Prod.mk.injEq] at h
        obtain ⟨h1, h2⟩ := h
        subst h1
        subst h2
        refine ⟨Or.inr ⟨hna, hcn⟩, ?_, fun _ _ => ⟨p, hp, ?_, ?_⟩⟩
        · rw [hheld]
          simp [noteMonitor, SwarmDrone.heldNote, hna]
        · simp [SwarmDrone.heldNote, hna, hpc]
        · rw [hheld]
          simp [hpc]
      · rw [if_pos hpc, if_pos ⟨hna, hcn⟩] at h
        simp only [Option.some.injEq, Prod.mk.injEq] at h
        obtain ⟨h1, h2⟩ := h
        subst h1
        subst h2
        refine ⟨Or.inr ⟨rfl, by show 0 < p; omega⟩, ?_, fun _ _ => ⟨p, hp, rfl, ?_⟩⟩
        · rw [hheld]
          by_cases hnf : nf < 0.3 <;>
            simp [hnf, MidiMessage.noteEvent, noteMonitor, SwarmDrone.heldNote]
        · rw [hheld]
          by_cases hnf : nf < 0.3 <;> simp [hnf, MidiMessage.noteEvent, hpc]
  · rw [processDrone_idle m a scale nf d hcond] at h
    have hnot : ¬ (a = true ∧ d.fast m) := hcond
    rcases hc with ⟨hna, hcn⟩ | ⟨hna, hcn⟩
    · rw [if_neg (by rw [hna]; simp)] at h
      simp only [Option.some.injEq, Prod.mk.injEq] at h
      obtain ⟨h1, h2⟩ := h
      subst h1
      subst h2
      refine ⟨Or.inl ⟨hna, hcn⟩, ?_, fun ha hf => absurd ⟨ha, hf⟩ hnot⟩
      simp [noteMonitor, SwarmDrone.heldNote, hna]
    · rw [if_pos ⟨hna, hcn⟩] at h
      simp only [Option.some.injEq, Prod.mk.injEq] at h
      obtain ⟨h1, h2⟩ := h
      subst h1
      subst h2
      refine ⟨Or.inl ⟨rfl, rfl⟩, ?_, fun ha hf => absurd ⟨ha, hf⟩ hnot⟩
      simp [noteMonitor, SwarmDrone.heldNote, hna, MidiMessage.noteEvent]

theorem generateMidi_not_check [FloorRing K] (m : CMath K) (mc : MainComponent K)
    (statics : RandomRhythmStatics) (rand : Nat → Int) (nf : Nat → K)
    (h : ¬ mc.isNoteCheck) :
    MainComponent.generateMidi m mc statics rand nf = some (mc, statics, []) := by
  unfold MainComponent.generateMidi
  by_cases hm : mc.midiOutput = false
  · rw [if_pos hm]
  · rw [if_neg hm, if_pos]
    intro h0
    apply h
    refine ⟨?_, h0⟩
    cases hmo : mc.midiOutput with
    | true => rfl
    | false => exact absurd hmo hm

/-- A call of `generateMidi` keeps the protocol for drone `i`: with a non-negative
frame counter and a root in 1..127 it returns, and what it sends for the drone and
leaves in it follows the loop body. -/
theorem generateMidi_protocol [FloorRing K] (m : CMath K) (mc : MainComponent K)
    (statics : RandomRhythmStatics) (rand : Nat → Int) (nf : Nat → K) (i : Nat)
    (d : SwarmDrone K) (hframe : 0 ≤ mc.frameCount)
    (hroot : 1 ≤ mc.rootNote ∧ mc.rootNote ≤ 127)
    (hd : mc.drones[i]? = some d) (hc : d.Consistent) :
    ∃ mc1 statics1 sent,
      MainComponent.generateMidi m mc statics rand nf = some (mc1, statics1, sent)
        ∧ mc1.frameCount = mc.frameCount
        ∧ ∃ d1, mc1.drones[i]? = some d1 ∧ d1.Consistent
          ∧ noteMonitor d.heldNote (noteEventsOf i sent) = some d1.heldNote
          ∧ (¬ mc.isNoteCheck → d1.heldNote = d.heldNote)
          ∧ (mc.isNoteCheck → mc.activeAt m statics rand i = some true → d.fast m →
              ∃ p, mc.candidateNote d = some p ∧ d1.heldNote = some p
                ∧ noteEventsOf i sent
                    = match d.heldNote with
                      | none => [NoteEvent.On p]
                      | some h => if p = h then [] else [NoteEvent.Off h, NoteEvent.On p]) := by
  by_cases hcheck : mc.isNoteCheck
  · have hn : mc.drones.length ≠ 0 := by
      intro h0
      obtain ⟨hlt, _⟩ := List.getElem?_eq_some.mp hd
      omega
    obtain ⟨mask, statics1, hmask⟩ :=
      calculateActiveNotes_isSome m mc.currentRhythm statics rand _ _ hn hframe
    obtain ⟨tl, hhead⟩ :=
      getScaleNotes_head mc.scaleSelector mc.rootNote (by omega) hroot.2
    have hscale : mc.scaleNotes ≠ [] := by
      unfold MainComponent.scaleNotes
      rw [hhead]
      exact List.cons_ne_nil _ _
    have hpos : ∀ note ∈ mc.scaleNotes, 1 ≤ note := by
      intro note hnote
      have := (getScaleNotes_ge mc.scaleSelector mc.rootNote note hnote).1
      omega
    obtain ⟨drones1, sent, hrun, _, hproj⟩ :=
      generateMidi_spec m mc statics rand nf mask statics1 hcheck hmask hscale
    obtain ⟨a, d1, ev, ha, hpd, hd1, hev⟩ := hproj i d hd
    obtain ⟨hc1, hmon, htrig⟩ := processDrone_protocol m a _ _ d d1 ev hpos hc hpd
    refine ⟨_, statics1, sent, hrun, rfl, d1, hd1, hc1, ?_, fun h => absurd hcheck h, ?_⟩
    · unfold noteEventsOf
      rw [hev]
      exact hmon
    · intro _ hact hfast
      have hat : a = true := by
        unfold MainComponent.activeAt at hact
        rw [hmask] at hact
        simp only [] at hact
        rw [ha] at hact
        exact Option.some.inj hact
      obtain ⟨p, hp, hheld, hevs⟩ := htrig hat hfast
      refine ⟨p, hp, hheld, ?_⟩
      unfold noteEventsOf
      rw [hev]
      exact hevs
  · refine ⟨mc, statics, [], generateMidi_not_check m mc statics rand nf hcheck, rfl, d, hd,
      hc, ?_, fun _ => rfl, fun h => absurd h hcheck⟩
    simp [noteEventsOf, eventsOf, noteMonitor]

theorem setPhysics_getElem? {F : Type} (physics : Nat → Vector3D F × Vector3D F) :
    ∀ (ds : List (SwarmDrone F)) (k j : Nat),
      (setPhysics physics k ds)[j]?
        = (ds[j]?).map (fun d =>
            { d with position := (physics (k + j)).1, velocity := (physics (k + j)).2 }) := by
  intro ds
  induction ds with
  | nil => intro k j; simp [setPhysics]
  | cons d rest ih =>
    intro k j
    cases j with
    | zero => simp [setPhysics]
    | succ j =>
      simp only [setPhysics, List.getElem?_cons_succ]
      rw [ih (k + 1) j]
      have : k + 1 + j = k + (j + 1) := by omega
      rw [this]

/-- A run of ticks keeps the protocol for drone `i`: from a consistent drone, with a
non-negative frame counter and roots in 1..127, the run returns; the monitor accepts
the note events of the drone from its held pitch and ends on its final held pitch; and
when the drone triggers at every note check, the events of the checks are the
prescribed ones for the candidate pitches of the checks. -/
theorem runTicks_protocol [FloorRing K] (m : CMath K) (i : Nat) :
    ∀ (inputs : List (TickInput K)) (mc : MainComponent K) (statics : RandomRhythmStatics)
      (d : SwarmDrone K), 0 ≤ mc.frameCount → mc.drones[i]? = some d → d.Consistent →
      (∀ inp ∈ inputs, 1 ≤ inp.rootNote ∧ inp.rootNote ≤ 127) →
      ∃ mc1 statics1 records,
        runTicks m mc statics inputs = some (mc1, statics1, records)
          ∧ ∃ d1, mc1.drones[i]? = some d1 ∧ d1.Consistent
            ∧ noteMonitor d.heldNote (runEvents i records) = some d1.heldNote
            ∧ ((∀ r ∈ records, r.entry.isNoteCheck → r.triggers m i) →
                checkEvents i records = expectedEvents d.heldNote (checkPitches i records)) := by
  intro inputs
  induction inputs with
  | nil =>
    intro mc statics d _ hd hc _
    refine ⟨mc, statics, [], rfl, d, hd, hc, ?_, fun _ => ?_⟩
    · cases d.heldNote <;> rfl
    · cases d.heldNote <;> rfl
  | cons inp rest ih =>
    intro mc statics d hframe hd hc hroot
    have hde : (inp.entry mc).drones[i]?
        = some { d with position := (inp.physics i).1, velocity := (inp.physics i).2 } := by
      simp only [TickInput.entry]
      rw [setPhysics_getElem?, hd, Nat.zero_add]
      rfl
    have hce : ({ d with position := (inp.physics i).1, velocity := (inp.physics i).2 } :
        SwarmDrone K).Consistent := hc
    obtain ⟨mc1, statics1, sent, hgen, hfc, d1, hd1, hc1, hmon0, hskip0, htrig0⟩ :=
      generateMidi_protocol m (inp.entry mc) statics inp.rand inp.nextFloat i _
        hframe (hroot inp (List.mem_cons_self _ _)) hde hce
    have hmon : noteMonitor d.heldNote (noteEventsOf i sent) = some d1.heldNote := hmon0
    have hskip : ¬ (inp.entry mc).isNoteCheck → d1.heldNote = d.heldNote := hskip0
    have htrig : (inp.entry mc).isNoteCheck →
        (inp.entry mc).activeAt m statics inp.rand i = some true →
        ({ d with position := (inp.physics i).1, velocity := (inp.physics i).2 } :
          SwarmDrone K).fast m →
        ∃ p, (inp.entry mc).candidateNote
              { d with position := (inp.physics i).1, velocity := (inp.physics i).2 } = some p
          ∧ d1.heldNote = some p
          ∧ noteEventsOf i sent
              = match d.heldNote with
                | none => [NoteEvent.On p]
                | some h => if p = h then [] else [NoteEvent.Off h, NoteEvent.On p] := htrig0
    obtain ⟨mc2, statics2, records, hrun, d2, hd2, hc2, hmon2, hexp⟩ :=
      ih { mc1 with frameCount := mc1.frameCount + 1 } statics1 d1
        (by show 0 ≤ mc1.frameCount + 1; rw [hfc]; exact Int.add_nonneg hframe (by decide))
        hd1 hc1 (fun x hx => hroot x (List.mem_cons_of_mem _ hx))
    refine ⟨mc2, statics2, ⟨inp.entry mc, statics, inp.rand, sent⟩ :: records, ?_, d2, hd2,
      hc2, ?_, ?_⟩
    · simp only [runTicks, hgen, hrun]
    · have hsplit : runEvents i (⟨inp.entry mc, statics, inp.rand, sent⟩ :: records)
          = noteEventsOf i sent ++ runEvents i records := by
        simp [runEvents]
      rw [hsplit, noteMonitor_append]
      change (match noteMonitor d.heldNote (noteEventsOf i sent) with
        | none => none
        | some held1 => noteMonitor held1 (runEvents i records)) = some d2.heldNote
      rw [hmon]
      exact hmon2
    · intro hall
      have hrest := hexp (fun r hr => hall r (List.mem_cons_of_mem _ hr))
      by_cases hcheck : (inp.entry mc).isNoteCheck
      · have htr := hall ⟨inp.entry mc, statics, inp.rand, sent⟩ (List.mem_cons_self _ _) hcheck
        obtain ⟨hact, de, hde2, hfast⟩ := htr
        simp only [] at hde2 hact
        rw [hde] at hde2
        have hdeq := Option.some.inj hde2
        subst hdeq
        obtain ⟨p, hp, hheld, hevs⟩ := htrig hcheck hact hfast
        have hcp : checkPitches i (⟨inp.entry mc, statics, inp.rand, sent⟩ :: records)
            = p :: checkPitches i records := by
          simp only [checkPitches]
          rw [if_pos hcheck, hde]
          simp only []
          rw [hp]
        have hce2 : checkEvents i (⟨inp.entry mc, statics, inp.rand, sent⟩ :: records)
            = noteEventsOf i sent :: checkEvents i records := by
          simp only [checkEvents]
          rw [if_pos hcheck]
        rw [hcp, hce2, expectedEvents_cons, hrest, hheld, hevs]
      · have hcp : checkPitches i (⟨inp.entry mc, statics, inp.rand, sent⟩ :: records)
            = checkPitches i records := by
          simp only [checkPitches]
          rw [if_neg hcheck]
        have hce2 : checkEvents i (⟨inp.entry mc, statics, inp.rand, sent⟩ :: records)
            = checkEvents i records := by
          simp only [checkEvents]
          rw [if_neg hcheck]
        rw [hcp, hce2, hrest, hskip hcheck]

/-- Amended claim C4 (no duplicate note-on). For a run of ticks with every root in
1..127, started with a non-negative frame counter and drone `i` silent: the run returns,
and if the drone is rhythm-active and fast at every note check, then the note events
sent for it check by check are exactly the prescribed ones for its candidate pitches:
On at the first check, Off of the previous pitch followed by On at each later check
whose pitch differs from that of the previous check, nothing at a check whose pitch is
the held one. -/
theorem runTicks_no_duplicate_on [FloorRing K] (m : CMath K) (mc : MainComponent K)
    (statics : RandomRhythmStatics) (inputs : List (TickInput K)) (i : Nat)
    (d : SwarmDrone K) (hframe : 0 ≤ mc.frameCount) (hd : mc.drones[i]? = some d)
    (hsilent : d.Silent)
    (hroot : ∀ inp ∈ inputs, 1 ≤ inp.rootNote ∧ inp.rootNote ≤ 127) :
    ∃ mc1 statics1 records,
      runTicks m mc statics inputs = some (mc1, statics1, records)
        ∧ ((∀ r ∈ records, r.entry.isNoteCheck → r.triggers m i) →
            checkEvents i records = expectedEvents none (checkPitches i records)) := by
  obtain ⟨mc1, statics1, records, hrun, _, _, _, _, hexp⟩ :=
    runTicks_protocol m i inputs mc statics d hframe hd (Or.inl hsilent) hroot
  rw [heldNote_silent d hsilent] at hexp
  exact ⟨mc1, statics1, records, hrun, hexp⟩

/-- Amended claim C8 (no stuck or overlapping notes). For a run of ticks with every
root in 1..127, started at frame 0 with all drones silent (as the constructor leaves
them): the run returns, and for every drone the monitor accepts the sequence of its
note events from silence (the events alternate On, Off, On, ... beginning with On, and
every Off carries the pitch of the On before it) and ends on the pitch the drone holds
at the end of the run. -/
theorem runTicks_notes_alternate [FloorRing K] (m : CMath K) (mc : MainComponent K)
    (statics : RandomRhythmStatics) (inputs : List (TickInput K)) (i : Nat)
    (hframe : mc.frameCount = 0) (hfresh : ∀ d ∈ mc.drones, d.Silent)
    (hi : i < mc.drones.length)
    (hroot : ∀ inp ∈ inputs, 1 ≤ inp.rootNote ∧ inp.rootNote ≤ 127) :
    ∃ mc1 statics1 records,
      runTicks m mc statics inputs = some (mc1, statics1, records)
        ∧ ∃ d1, mc1.drones[i]? = some d1
          ∧ noteMonitor none (runEvents i records) = some d1.heldNote := by
  have hd : mc.drones[i]? = some mc.drones[i] := List.getElem?_eq_getElem hi
  have hs : mc.drones[i].Silent := hfresh _ (List.getElem_mem _)
  obtain ⟨mc1, statics1, records, hrun, d1, hd1, _, hmon, _⟩ :=
    runTicks_protocol m i inputs mc statics _ (by rw [hframe]) hd (Or.inl hs) hroot
  rw [heldNote_silent _ hs] at hmon
  exact ⟨mc1, statics1, records, hrun, d1, hd1, hmon⟩

/-- An example run over no tick. -/
theorem soloRun_nil [FloorRing K] (m : CMath K) (mc : MainComponent K)
    (statics : RandomRhythmStatics) :
    ∃ mc2 statics2 records,
      runTicks m mc statics [] = some (mc2, statics2, records)
        ∧ runEvents 0 records = [] ∧ checkEvents 0 records = []
        ∧ checkPitches 0 records = []
        ∧ ∀ r ∈ records, r.entry.isNoteCheck → r.triggers m 0 :=
  ⟨mc, statics, [], rfl, rfl, rfl, rfl, fun _ h => absurd h (List.not_mem_nil _)⟩

/-- An example run, one tick that is not a note check: nothing is sent and the run
goes on from the next frame with the drone moved. -/
theorem soloRun_skip [FloorRing K] (m : CMath K) (f : Int) (s0 s : String) (r0 r : Int)
    (x0 v0 x vx size : K) (a : Bool) (c : Int) (statics : RandomRhythmStatics)
    (rest : List (TickInput K)) (E : List NoteEvent) (CE : List (List NoteEvent))
    (P : List Int) (hf : f.tmod 3 ≠ 0)
    (h : ∃ mc2 statics2 records,
      runTicks m (soloSwarm (f + 1) s r (runDrone x vx size a c)) statics rest
          = some (mc2, statics2, records)
        ∧ runEvents 0 records = E ∧ checkEvents 0 records = CE
        ∧ checkPitches 0 records = P
        ∧ ∀ r ∈ records, r.entry.isNoteCheck → r.triggers m 0) :
    ∃ mc2 statics2 records,
      runTicks m (soloSwarm f s0 r0 (runDrone x0 v0 size a c)) statics
          (soloInput x vx s r :: rest) = some (mc2, statics2, records)
        ∧ runEvents 0 records = E ∧ checkEvents 0 records = CE
        ∧ checkPitches 0 records = P
        ∧ ∀ r ∈ records, r.entry.isNoteCheck → r.triggers m 0 := by
  obtain ⟨mc2, statics2, records, hrun, hE, hCE, hP, hT⟩ := h
  have hentry : (soloInput x vx s r).entry (soloSwarm f s0 r0 (runDrone x0 v0 size a c))
      = soloSwarm f s r (runDrone x vx size a c) := rfl
  have hnc : ¬ (soloSwarm f s r (runDrone x vx size a c)).isNoteCheck := fun hc => hf hc.2
  have hgen := generateMidi_not_check m (soloSwarm f s r (runDrone x vx size a c)) statics
    (soloInput x vx s r).rand (soloInput x vx s r).nextFloat hnc
  refine ⟨mc2, statics2,
    ⟨soloSwarm f s r (runDrone x vx size a c), statics, (soloInput x vx s r).rand, []⟩
      :: records, ?_, ?_, ?_, ?_, ?_⟩
  · simp only [runTicks, hentry, hgen]
    change (match runTicks m (soloSwarm (f + 1) s r (runDrone x vx size a c)) statics rest with
      | none => none
      | some (mc2, statics2, records) => some (mc2, statics2, _ :: records)) = _
    rw [hrun]
  · simp only [runEvents, List.flatMap_cons] at hE ⊢
    rw [hE]
    rfl
  · simp only [checkEvents]
    rw [if_neg hnc, hCE]
  · simp only [checkPitches]
    rw [if_neg hnc, hP]
  · intro rec hrec hcheck
    rcases List.mem_cons.mp hrec with h | h
    · subst h
      exact absurd hcheck hnc
    · exact hT rec h hcheck

/-- An example run, one tick that is a note check: the loop body runs on the moved
drone and the run goes on from the next frame with the drone it leaves. -/
theorem soloRun_check [FloorRing K] (m : CMath K) (f : Int) (s0 s : String) (r0 r : Int)
    (x0 v0 x vx size size1 : K) (a a1 : Bool) (c c1 p : Int) (N : List NoteEvent)
    (statics : RandomRhythmStatics)
    (rest : List (TickInput K)) (E : List NoteEvent) (CE : List (List NoteEvent))
    (P : List Int) (hf : f.tmod 3 = 0) (hfast : (runDrone x vx size a c).fast m)
    (hcand : vectorAt (MusicScales.getScaleNotes s r)
      (MainComponent.noteIndex (MusicScales.getScaleNotes s r) x) = some p)
    (hpd : ∃ ev, MainComponent.processDrone m true (MusicScales.getScaleNotes s r) 1
        (runDrone x vx size a c) = some (runDrone x vx size1 a1 c1, ev)
      ∧ ev.filterMap MidiMessage.noteEvent = N)
    (h : ∃ mc2 statics2 records,
      runTicks m (soloSwarm (f + 1) s r (runDrone x vx size1 a1 c1)) statics rest
          = some (mc2, statics2, records)
        ∧ runEvents 0 records = E ∧ checkEvents 0 records = CE
        ∧ checkPitches 0 records = P
        ∧ ∀ r ∈ records, r.entry.isNoteCheck → r.triggers m 0) :
    ∃ mc2 statics2 records,
      runTicks m (soloSwarm f s0 r0 (runDrone x0 v0 size a c)) statics
          (soloInput x vx s r :: rest) = some (mc2, statics2, records)
        ∧ runEvents 0 records = N ++ E
        ∧ checkEvents 0 records = N :: CE
        ∧ checkPitches 0 records = p :: P
        ∧ ∀ r ∈ records, r.entry.isNoteCheck → r.triggers m 0 := by
  obtain ⟨mc2, statics2, records, hrun, hE, hCE, hP, hT⟩ := h
  obtain ⟨ev, hpd, hN⟩ := hpd
  subst hN
  have hentry : (soloInput x vx s r).entry (soloSwarm f s0 r0 (runDrone x0 v0 size a c))
      = soloSwarm f s r (runDrone x vx size a c) := rfl
  have hc : (soloSwarm f s r (runDrone x vx size a c)).isNoteCheck := ⟨rfl, hf⟩
  have hgen : MainComponent.generateMidi m (soloSwarm f s r (runDrone x vx size a c)) statics
      (soloInput x vx s r).rand (soloInput x vx s r).nextFloat
      = some (soloSwarm f s r (runDrone x vx size1 a1 c1), statics,
          ev.map (fun msg => (0, msg))) := by
    rw [generateMidi_solo m f s r _ statics _ _ hf]
    change (match MainComponent.processDrone m true (MusicScales.getScaleNotes s r) 1
        (runDrone x vx size a c) with
      | none => none
      | some (d1, ev) => some (soloSwarm f s r d1, statics, ev.map (fun msg => (0, msg)))) = _
    rw [hpd]
  have hne : noteEventsOf 0 (ev.map (fun msg => ((0 : Nat), msg)))
      = ev.filterMap MidiMessage.noteEvent := by
    unfold noteEventsOf
    rw [eventsOf_tagged_self]
  refine ⟨mc2, statics2,
    ⟨soloSwarm f s r (runDrone x vx size a c), statics, (soloInput x vx s r).rand,
      ev.map (fun msg => (0, msg))⟩ :: records, ?_, ?_, ?_, ?_, ?_⟩
  · simp only [runTicks, hentry, hgen]
    change (match runTicks m (soloSwarm (f + 1) s r (runDrone x vx size1 a1 c1)) statics rest
      with
      | none => none
      | some (mc2, statics2, records) => some (mc2, statics2, _ :: records)) = _
    rw [hrun]
  · simp only [runEvents, List.flatMap_cons] at hE ⊢
    rw [hE, hne]
  · simp only [checkEvents]
    rw [if_pos hc, hCE, hne]
  · simp only [checkPitches]
    rw [if_pos hc]
    simp only [soloSwarm, List.getElem?_cons_zero, MainComponent.candidateNote,
      MainComponent.scaleNotes, runDrone]
    rw [hcand, hP]
  · intro rec hrec hcheck
    rcases List.mem_cons.mp hrec with h | h
    · subst h
      exact ⟨rfl, runDrone x vx size a c, rfl, hfast⟩
    · exact hT rec h hcheck

/-- A real drone moving along the X axis is fast when its X velocity exceeds 0.3 in
absolute value. -/
theorem runDrone_fast (x vx size : ℝ) (a : Bool) (c : Int) (h : 0.09 < vx * vx) :
    (runDrone x vx size a c).fast ⟨Real.sqrt, Real.sin, Real.cos, 2 * Real.pi⟩ := by
  rw [fast_real_iff]
  simp only [runDrone, Vector3D.lengthSquared]
  linarith

/-- The candidate pitch at a real X coordinate, from the index the coordinate maps to. -/
theorem candidate_eval (scale : List Int) (x : ℝ) (n : Nat) (p : Int)
    (h0 : 0 ≤ (x + 15) / 30 * (scale.length : ℝ))
    (h1 : (n : ℝ) ≤ (x + 15) / 30 * (scale.length : ℝ))
    (h2 : (x + 15) / 30 * (scale.length : ℝ) < (n : ℝ) + 1)
    (hp : scale[n]? = some p) :
    vectorAt scale (MainComponent.noteIndex scale x) = some p := by
  have hn : n < scale.length := (List.getElem?_eq_some.mp hp).1
  unfold MainComponent.noteIndex
  rw [truncToInt_eq _ (n : Int) h0 (by exact_mod_cast h1) (by exact_mod_cast h2)]
  unfold jlimit vectorAt
  rw [if_neg (by omega), if_neg (by omega), if_neg (by omega)]
  simpa using hp

/-- The scale list of the Pentatonic scale from root 0. -/
theorem getScaleNotes_pentatonic_0 :
    MusicScales.getScaleNotes "Pentatonic" 0
      = [0, 2, 4, 7, 9, 12, 14, 16, 19, 21, 24, 26, 28, 31, 33] := by
  decide

/-- The example run of C4: a silent drone, rhythm-active and fast at the four note
checks of frames 0, 3, 6 and 9, with candidate pitches 60, 60, 60 and 64. -/
theorem soloRun_60_60_60_64 :
    ∃ mc2 statics2 records,
      runTicks ⟨Real.sqrt, Real.sin, Real.cos, 2 * Real.pi⟩
          (soloSwarm 0 "Major" 60 (runDrone (-14.4 : ℝ) 0 100 false 0))
          RandomRhythmStatics.initial
          exampleRunMajor
        = some (mc2, statics2, records)
      ∧ runEvents 0 records = [NoteEvent.On 60, NoteEvent.Off 60, NoteEvent.On 64]
      ∧ checkEvents 0 records
          = [[NoteEvent.On 60], [], [], [NoteEvent.Off 60, NoteEvent.On 64]]
      ∧ checkPitches 0 records = [60, 60, 60, 64]
      ∧ ∀ r ∈ records, r.entry.isNoteCheck →
          r.triggers ⟨Real.sqrt, Real.sin, Real.cos, 2 * Real.pi⟩ 0 := by
  have c0 : vectorAt (MusicScales.getScaleNotes "Major" 60)
      (MainComponent.noteIndex (MusicScales.getScaleNotes "Major" 60) (-14.0 : ℝ)) = some 60 := by
    apply candidate_eval _ _ 0 <;> norm_num [getScaleNotes_major_60]
  have c3 : vectorAt (MusicScales.getScaleNotes "Major" 60)
      (MainComponent.noteIndex (MusicScales.getScaleNotes "Major" 60) (-13.6 : ℝ)) = some 60 := by
    apply candidate_eval _ _ 0 <;> norm_num [getScaleNotes_major_60]
  have c9 : vectorAt (MusicScales.getScaleNotes "Major" 60)
      (MainComponent.noteIndex (MusicScales.getScaleNotes "Major" 60) (-12.1 : ℝ)) = some 64 := by
    apply candidate_eval _ _ 2 <;> norm_num [getScaleNotes_major_60]
  unfold exampleRunMajor
  refine soloRun_check _ 0 _ _ _ _ _ _ _ _ _ 150 _ true _ 60 60 [NoteEvent.On 60] _ _
    [NoteEvent.Off 60, NoteEvent.On 64] [[], [], [NoteEvent.Off 60, NoteEvent.On 64]]
    [60, 60, 64] (by decide) (runDrone_fast _ _ _ _ _ (by norm_num)) c0 ?_ ?_
  · rw [processDrone_trigger _ _ _ _ 60 (runDrone_fast _ _ _ _ _ (by norm_num)) c0]
    simp only [runDrone]
    norm_num [MidiMessage.noteEvent]
    try rfl
  refine soloRun_skip _ 1 _ _ _ _ _ _ _ _ _ _ _ _ _ _ _ _ (by decide) ?_
  refine soloRun_skip _ 2 _ _ _ _ _ _ _ _ _ _ _ _ _ _ _ _ (by decide) ?_
  refine soloRun_check _ 3 _ _ _ _ _ _ _ _ _ 100 _ true _ 60 60 [] _ _
    [NoteEvent.Off 60, NoteEvent.On 64] [[], [NoteEvent.Off 60, NoteEvent.On 64]]
    [60, 64] (by decide) (runDrone_fast _ _ _ _ _ (by norm_num)) c3 ?_ ?_
  · rw [processDrone_trigger _ _ _ _ 60 (runDrone_fast _ _ _ _ _ (by norm_num)) c3]
    simp only [runDrone]
    norm_num [MidiMessage.noteEvent]
    try rfl
  refine soloRun_skip _ 4 _ _ _ _ _ _ _ _ _ _ _ _ _ _ _ _ (by decide) ?_
  refine soloRun_skip _ 5 _ _ _ _ _ _ _ _ _ _ _ _ _ _ _ _ (by decide) ?_
  refine soloRun_check _ 6 _ _ _ _ _ _ _ _ _ 100 _ true _ 60 60 [] _ _
    [NoteEvent.Off 60, NoteEvent.On 64] [[NoteEvent.Off 60, NoteEvent.On 64]]
    [64] (by decide) (runDrone_fast _ _ _ _ _ (by norm_num)) c3 ?_ ?_
  · rw [processDrone_trigger _ _ _ _ 60 (runDrone_fast _ _ _ _ _ (by norm_num)) c3]
    simp only [runDrone]
    norm_num [MidiMessage.noteEvent]
    try rfl
  refine soloRun_skip _ 7 _ _ _ _ _ _ _ _ _ _ _ _ _ _ _ _ (by decide) ?_
  refine soloRun_skip _ 8 _ _ _ _ _ _ _ _ _ _ _ _ _ _ _ _ (by decide) ?_
  refine soloRun_check _ 9 _ _ _ _ _ _ _ _ _ 150 _ true _ 64 64
    [NoteEvent.Off 60, NoteEvent.On 64] _ _ [] [] [] (by decide) (runDrone_fast _ _ _ _ _ (by norm_num)) c9 ?_ ?_
  · rw [processDrone_trigger _ _ _ _ 64 (runDrone_fast _ _ _ _ _ (by norm_num)) c9]
    simp only [runDrone]
    norm_num [MidiMessage.noteEvent]
    try rfl
  exact soloRun_nil _ _ _

/-- Witness for C4: candidate pitches 60, 60, 60, 64 give exactly On(60), Off(60),
On(64). -/
theorem runTicks_no_duplicate_on_witness :
    (runDrone (-14.4 : ℝ) 0 100 false 0).Silent
    ∧ ∃ mc1 statics1 records,
      runTicks ⟨Real.sqrt, Real.sin, Real.cos, 2 * Real.pi⟩
          (soloSwarm 0 "Major" 60 (runDrone (-14.4 : ℝ) 0 100 false 0))
          RandomRhythmStatics.initial exampleRunMajor = some (mc1, statics1, records)
        ∧ (∀ r ∈ records, r.entry.isNoteCheck →
            r.triggers ⟨Real.sqrt, Real.sin, Real.cos, 2 * Real.pi⟩ 0)
        ∧ checkPitches 0 records = [60, 60, 60, 64]
        ∧ checkEvents 0 records = expectedEvents none (checkPitches 0 records)
        ∧ runEvents 0 records = [NoteEvent.On 60, NoteEvent.Off 60, NoteEvent.On 64] := by
  refine ⟨⟨rfl, rfl⟩, ?_⟩
  obtain ⟨mc1, statics1, records, hrun, himp⟩ :=
    runTicks_no_duplicate_on ⟨Real.sqrt, Real.sin, Real.cos, 2 * Real.pi⟩
      (soloSwarm 0 "Major" 60 (runDrone (-14.4 : ℝ) 0 100 false 0))
      RandomRhythmStatics.initial exampleRunMajor 0 (runDrone (-14.4 : ℝ) 0 100 false 0)
      (by decide) rfl ⟨rfl, rfl⟩
      (by
        intro inp hinp
        simp only [exampleRunMajor, List.mem_cons, List.mem_singleton, List.not_mem_nil,
          or_false] at hinp
        rcases hinp with h | h | h | h | h | h | h | h | h | h <;> subst h <;>
          exact ⟨by decide, by decide⟩)
  obtain ⟨mc2, statics2, records2, hrun2, hE, _, hP, hT⟩ := soloRun_60_60_60_64
  rw [hrun] at hrun2
  simp only [Option.some.injEq, Prod.mk.injEq] at hrun2
  obtain ⟨_, _, hrec⟩ := hrun2
  subst hrec
  exact ⟨mc1, statics1, records, hrun, hT, hP, himp hT, hE⟩

/-- The example run with pitch 0: the silent drone triggers at both note checks, with
candidate pitches 0 and 1; nothing is sent at the first check and only On(1) at the
second. -/
theorem soloRun_0_1 :
    ∃ mc2 statics2 records,
      runTicks ⟨Real.sqrt, Real.sin, Real.cos, 2 * Real.pi⟩
          (soloSwarm 0 "Chromatic" 0 (runDrone (-14.1 : ℝ) 0 100 false 0))
          RandomRhythmStatics.initial exampleRunPitchZero
        = some (mc2, statics2, records)
      ∧ runEvents 0 records = [NoteEvent.On 1]
      ∧ checkEvents 0 records = [[], [NoteEvent.On 1]]
      ∧ checkPitches 0 records = [0, 1]
      ∧ ∀ r ∈ records, r.entry.isNoteCheck →
          r.triggers ⟨Real.sqrt, Real.sin, Real.cos, 2 * Real.pi⟩ 0 := by
  have c0 : vectorAt (MusicScales.getScaleNotes "Chromatic" 0)
      (MainComponent.noteIndex (MusicScales.getScaleNotes "Chromatic" 0) (-14.5 : ℝ))
      = some 0 := by
    apply candidate_eval _ _ 0 <;> norm_num [getScaleNotes_chromatic_0]
  have c3 : vectorAt (MusicScales.getScaleNotes "Chromatic" 0)
      (MainComponent.noteIndex (MusicScales.getScaleNotes "Chromatic" 0) (-13.7 : ℝ))
      = some 1 := by
    apply candidate_eval _ _ 1 <;> norm_num [getScaleNotes_chromatic_0]
  unfold exampleRunPitchZero
  refine soloRun_check _ 0 _ _ _ _ _ _ _ _ _ 100 _ false _ 0 0 [] _ _
    [NoteEvent.On 1] [[NoteEvent.On 1]] [1] (by decide)
    (runDrone_fast _ _ _ _ _ (by norm_num)) c0 ?_ ?_
  · rw [processDrone_trigger _ _ _ _ 0 (runDrone_fast _ _ _ _ _ (by norm_num)) c0]
    simp only [runDrone]
    norm_num [MidiMessage.noteEvent]
    try rfl
  refine soloRun_skip _ 1 _ _ _ _ _ _ _ _ _ _ _ _ _ _ _ _ (by decide) ?_
  refine soloRun_skip _ 2 _ _ _ _ _ _ _ _ _ _ _ _ _ _ _ _ (by decide) ?_
  refine soloRun_check _ 3 _ _ _ _ _ _ _ _ _ 150 _ true _ 1 1 [NoteEvent.On 1] _ _
    [] [] [] (by decide) (runDrone_fast _ _ _ _ _ (by norm_num)) c3 ?_ ?_
  · rw [processDrone_trigger _ _ _ _ 1 (runDrone_fast _ _ _ _ _ (by norm_num)) c3]
    simp only [runDrone]
    norm_num [MidiMessage.noteEvent]
    try rfl
  exact soloRun_nil _ _ _

/-- Counterexample to C4 as stated: with root 0 a silent drone that triggers at two
consecutive note checks with candidate pitches 0 and 1 gets no On at the first check
and no Off before the On of the second. -/
theorem runTicks_pitch_zero_no_on :
    (runDrone (-14.1 : ℝ) 0 100 false 0).Silent
    ∧ ∃ mc1 statics1 records,
      runTicks ⟨Real.sqrt, Real.sin, Real.cos, 2 * Real.pi⟩
          (soloSwarm 0 "Chromatic" 0 (runDrone (-14.1 : ℝ) 0 100 false 0))
          RandomRhythmStatics.initial exampleRunPitchZero = some (mc1, statics1, records)
        ∧ (∀ r ∈ records, r.entry.isNoteCheck →
            r.triggers ⟨Real.sqrt, Real.sin, Real.cos, 2 * Real.pi⟩ 0)
        ∧ checkPitches 0 records = [0, 1]
        ∧ checkEvents 0 records = [[], [NoteEvent.On 1]]
        ∧ expectedEvents none (checkPitches 0 records)
            = [[NoteEvent.On 0], [NoteEvent.Off 0, NoteEvent.On 1]]
        ∧ checkEvents 0 records ≠ expectedEvents none (checkPitches 0 records) := by
  obtain ⟨mc2, statics2, records, hrun, _, hCE, hP, hT⟩ := soloRun_0_1
  refine ⟨⟨rfl, rfl⟩, mc2, statics2, records, hrun, hT, hP, hCE, ?_, ?_⟩
  · rw [hP]; decide
  · rw [hP, hCE]; decide

/-- The example run from a new drone with root 0: the note events sent for the drone. -/
theorem soloRun_root_zero :
    ∃ mc2 statics2 records,
      runTicks ⟨Real.sqrt, Real.sin, Real.cos, 2 * Real.pi⟩
          (soloSwarm 0 "Pentatonic" 0 (runDrone (-10 : ℝ) 0 100 false 0))
          RandomRhythmStatics.initial exampleRunRootZero
        = some (mc2, statics2, records)
      ∧ runEvents 0 records
          = [NoteEvent.On 4, NoteEvent.Off 4, NoteEvent.On 2, NoteEvent.Off 2, NoteEvent.On 0,
             NoteEvent.On 2]
      ∧ checkEvents 0 records
          = [[NoteEvent.On 4], [NoteEvent.Off 4, NoteEvent.On 2],
             [NoteEvent.Off 2, NoteEvent.On 0], [NoteEvent.On 2]]
      ∧ checkPitches 0 records = [4, 2, 0, 2]
      ∧ ∀ r ∈ records, r.entry.isNoteCheck →
          r.triggers ⟨Real.sqrt, Real.sin, Real.cos, 2 * Real.pi⟩ 0 := by
  have c0 : vectorAt (MusicScales.getScaleNotes "Pentatonic" 0)
      (MainComponent.noteIndex (MusicScales.getScaleNotes "Pentatonic" 0) (-10.5 : ℝ))
      = some 4 := by
    apply candidate_eval _ _ 2 <;> norm_num [getScaleNotes_pentatonic_0]
  have c3 : vectorAt (MusicScales.getScaleNotes "Pentatonic" 0)
      (MainComponent.noteIndex (MusicScales.getScaleNotes "Pentatonic" 0) (-12.0 : ℝ))
      = some 2 := by
    apply candidate_eval _ _ 1 <;> norm_num [getScaleNotes_pentatonic_0]
  have c6 : vectorAt (MusicScales.getScaleNotes "Pentatonic" 0)
      (MainComponent.noteIndex (MusicScales.getScaleNotes "Pentatonic" 0) (-13.5 : ℝ))
      = some 0 := by
    apply candidate_eval _ _ 0 <;> norm_num [getScaleNotes_pentatonic_0]
  unfold exampleRunRootZero
  refine soloRun_check _ 0 _ _ _ _ _ _ _ _ _ 150 _ true _ 4 4 [NoteEvent.On 4] _ _
    [NoteEvent.Off 4, NoteEvent.On 2, NoteEvent.Off 2, NoteEvent.On 0, NoteEvent.On 2]
    [[NoteEvent.Off 4, NoteEvent.On 2], [NoteEvent.Off 2, NoteEvent.On 0], [NoteEvent.On 2]]
    [2, 0, 2] (by decide) (runDrone_fast _ _ _ _ _ (by norm_num)) c0 ?_ ?_
  · rw [processDrone_trigger _ _ _ _ 4 (runDrone_fast _ _ _ _ _ (by norm_num)) c0]
    simp only [runDrone]
    norm_num [MidiMessage.noteEvent]
    try rfl
  refine soloRun_skip _ 1 _ _ _ _ _ _ _ _ _ _ _ _ _ _ _ _ (by decide) ?_
  refine soloRun_skip _ 2 _ _ _ _ _ _ _ _ _ _ _ _ _ _ _ _ (by decide) ?_
  refine soloRun_check _ 3 _ _ _ _ _ _ _ _ _ 150 _ true _ 2 2
    [NoteEvent.Off 4, NoteEvent.On 2] _ _
    [NoteEvent.Off 2, NoteEvent.On 0, NoteEvent.On 2]
    [[NoteEvent.Off 2, NoteEvent.On 0], [NoteEvent.On 2]]
    [0, 2] (by decide) (runDrone_fast _ _ _ _ _ (by norm_num)) c3 ?_ ?_
  · rw [processDrone_trigger _ _ _ _ 2 (runDrone_fast _ _ _ _ _ (by norm_num)) c3]
    simp only [runDrone]
    norm_num [MidiMessage.noteEvent]
    try rfl
  refine soloRun_skip _ 4 _ _ _ _ _ _ _ _ _ _ _ _ _ _ _ _ (by decide) ?_
  refine soloRun_skip _ 5 _ _ _ _ _ _ _ _ _ _ _ _ _ _ _ _ (by decide) ?_
  refine soloRun_check _ 6 _ _ _ _ _ _ _ _ _ 150 _ true _ 0 0
    [NoteEvent.Off 2, NoteEvent.On 0] _ _
    [NoteEvent.On 2] [[NoteEvent.On 2]] [2] (by decide)
    (runDrone_fast _ _ _ _ _ (by norm_num)) c6 ?_ ?_
  · rw [processDrone_trigger _ _ _ _ 0 (runDrone_fast _ _ _ _ _ (by norm_num)) c6]
    simp only [runDrone]
    norm_num [MidiMessage.noteEvent]
    try rfl
  refine soloRun_skip _ 7 _ _ _ _ _ _ _ _ _ _ _ _ _ _ _ _ (by decide) ?_
  refine soloRun_skip _ 8 _ _ _ _ _ _ _ _ _ _ _ _ _ _ _ _ (by decide) ?_
  refine soloRun_check _ 9 _ _ _ _ _ _ _ _ _ 150 _ true _ 2 2 [NoteEvent.On 2] _ _
    [] [] [] (by decide) (runDrone_fast _ _ _ _ _ (by norm_num)) c3 ?_ ?_
  · rw [processDrone_trigger _ _ _ _ 2 (runDrone_fast _ _ _ _ _ (by norm_num)) c3]
    simp only [runDrone]
    norm_num [MidiMessage.noteEvent]
    try rfl
  exact soloRun_nil _ _ _

/-- Counterexample to C8 as stated: with root 0 (inside 0..127) and the Pentatonic
scale, a newly constructed drone that flies to the wall and back gets the note events
On(4), Off(4), On(2), Off(2), On(0), On(2): the note 0 is never turned off and two On
events follow each other, so the monitor refuses the sequence. -/
theorem runTicks_root_zero_overlap :
    ∃ mc1 statics1 records,
      runTicks ⟨Real.sqrt, Real.sin, Real.cos, 2 * Real.pi⟩
          (soloSwarm 0 "Pentatonic" 0 (SwarmDrone.construct 0 (⟨-10, 0, 0⟩ : Vector3D ℝ)))
          RandomRhythmStatics.initial exampleRunRootZero = some (mc1, statics1, records)
        ∧ runEvents 0 records
            = [NoteEvent.On 4, NoteEvent.Off 4, NoteEvent.On 2, NoteEvent.Off 2,
               NoteEvent.On 0, NoteEvent.On 2]
        ∧ noteMonitor none (runEvents 0 records) = none := by
  have hfresh : SwarmDrone.construct 0 (⟨-10, 0, 0⟩ : Vector3D ℝ)
      = runDrone (-10 : ℝ) 0 100 false 0 := by
    simp only [SwarmDrone.construct, runDrone]
    rfl
  obtain ⟨mc2, statics2, records, hrun, hE, _, _, _⟩ := soloRun_root_zero
  refine ⟨mc2, statics2, records, ?_, hE, ?_⟩
  · rw [hfresh]; exact hrun
  · rw [hE]; decide

/-- Witness for C8: the component as constructed, with a MIDI output, run over the ten
ticks of the C Major example. -/
theorem runTicks_notes_alternate_witness :
    (MainComponent.construct true (fun _ => (⟨0, 0, 0⟩ : Vector3D ℝ))).frameCount = 0
    ∧ (∀ d ∈ (MainComponent.construct true (fun _ => (⟨0, 0, 0⟩ : Vector3D ℝ))).drones,
        d.Silent)
    ∧ ∃ mc1 statics1 records,
      runTicks ⟨Real.sqrt, Real.sin, Real.cos, 2 * Real.pi⟩
          (MainComponent.construct true (fun _ => (⟨0, 0, 0⟩ : Vector3D ℝ)))
          RandomRhythmStatics.initial exampleRunMajor = some (mc1, statics1, records)
        ∧ ∃ d1, mc1.drones[3]? = some d1
          ∧ noteMonitor none (runEvents 3 records) = some d1.heldNote := by
  have hfresh : ∀ d ∈ (MainComponent.construct true
      (fun _ => (⟨0, 0, 0⟩ : Vector3D ℝ))).drones, d.Silent := by
    intro d hd
    simp only [MainComponent.construct, List.mem_map] at hd
    obtain ⟨j, _, rfl⟩ := hd
    exact ⟨rfl, rfl⟩
  exact ⟨rfl, hfresh,
    runTicks_notes_alternate ⟨Real.sqrt, Real.sin, Real.cos, 2 * Real.pi⟩
      (MainComponent.construct true (fun _ => (⟨0, 0, 0⟩ : Vector3D ℝ)))
      RandomRhythmStatics.initial exampleRunMajor 3 rfl hfresh (by decide)
      (by
        intro inp hinp
        simp only [exampleRunMajor, List.mem_cons, List.mem_singleton, List.not_mem_nil,
          or_false] at hinp
        rcases hinp with h | h | h | h | h | h | h | h | h | h <;> subst h <;>
          exact ⟨by decide, by decide⟩)⟩

/-! ## Teardown (C10) -/

/-- Amended claim C10 (shutdown drain). With a MIDI output the destructor sends exactly
sixteen messages, the all-notes-off controller message (controller 123, value 0) for
each of the channels 1 to 16 in ascending order, whatever the drones hold; so the
channel `midiChannel + 1` of every drone with `midiChannel` in 0..15 receives one. It
sends no note-off message and leaves the component, the note state of every drone
included, as it was. -/
theorem destructor_all_notes_off {F : Type} (mc : MainComponent F) (d : SwarmDrone F)
    (hout : mc.midiOutput = true) (hd : d ∈ mc.drones)
    (hch : 0 ≤ d.midiChannel ∧ d.midiChannel < 16) :
    mc.destructor.1 = mc
    ∧ mc.destructor.2
        = [MidiMessage.controllerEvent 1 123 0, MidiMessage.controllerEvent 2 123 0,
           MidiMessage.controllerEvent 3 123 0, MidiMessage.controllerEvent 4 123 0,
           MidiMessage.controllerEvent 5 123 0, MidiMessage.controllerEvent 6 123 0,
           MidiMessage.controllerEvent 7 123 0, MidiMessage.controllerEvent 8 123 0,
           MidiMessage.controllerEvent 9 123 0, MidiMessage.controllerEvent 10 123 0,
           MidiMessage.controllerEvent 11 123 0, MidiMessage.controllerEvent 12 123 0,
           MidiMessage.controllerEvent 13 123 0, MidiMessage.controllerEvent 14 123 0,
           MidiMessage.controllerEvent 15 123 0, MidiMessage.controllerEvent 16 123 0]
    ∧ MidiMessage.allNotesOff (d.midiChannel + 1) ∈ mc.destructor.2
    ∧ (∀ msg ∈ mc.destructor.2, MidiMessage.noteEvent msg = none)
    ∧ d ∈ mc.destructor.1.drones := by
  have hlist : mc.destructor.2
      = [MidiMessage.controllerEvent 1 123 0, MidiMessage.controllerEvent 2 123 0,
         MidiMessage.controllerEvent 3 123 0, MidiMessage.controllerEvent 4 123 0,
         MidiMessage.controllerEvent 5 123 0, MidiMessage.controllerEvent 6 123 0,
         MidiMessage.controllerEvent 7 123 0, MidiMessage.controllerEvent 8 123 0,
         MidiMessage.controllerEvent 9 123 0, MidiMessage.controllerEvent 10 123 0,
         MidiMessage.controllerEvent 11 123 0, MidiMessage.controllerEvent 12 123 0,
         MidiMessage.controllerEvent 13 123 0, MidiMessage.controllerEvent 14 123 0,
         MidiMessage.controllerEvent 15 123 0, MidiMessage.controllerEvent 16 123 0] := by
    unfold MainComponent.destructor
    rw [if_pos hout]
    rfl
  have hstate : mc.destructor.1 = mc := by
    unfold MainComponent.destructor
    rw [if_pos hout]
  refine ⟨hstate, hlist, ?_, ?_, by rw [hstate]; exact hd⟩
  · rw [hlist]
    unfold MidiMessage.allNotesOff
    obtain ⟨h0, h1⟩ := hch
    have hcases : d.midiChannel = 0 ∨ d.midiChannel = 1 ∨ d.midiChannel = 2
        ∨ d.midiChannel = 3 ∨ d.midiChannel = 4 ∨ d.midiChannel = 5 ∨ d.midiChannel = 6
        ∨ d.midiChannel = 7 ∨ d.midiChannel = 8 ∨ d.midiChannel = 9 ∨ d.midiChannel = 10
        ∨ d.midiChannel = 11 ∨ d.midiChannel = 12 ∨ d.midiChannel = 13
        ∨ d.midiChannel = 14 ∨ d.midiChannel = 15 := by omega
    rcases hcases with h | h | h | h | h | h | h | h | h | h | h | h | h | h | h | h <;>
      rw [h] <;> simp
  · rw [hlist]
    intro msg hmsg
    simp only [List.mem_cons, List.mem_singleton, List.not_mem_nil, or_false] at hmsg
    rcases hmsg with h | h | h | h | h | h | h | h | h | h | h | h | h | h | h | h <;>
      rw [h] <;> rfl

/-- Witness for C10: the second of two drones holding 60 and 67 on the channels of
the ids 0 and 1. -/
theorem destructor_all_notes_off_witness :
    (examplePair (K := ℝ)).midiOutput = true
    ∧ holdingDrone 1 67 ∈ (examplePair (K := ℝ)).drones
    ∧ MidiMessage.allNotesOff ((holdingDrone (K := ℝ) 1 67).midiChannel + 1)
        ∈ (examplePair (K := ℝ)).destructor.2
    ∧ (examplePair (K := ℝ)).destructor.2.length = 16 := by
  have hmem : holdingDrone 1 67 ∈ (examplePair (K := ℝ)).drones := by
    simp [examplePair]
  have h := destructor_all_notes_off (examplePair (K := ℝ)) (holdingDrone 1 67) rfl hmem
    ⟨by decide, by decide⟩
  refine ⟨rfl, hmem, h.2.2.1, ?_⟩
  rw [h.2.1]
  rfl

/-- Counterexample to C10 as stated: with two drones holding 60 and 67 on different
channels the destructor sends sixteen controller messages and no note-off message, not
two Off events, and both drones still hold their pitch. -/
theorem destructor_two_holding_drones :
    (examplePair (K := ℝ)).midiOutput = true
    ∧ (∃ d1 d2, (examplePair (K := ℝ)).drones = [d1, d2] ∧ d1.Holding 60 ∧ d2.Holding 67
        ∧ d1.midiChannel ≠ d2.midiChannel)
    ∧ (examplePair (K := ℝ)).destructor.2.length = 16
    ∧ (examplePair (K := ℝ)).destructor.2.filterMap MidiMessage.noteEvent = []
    ∧ (∃ d1 d2, (examplePair (K := ℝ)).destructor.1.drones = [d1, d2] ∧ d1.Holding 60
        ∧ d2.Holding 67 ∧ ¬ d1.Silent ∧ ¬ d2.Silent) := by
  refine ⟨rfl, ⟨_, _, rfl, ⟨rfl, rfl⟩, ⟨rfl, rfl⟩, by decide⟩, rfl, rfl,
    ⟨_, _, rfl, ⟨rfl, rfl⟩, ⟨rfl, rfl⟩, ?_, ?_⟩⟩
  · intro h; exact Bool.noConfusion h.1
  · intro h; exact Bool.noConfusion h.1

/-! ## The held-note flag (C28) -/

/-- The loop body keeps the flag and the held pitch in agreement when no pitch of the
scale list is 0. -/
theorem processDrone_flag [FloorRing K] (m : CMath K) (a : Bool) (scale : List Int)
    (nf : K) (d d1 : SwarmDrone K) (ev : List (MidiMessage K))
    (hpos : ∀ note ∈ scale, 1 ≤ note) (hc : d.flagConsistent)
    (h : MainComponent.processDrone m a scale nf d = some (d1, ev)) :
    d1.flagConsistent := by
  unfold SwarmDrone.flagConsistent at hc ⊢
  unfold MainComponent.processDrone at h
  simp only at h
  split at h
  · split at h
    · exact absurd h (by simp)
    · rename_i note hnote
      have hn := hpos note (vectorAt_mem _ _ _ hnote)
      split at h
      · simp only [Option.some.injEq, Prod.mk.injEq] at h
        obtain ⟨rfl, _⟩ := h
        simp
        omega
      · simp only [Option.some.injEq, Prod.mk.injEq] at h
        obtain ⟨rfl, _⟩ := h
        exact hc
  · split at h
    · simp only [Option.some.injEq, Prod.mk.injEq] at h
      obtain ⟨rfl, _⟩ := h
      simp
    · simp only [Option.some.injEq, Prod.mk.injEq] at h
      obtain ⟨rfl, _⟩ := h
      exact hc

/-- Every drone the loop of `generateMidi` returns is the result of the loop body on
a drone of the input. -/
theorem processDrones_mem [FloorRing K] (m : CMath K) (mask : List Bool) (scale : List Int)
    (nf : Nat → K) :
    ∀ (ds : List (SwarmDrone K)) (k : Nat) (ds1 : List (SwarmDrone K))
      (sent : List (Nat × MidiMessage K)),
      MainComponent.processDrones m mask scale nf k ds = some (ds1, sent) →
      ∀ d1 ∈ ds1, ∃ d ∈ ds, ∃ a x ev,
        MainComponent.processDrone m a scale x d = some (d1, ev) := by
  intro ds
  induction ds with
  | nil =>
    intro k ds1 sent h d1 hd1
    simp only [MainComponent.processDrones, Option.some.injEq, Prod.mk.injEq] at h
    rw [← h.1] at hd1
    simp at hd1
  | cons drone rest ih =>
    intro k ds1 sent h d1 hd1
    simp only [MainComponent.processDrones] at h
    split at h
    · exact absurd h (by simp)
    · rename_i active _
      split at h
      · exact absurd h (by simp)
      · rename_i drone1 sent1 hbody
        split at h
        · exact absurd h (by simp)
        · rename_i rest1 sentRest hrest
          simp only [Option.some.injEq, Prod.mk.injEq] at h
          rw [← h.1] at hd1
          rcases List.mem_cons.mp hd1 with rfl | hmem
          · exact ⟨drone, List.mem_cons_self _ _, active, nf k, sent1, hbody⟩
          · obtain ⟨d, hd, r⟩ := ih (k + 1) rest1 sentRest hrest d1 hmem
            exact ⟨d, List.mem_cons_of_mem _ hd, r⟩

/-- Claim C28 (held-note flag consistency). When every pitch of the current scale
list is at least 1, which every root `≥ 1` gives, every execution of `generateMidi`
that starts with `noteActive = true ↔ currentNote ≠ 0` on every drone ends with it on
every drone; the execution does return a result when the scale list is not empty, the
swarm is not empty and the frame counter is not negative; the constructor of a drone
establishes the invariant; and under the invariant the drone holds no note exactly
when `currentNote = 0`, and a held pitch is `currentNote` and is not 0. -/
theorem generateMidi_flag_invariant [FloorRing K] (m : CMath K) (mc : MainComponent K)
    (statics : RandomRhythmStatics) (rand : Nat → Int) (nf : Nat → K)
    (hscale : ∀ note ∈ mc.scaleNotes, 1 ≤ note)
    (hinv : ∀ d ∈ mc.drones, d.flagConsistent) :
    (∀ mc1 statics1 sent,
        MainComponent.generateMidi m mc statics rand nf = some (mc1, statics1, sent) →
        ∀ d ∈ mc1.drones, d.flagConsistent)
      ∧ (mc.scaleNotes ≠ [] → mc.drones ≠ [] → 0 ≤ mc.frameCount →
          ∃ mc1 statics1 sent,
            MainComponent.generateMidi m mc statics rand nf = some (mc1, statics1, sent))
      ∧ (∀ (id : Int) (posDraw : Vector3D K),
          (SwarmDrone.construct id posDraw).flagConsistent)
      ∧ (∀ (name : String) (root : Int), 1 ≤ root →
          ∀ note ∈ MusicScales.getScaleNotes name root, 1 ≤ note)
      ∧ (∀ d : SwarmDrone K, d.flagConsistent →
          (d.heldNote = none ↔ d.currentNote = 0)
            ∧ ∀ p, d.heldNote = some p → d.currentNote = p ∧ p ≠ 0) := by
  refine ⟨?_, ?_, ?_, ?_, ?_⟩
  · intro mc1 statics1 sent h
    unfold MainComponent.generateMidi at h
    split at h
    · simp only [Option.some.injEq, Prod.mk.injEq] at h
      rw [← h.1]
      exact hinv
    · split at h
      · simp only [Option.some.injEq, Prod.mk.injEq] at h
        rw [← h.1]
        exact hinv
      · split at h
        · exact absurd h (by simp)
        · simp only at h
          split at h
          · exact absurd h (by simp)
          · rename_i drones1 sent1 hloop
            simp only [Option.some.injEq, Prod.mk.injEq] at h
            rw [← h.1]
            intro d1 hd1
            obtain ⟨d, hd, a, x, ev, hbody⟩ := processDrones_mem m _ _ nf _ _ _ _ hloop d1 hd1
            exact processDrone_flag m a _ x d d1 ev hscale (hinv d hd) hbody
  · intro hne hdrones hframe
    by_cases hcheck : mc.isNoteCheck
    · obtain ⟨mask, statics1, hmask⟩ := calculateActiveNotes_isSome m mc.currentRhythm
        statics rand mc.drones.length mc.frameCount
        (by rw [Ne, List.length_eq_zero]; exact hdrones) hframe
      obtain ⟨drones1, sent, hgen, _⟩ :=
        generateMidi_spec m mc statics rand nf mask statics1 hcheck hmask hne
      exact ⟨_, _, _, hgen⟩
    · exact ⟨_, _, _, generateMidi_not_check m mc statics rand nf hcheck⟩
  · intro id posDraw
    simp [SwarmDrone.flagConsistent, SwarmDrone.construct]
  · intro name root hroot note hnote
    have := (getScaleNotes_ge name root note hnote).1
    omega
  · intro d hd
    unfold SwarmDrone.flagConsistent at hd
    unfold SwarmDrone.heldNote
    by_cases ha : d.noteActive = true
    · rw [if_pos ha]
      have hne := hd.mp ha
      refine ⟨by simp [hne], ?_⟩
      intro p hp
      simp only [Option.some.injEq] at hp
      exact ⟨hp, by rw [← hp]; exact hne⟩
    · rw [if_neg ha]
      have h0 : d.currentNote = 0 := by
        by_contra hc
        exact ha (hd.mpr hc)
      exact ⟨by simp [h0], fun p hp => absurd hp (by simp)⟩

/-- Witness for C28: a note check of one fast silent drone in C Major from root 60. -/
theorem generateMidi_flag_invariant_witness :
    (∀ mc1 statics1 sent,
        MainComponent.generateMidi (⟨Real.sqrt, Real.sin, Real.cos, 2 * Real.pi⟩ : CMath ℝ)
          (soloSwarm 0 "Major" 60 (droneAt (-14) 0.4 false 0))
          RandomRhythmStatics.initial (fun _ => 0) (fun _ => 1)
          = some (mc1, statics1, sent) →
        ∀ d ∈ mc1.drones, d.flagConsistent)
      ∧ ((soloSwarm 0 "Major" 60 (droneAt (-14) 0.4 false 0) : MainComponent ℝ).scaleNotes
            ≠ [] →
          (soloSwarm 0 "Major" 60 (droneAt (-14) 0.4 false 0) : MainComponent ℝ).drones ≠ [] →
          0 ≤ (soloSwarm 0 "Major" 60 (droneAt (-14) 0.4 false 0) : MainComponent ℝ).frameCount →
          ∃ mc1 statics1 sent,
            MainComponent.generateMidi (⟨Real.sqrt, Real.sin, Real.cos, 2 * Real.pi⟩ : CMath ℝ)
              (soloSwarm 0 "Major" 60 (droneAt (-14) 0.4 false 0))
              RandomRhythmStatics.initial (fun _ => 0) (fun _ => 1)
              = some (mc1, statics1, sent))
      ∧ (∀ (id : Int) (posDraw : Vector3D ℝ),
          (SwarmDrone.construct id posDraw).flagConsistent)
      ∧ (∀ (name : String) (root : Int), 1 ≤ root →
          ∀ note ∈ MusicScales.getScaleNotes name root, 1 ≤ note)
      ∧ (∀ d : SwarmDrone ℝ, d.flagConsistent →
          (d.heldNote = none ↔ d.currentNote = 0)
            ∧ ∀ p, d.heldNote = some p → d.currentNote = p ∧ p ≠ 0) :=
  generateMidi_flag_invariant ⟨Real.sqrt, Real.sin, Real.cos, 2 * Real.pi⟩
    (soloSwarm 0 "Major" 60 (droneAt (-14) 0.4 false 0))
    RandomRhythmStatics.initial (fun _ => 0) (fun _ => 1) (by decide)
    (by
      intro d hd
      simp only [soloSwarm, List.mem_singleton] at hd
      subst hd
      simp [SwarmDrone.flagConsistent, droneAt])

end NoteEngine

section Scales

/-! ## Scale lists (C11, C12, C13, C14) -/

/-- Every interval list of the table is strictly ascending with entries in 0..11. -/
theorem scales_ascending :
    ∀ ivs ∈ MusicScales.scales.map Prod.snd,
      ivs.Pairwise (fun a b => a < b) ∧ ∀ iv ∈ ivs, 0 ≤ iv ∧ iv < 12 := by
  decide

theorem intervalsOf_ascending (name : String) :
    (MusicScales.intervalsOf name).Pairwise (fun a b => a < b)
      ∧ ∀ iv ∈ MusicScales.intervalsOf name, 0 ≤ iv ∧ iv < 12 :=
  scales_ascending _ (intervalsOf_mem name)

/-- Claim C11 (ascending scale). For every scale name, known or not, and every integer
root, `getScaleNotes` returns a strictly ascending list; and for "Major" from 60 it
returns exactly the 21 notes 60, 62, 64, 65, 67, 69, 71, 72, ..., 91, 93, 95. -/
theorem getScaleNotes_strictly_ascending (scaleName : String) (rootNote : Int) :
    (MusicScales.getScaleNotes scaleName rootNote).Pairwise (fun a b => a < b)
    ∧ MusicScales.getScaleNotes "Major" 60
        = [60, 62, 64, 65, 67, 69, 71, 72, 74, 76, 77, 79, 81, 83, 84, 86, 88, 89, 91, 93,
           95] := by
  refine ⟨?_, by decide⟩
  obtain ⟨hasc, hrange⟩ := intervalsOf_ascending scaleName
  unfold MusicScales.getScaleNotes
  rw [List.pairwise_flatMap]
  constructor
  · intro octave _
    apply List.Pairwise.filter
    rw [List.pairwise_map]
    exact hasc.imp (fun h => by omega)
  · apply (List.pairwise_lt_range 3).imp
    intro o1 o2 ho x hx y hy
    simp only [List.mem_filter, List.mem_map] at hx hy
    obtain ⟨⟨iv1, h1, rfl⟩, _⟩ := hx
    obtain ⟨⟨iv2, h2, rfl⟩, _⟩ := hy
    have b1 := hrange iv1 h1
    have b2 := hrange iv2 h2
    omega

/-- The source filters each octave, the specification filters the whole list: the
same list. -/
theorem getScaleNotes_eq_specExpansion (scaleName : String) (rootNote : Int) :
    MusicScales.getScaleNotes scaleName rootNote
      = MusicScales.specExpansion (MusicScales.intervalsOf scaleName) rootNote := by
  unfold MusicScales.getScaleNotes MusicScales.specExpansion
  rw [List.filter_flatMap]
  have hr : List.range 3 = [0, 1, 2] := by decide
  rw [hr]
  simp only [List.flatMap_cons, List.flatMap_nil, List.append_nil]
  have hf : (fun note : Int => decide (note ≥ 0 ∧ note < 128))
      = (fun note : Int => decide (0 ≤ note ∧ note ≤ 127)) := by
    funext note
    congr 1
    apply propext
    constructor <;> intro h <;> omega
  rw [hf]
  have hm : ∀ (o : Nat) (c : Int), (o : Int) = c →
      (fun interval : Int => rootNote + (o : Int) * 12 + interval)
        = (fun interval : Int => rootNote + 12 * c + interval) := by
    intro o c h
    funext interval
    rw [h]
    ring
  rw [hm 0 0 rfl, hm 1 1 rfl, hm 2 2 rfl]

/-- Claim C12 (scale expansion). For every scale name and every integer root,
`getScaleNotes` returns exactly the values `root + 12 * octave + interval`, for the
octaves 0, 1, 2 in that order and the intervals of the looked-up scale in table order,
with the values outside 0..127 removed; every returned note is in 0..127. -/
theorem getScaleNotes_expansion (scaleName : String) (rootNote : Int) :
    MusicScales.getScaleNotes scaleName rootNote
        = MusicScales.specExpansion (MusicScales.intervalsOf scaleName) rootNote
    ∧ ∀ note ∈ MusicScales.getScaleNotes scaleName rootNote, 0 ≤ note ∧ note ≤ 127 := by
  refine ⟨getScaleNotes_eq_specExpansion scaleName rootNote, ?_⟩
  intro note hnote
  exact (getScaleNotes_ge scaleName rootNote note hnote).2

theorem lookup_eq_none {α : Type} (k : String) :
    ∀ l : List (String × α), k ∉ l.map Prod.fst → l.lookup k = none := by
  intro l
  induction l with
  | nil => intro _; rfl
  | cons e l ih =>
    intro h
    obtain ⟨k1, v1⟩ := e
    simp only [List.map_cons, List.mem_cons, not_or] at h
    simp only [List.lookup]
    have hne : (k == k1) = false := by
      simp only [beq_eq_false_iff_ne, ne_eq]
      exact h.1
    rw [hne]
    exact ih h.2

/-- Claim C13 (unknown scale fallback). For every string that is not one of the ten
scale names and every integer root, `getScaleNotes` returns what it returns for
"Chromatic". -/
theorem getScaleNotes_unknown (scaleName : String) (rootNote : Int)
    (h : scaleName ∉ MusicScales.getScaleTypes) :
    MusicScales.getScaleNotes scaleName rootNote
      = MusicScales.getScaleNotes "Chromatic" rootNote := by
  have hkeys : MusicScales.scales.map Prod.fst = MusicScales.getScaleTypes := by decide
  have hnone : MusicScales.scales.lookup scaleName = none :=
    lookup_eq_none scaleName _ (by rw [hkeys]; exact h)
  have hiv : MusicScales.intervalsOf scaleName = MusicScales.intervalsOf "Chromatic" := by
    unfold MusicScales.intervalsOf
    rw [hnone]
    rfl
  unfold MusicScales.getScaleNotes
  rw [hiv]

/-- Witness for C13: the name "Unknown" with root 60. -/
theorem getScaleNotes_unknown_witness :
    "Unknown" ∉ MusicScales.getScaleTypes
    ∧ MusicScales.getScaleNotes "Unknown" 60 = MusicScales.getScaleNotes "Chromatic" 60 :=
  ⟨by decide, getScaleNotes_unknown "Unknown" 60 (by decide)⟩

/-- Claim C14 (non-empty scale). For every scale name, known or not, and every root in
0..127, `getScaleNotes` returns a non-empty list whose first element is the root. -/
theorem getScaleNotes_nonempty (scaleName : String) (rootNote : Int)
    (h0 : 0 ≤ rootNote) (h1 : rootNote ≤ 127) :
    MusicScales.getScaleNotes scaleName rootNote ≠ []
    ∧ (MusicScales.getScaleNotes scaleName rootNote).head? = some rootNote := by
  obtain ⟨tl, h⟩ := getScaleNotes_head scaleName rootNote h0 h1
  rw [h]
  exact ⟨List.cons_ne_nil _ _, rfl⟩

/-- Witness for C14: the highest root, 127, with an unknown name: the list is `[127]`. -/
theorem getScaleNotes_nonempty_witness :
    MusicScales.getScaleNotes "Unknown" 127 ≠ []
    ∧ (MusicScales.getScaleNotes "Unknown" 127).head? = some 127
    ∧ MusicScales.getScaleNotes "Unknown" 127 = [127] :=
  ⟨(getScaleNotes_nonempty "Unknown" 127 (by decide) (by decide)).1,
    (getScaleNotes_nonempty "Unknown" 127 (by decide) (by decide)).2, by decide⟩

end Scales

section Factories

/-! ## Name-keyed factories (C16) -/

/-- Claim C16 (name-keyed factories with fallback). For every string `name`,
`Formation::create` yields the variant whose `getName()` is `name` when `name` is one
of the seven entries of `getFormationTypes()` and the Circle variant otherwise;
`RhythmPattern::create` yields the variant whose `getName()` is `name` when `name` is
one of the six entries of `getRhythmTypes()` and the Continuous variant otherwise. -/
theorem create_by_name (name : String) :
    (if name ∈ Formation.getFormationTypes then (Formation.create name).getName = name
      else Formation.create name = Formation.Circle)
    ∧ (if name ∈ RhythmPattern.getRhythmTypes then (RhythmPattern.create name).getName = name
      else RhythmPattern.create name = RhythmPattern.Continuous)
    ∧ Formation.getFormationTypes.length = 7 ∧ RhythmPattern.getRhythmTypes.length = 6 := by
  refine ⟨?_, ?_, rfl, rfl⟩
  · split
    · next h =>
      simp only [Formation.getFormationTypes, List.mem_cons, List.mem_singleton,
        List.not_mem_nil, or_false] at h
      rcases h with h | h | h | h | h | h | h <;> subst h <;> decide
    · next h =>
      simp only [Formation.getFormationTypes, List.mem_cons, List.mem_singleton,
        List.not_mem_nil, or_false, not_or] at h
      obtain ⟨h1, h2, h3, h4, h5, h6, h7⟩ := h
      unfold Formation.create
      rw [if_neg h1, if_neg h2, if_neg h3, if_neg h4, if_neg h5, if_neg h6, if_neg h7]
  · split
    · next h =>
      simp only [RhythmPattern.getRhythmTypes, List.mem_cons, List.mem_singleton,
        List.not_mem_nil, or_false] at h
      rcases h with h | h | h | h | h | h <;> subst h <;> decide
    · next h =>
      simp only [RhythmPattern.getRhythmTypes, List.mem_cons, List.mem_singleton,
        List.not_mem_nil, or_false, not_or] at h
      obtain ⟨h1, h2, h3, h4, h5, h6⟩ := h
      unfold RhythmPattern.create
      rw [if_neg h1, if_neg h2, if_neg h3, if_neg h4, if_neg h5, if_neg h6]

end Factories

section Rhythms

/-! ## Rhythm masks (C17, C18, C19, C20, C21, C22, C30) -/

/-- Claim C17 (mask length). For each of the six rhythm variants, every `n ≥ 1` and
every tick `≥ 0`, whatever the statics of `RandomRhythm` hold, `calculateActiveNotes`
returns a mask of exactly `n` entries, so that the read `activePattern[i]` of
`generateMidi` is in bounds for every `i < drones.size()`; for Continuous all `n`
entries are true. -/
theorem calculateActiveNotes_mask_length (m : CMath K) (r : RhythmPattern)
    (statics : RandomRhythmStatics) (rand : Nat → Int) (n : Nat) (tick : Int)
    (mc : MainComponent K) (hn : 1 ≤ n) (ht : 0 ≤ tick)
    (hr : mc.currentRhythm = r) (hdrones : mc.drones.length = n)
    (hframe : mc.frameCount = tick) :
    ∃ mask statics1,
      r.calculateActiveNotes m statics rand n tick = some (mask, statics1)
        ∧ mask.length = n
        ∧ (∀ i, i < n → ∃ b, mask[i]? = some b ∧ mc.activeAt m statics rand i = some b)
        ∧ (r = RhythmPattern.Continuous → mask = List.replicate n true) := by
  obtain ⟨mask, statics1, hcalc⟩ :=
    calculateActiveNotes_isSome m r statics rand n tick (by omega) ht
  have hlen := calculateActiveNotes_length m r statics rand n tick mask statics1 hcalc
  refine ⟨mask, statics1, hcalc, hlen, ?_, ?_⟩
  · intro i hi
    have hlt : i < mask.length := by omega
    refine ⟨mask[i], List.getElem?_eq_getElem hlt, ?_⟩
    unfold MainComponent.activeAt
    rw [hr, hdrones, hframe, hcalc]
    exact List.getElem?_eq_getElem hlt
  · intro hc
    subst hc
    simp only [RhythmPattern.calculateActiveNotes, Option.some.injEq, Prod.mk.injEq] at hcalc
    exact hcalc.1.symm

/-- Witness for C17: the Random rhythm with statics left by a swarm of another size,
on the component as constructed with the rhythm switched to Random, at frame 0. -/
theorem calculateActiveNotes_mask_length_witness :
    ∃ mask statics1,
      RhythmPattern.Random.calculateActiveNotes
          (⟨Real.sqrt, Real.sin, Real.cos, 2 * Real.pi⟩ : CMath ℝ)
          ⟨40, [true, false, true]⟩ (fun i => 17 * i) 8 0 = some (mask, statics1)
        ∧ mask.length = 8
        ∧ (∀ i, i < 8 → ∃ b, mask[i]? = some b
            ∧ ({ MainComponent.construct true (fun _ => (⟨0, 0, 0⟩ : Vector3D ℝ)) with
                  currentRhythm := RhythmPattern.Random }).activeAt
                ⟨Real.sqrt, Real.sin, Real.cos, 2 * Real.pi⟩ ⟨40, [true, false, true]⟩
                (fun i => 17 * i) i = some b)
        ∧ (RhythmPattern.Random = RhythmPattern.Continuous → mask = List.replicate 8 true) :=
  calculateActiveNotes_mask_length ⟨Real.sqrt, Real.sin, Real.cos, 2 * Real.pi⟩
    RhythmPattern.Random ⟨40, [true, false, true]⟩ (fun i => 17 * i) 8 0
    { MainComponent.construct true (fun _ => (⟨0, 0, 0⟩ : Vector3D ℝ)) with
      currentRhythm := RhythmPattern.Random }
    (by decide) (by decide) rfl (by decide) rfl

/-- Claim C18 (sequential rhythm). For every `n ≥ 1` and every tick `≥ 0` the mask of
`SequentialRhythm` has `n` entries, exactly one of them true, at the index
`(tick div 10) mod n`; all the others are false. -/
theorem sequential_one_active (m : CMath K) (statics : RandomRhythmStatics)
    (rand : Nat → Int) (n : Nat) (tick : Int) (hn : 1 ≤ n) (ht : 0 ≤ tick) :
    ∃ mask k,
      RhythmPattern.Sequential.calculateActiveNotes m statics rand n tick
          = some (mask, statics)
        ∧ mask.length = n
        ∧ k < n ∧ (k : Int) = (tick / 10) % (n : Int)
        ∧ mask[k]? = some true
        ∧ ∀ i, i < n → i ≠ k → mask[i]? = some false := by
  have hn0 : n ≠ 0 := by omega
  have hnz : (n : Int) ≠ 0 := by omega
  have hdiv : tick.tdiv 10 = tick / 10 := Int.tdiv_eq_ediv ht (by decide)
  have hq : 0 ≤ tick / 10 := by omega
  have hmod : (tick / 10).tmod (n : Int) = (tick / 10) % (n : Int) :=
    Int.tmod_eq_emod hq (by omega)
  have h0 : 0 ≤ (tick / 10) % (n : Int) := Int.emod_nonneg _ hnz
  have h1 : (tick / 10) % (n : Int) < (n : Int) := Int.emod_lt_of_pos _ (by omega)
  refine ⟨(List.replicate n false).set ((tick / 10) % (n : Int)).toNat true,
    ((tick / 10) % (n : Int)).toNat, ?_, ?_, ?_, ?_, ?_, ?_⟩
  · simp only [RhythmPattern.calculateActiveNotes]
    rw [if_neg hn0, hdiv, hmod, if_neg (not_lt.mpr h0)]
  · simp
  · omega
  · omega
  · rw [List.getElem?_set, if_pos rfl, if_pos (by rw [List.length_replicate]; omega)]
  · intro i hi hne
    rw [List.getElem?_set_ne (fun h => hne h.symm), List.getElem?_replicate_of_lt hi]

/-- Witness for C18: four drones at tick 57: only drone 1 is active. -/
theorem sequential_one_active_witness :
    ∃ (mask : List Bool) (k : Nat),
      RhythmPattern.Sequential.calculateActiveNotes
          (⟨Real.sqrt, Real.sin, Real.cos, 2 * Real.pi⟩ : CMath ℝ)
          RandomRhythmStatics.initial (fun _ => 0) 4 57
          = some (mask, RandomRhythmStatics.initial)
        ∧ mask.length = 4
        ∧ k < 4 ∧ (k : Int) = (57 / 10) % ((4 : Nat) : Int)
        ∧ mask[k]? = some true
        ∧ ∀ i, i < 4 → i ≠ k → mask[i]? = some false :=
  sequential_one_active ⟨Real.sqrt, Real.sin, Real.cos, 2 * Real.pi⟩
    RandomRhythmStatics.initial (fun _ => 0) 4 57 (by decide) (by decide)

/-- The mask of `AlternatingRhythm`, entry by entry. -/
theorem alternating_entry (m : CMath K) (statics : RandomRhythmStatics)
    (rand : Nat → Int) (n : Nat) (tick : Int) (ht : 0 ≤ tick) :
    ∃ mask,
      RhythmPattern.Alternating.calculateActiveNotes m statics rand n tick
          = some (mask, statics)
        ∧ mask.length = n
        ∧ ∀ i, i < n → mask[i]? = some (decide ((i : Int) % 2 = (tick / 30) % 2)) := by
  have hdiv : tick.tdiv 30 = tick / 30 := Int.tdiv_eq_ediv ht (by decide)
  have hq : 0 ≤ tick / 30 := by omega
  have hmod : (tick / 30).tmod 2 = (tick / 30) % 2 := Int.tmod_eq_emod hq (by decide)
  refine ⟨_, rfl, by simp, ?_⟩
  intro i hi
  rw [List.getElem?_map, List.getElem?_range hi, hdiv, hmod]
  simp only [Option.map_some', Option.some.injEq]
  by_cases hi2 : i % 2 = 0
  · rw [if_pos hi2]
    have : (i : Int) % 2 = 0 := by omega
    rw [this]
    by_cases hc : (tick / 30) % 2 = 0
    · simp [hc]
    · have hne : ¬ (0 : Int) = (tick / 30) % 2 := fun h => hc h.symm
      simp [hc, hne]
  · rw [if_neg hi2]
    have : (i : Int) % 2 = 1 := by omega
    rw [this]
    by_cases hc : (tick / 30) % 2 = 0
    · simp [hc]
    · have hone : (tick / 30) % 2 = 1 := by omega
      simp [hone]

/-- Claim C19 (alternating rhythm). For every `n`, every tick `≥ 0` and every `i < n`,
entry `i` of the mask of `AlternatingRhythm` is true exactly when the parity of `i` is
the parity of `tick div 30`; hence the entries `i` and `i + 1` differ, and the mask at
`tick + 30` is the entrywise negation of the mask at `tick`. -/
theorem alternating_parity (m : CMath K) (statics : RandomRhythmStatics)
    (rand : Nat → Int) (n : Nat) (tick : Int) (i : Nat) (ht : 0 ≤ tick) (hi : i < n) :
    ∃ mask mask30,
      RhythmPattern.Alternating.calculateActiveNotes m statics rand n tick
          = some (mask, statics)
        ∧ RhythmPattern.Alternating.calculateActiveNotes m statics rand n (tick + 30)
          = some (mask30, statics)
        ∧ mask[i]? = some (decide ((i : Int) % 2 = (tick / 30) % 2))
        ∧ (i + 1 < n → mask[i]? ≠ mask[i + 1]?)
        ∧ mask30 = mask.map (fun b => !b) := by
  obtain ⟨mask, hcalc, hlen, hentry⟩ := alternating_entry m statics rand n tick ht
  obtain ⟨mask30, hcalc30, hlen30, hentry30⟩ :=
    alternating_entry m statics rand n (tick + 30) (by omega)
  refine ⟨mask, mask30, hcalc, hcalc30, hentry i hi, ?_, ?_⟩
  · intro hi1
    rw [hentry i hi, hentry (i + 1) hi1]
    intro h
    have h2 := Option.some.inj h
    rw [decide_eq_decide] at h2
    have hcast : ((i + 1 : Nat) : Int) = (i : Int) + 1 := by omega
    rw [hcast] at h2
    omega
  · apply List.ext_getElem?
    intro j
    by_cases hj : j < n
    · rw [hentry30 j hj, List.getElem?_map, hentry j hj]
      simp only [Option.map_some', Option.some.injEq]
      have hq : (tick + 30) / 30 = tick / 30 + 1 := by omega
      rw [hq]
      by_cases hc : (j : Int) % 2 = (tick / 30) % 2
      · have hn : ¬ (j : Int) % 2 = (tick / 30 + 1) % 2 := by omega
        simp [hc, hn]
        omega
      · have hn : (j : Int) % 2 = (tick / 30 + 1) % 2 := by omega
        simp [hc, hn]
        omega
    · rw [List.getElem?_eq_none (by omega), List.getElem?_eq_none (by simp; omega)]

/-- Witness for C19: five drones at tick 45, drone 2. -/
theorem alternating_parity_witness :
    ∃ mask mask30,
      RhythmPattern.Alternating.calculateActiveNotes
          (⟨Real.sqrt, Real.sin, Real.cos, 2 * Real.pi⟩ : CMath ℝ)
          RandomRhythmStatics.initial (fun _ => 0) 5 45
          = some (mask, RandomRhythmStatics.initial)
        ∧ RhythmPattern.Alternating.calculateActiveNotes
          (⟨Real.sqrt, Real.sin, Real.cos, 2 * Real.pi⟩ : CMath ℝ)
          RandomRhythmStatics.initial (fun _ => 0) 5 (45 + 30)
          = some (mask30, RandomRhythmStatics.initial)
        ∧ mask[2]? = some (decide (((2 : Nat) : Int) % 2 = (45 / 30) % 2))
        ∧ (2 + 1 < 5 → mask[2]? ≠ mask[2 + 1]?)
        ∧ mask30 = mask.map (fun b => !b) :=
  alternating_parity ⟨Real.sqrt, Real.sin, Real.cos, 2 * Real.pi⟩
    RandomRhythmStatics.initial (fun _ => 0) 5 45 2 (by decide) (by decide)

/-- Claim C20 (polyrhythm). For every `n`, every tick `≥ 0` and every `i < n`, entry
`i` of the mask of `PolyrhythmRhythm` is true exactly when the tick is divisible by 8
if `i mod 3 = 0`, by 12 if `i mod 3 = 1`, and by 16 if `i mod 3 = 2`. -/
theorem polyrhythm_entry (m : CMath K) (statics : RandomRhythmStatics)
    (rand : Nat → Int) (n : Nat) (tick : Int) (i : Nat) (ht : 0 ≤ tick) (hi : i < n) :
    ∃ mask,
      RhythmPattern.Polyrhythm.calculateActiveNotes m statics rand n tick
          = some (mask, statics)
        ∧ mask.length = n
        ∧ mask[i]? = some (decide
            ((if i % 3 = 0 then (8 : Int) else if i % 3 = 1 then 12 else 16) ∣ tick)) := by
  refine ⟨_, rfl, by simp, ?_⟩
  rw [List.getElem?_map, List.getElem?_range hi]
  simp only [Option.map_some', Option.some.injEq]
  have h8 : tick.tmod 8 = tick % 8 := Int.tmod_eq_emod ht (by decide)
  have h12 : tick.tmod 12 = tick % 12 := Int.tmod_eq_emod ht (by decide)
  have h16 : tick.tmod 16 = tick % 16 := Int.tmod_eq_emod ht (by decide)
  rw [h8, h12, h16]
  have hcases : i % 3 = 0 ∨ i % 3 = 1 ∨ i % 3 = 2 := by omega
  rcases hcases with h | h | h
  · rw [h]
    simp only [if_true, decide_eq_decide]
    omega
  · rw [h]
    simp only [decide_eq_decide]
    norm_num
  · rw [h]
    simp only [decide_eq_decide]
    norm_num

/-- Witness for C20: seven drones at tick 48: drone 4 (group 1) is active. -/
theorem polyrhythm_entry_witness :
    ∃ mask,
      RhythmPattern.Polyrhythm.calculateActiveNotes
          (⟨Real.sqrt, Real.sin, Real.cos, 2 * Real.pi⟩ : CMath ℝ)
          RandomRhythmStatics.initial (fun _ => 0) 7 48
          = some (mask, RandomRhythmStatics.initial)
        ∧ mask.length = 7
        ∧ mask[4]? = some (decide
            ((if 4 % 3 = 0 then (8 : Int) else if 4 % 3 = 1 then 12 else 16) ∣ 48)) :=
  polyrhythm_entry ⟨Real.sqrt, Real.sin, Real.cos, 2 * Real.pi⟩
    RandomRhythmStatics.initial (fun _ => 0) 7 48 4 (by decide) (by decide)

/-- Claim C21 (random rhythm stability). With the statics of `RandomRhythm` passed
explicitly and the random source arbitrary in both calls: from every state of the
statics, for every agent count and every two ticks `t1, t2 ≥ 0` of the same 20-tick
window, the call at `t1` and the call at `t2` that follows it both return, and they
return the same mask, of length `numDrones`. -/
theorem random_window_stable (m : CMath K) (statics : RandomRhythmStatics)
    (rand1 rand2 : Nat → Int) (numDrones : Nat) (t1 t2 : Int)
    (h1 : 0 ≤ t1) (h2 : 0 ≤ t2) (hw : t1 / 20 = t2 / 20) :
    ∃ mask statics1 statics2,
      RhythmPattern.Random.calculateActiveNotes m statics rand1 numDrones t1
          = some (mask, statics1)
        ∧ RhythmPattern.Random.calculateActiveNotes m statics1 rand2 numDrones t2
          = some (mask, statics2)
        ∧ mask.length = numDrones := by
  have hw2 : t2.tdiv 20 = t1.tdiv 20 := by
    rw [Int.tdiv_eq_ediv h1 (by norm_num), Int.tdiv_eq_ediv h2 (by norm_num)]
    exact hw.symm
  by_cases hc : t1.tdiv 20 ≠ statics.lastUpdateFrame.tdiv 20
      ∨ statics.pattern.length ≠ numDrones
  · refine ⟨(List.range numDrones).map (fun (i : Nat) => decide ((rand1 i).tmod 100 < 30)),
      ⟨t1, (List.range numDrones).map (fun (i : Nat) => decide ((rand1 i).tmod 100 < 30))⟩,
      ⟨t1, (List.range numDrones).map (fun (i : Nat) => decide ((rand1 i).tmod 100 < 30))⟩,
      ?_, ?_, ?_⟩
    · simp only [RhythmPattern.calculateActiveNotes]
      rw [if_pos hc]
    · simp only [RhythmPattern.calculateActiveNotes]
      rw [if_neg]
      simp [hw2]
    · simp
  · have hc2 : ¬ (t2.tdiv 20 ≠ statics.lastUpdateFrame.tdiv 20
        ∨ statics.pattern.length ≠ numDrones) := by
      rw [hw2]
      exact hc
    refine ⟨statics.pattern, statics, statics, ?_, ?_, ?_⟩
    · simp only [RhythmPattern.calculateActiveNotes]
      rw [if_neg hc]
    · simp only [RhythmPattern.calculateActiveNotes]
      rw [if_neg hc2]
    · push_neg at hc
      exact hc.2

/-- Witness for C21: eight drones, ticks 21 and 39 of the window 20..39, from the
initial statics. -/
theorem random_window_stable_witness :
    ∃ mask statics1 statics2,
      RhythmPattern.Random.calculateActiveNotes (⟨Real.sqrt, Real.sin, Real.cos, 2 * Real.pi⟩ : CMath ℝ)
          RandomRhythmStatics.initial (fun _ => 7) 8 21 = some (mask, statics1)
        ∧ RhythmPattern.Random.calculateActiveNotes (⟨Real.sqrt, Real.sin, Real.cos, 2 * Real.pi⟩ : CMath ℝ)
          statics1 (fun _ => 50) 8 39 = some (mask, statics2)
        ∧ mask.length = 8 :=
  random_window_stable _ RandomRhythmStatics.initial (fun _ => 7) (fun _ => 50) 8 21 39
    (by decide) (by decide) (by decide)

/-- The entry `i` of the Polyrhythm mask that a call of `generateMidi` reads. -/
theorem activeAt_polyrhythm (m : CMath K) (mc : MainComponent K)
    (statics : RandomRhythmStatics) (rand : Nat → Int) (i : Nat)
    (hr : mc.currentRhythm = RhythmPattern.Polyrhythm) (hi : i < mc.drones.length) :
    mc.activeAt m statics rand i = some (match i % 3 with
      | 0 => decide (mc.frameCount.tmod 8 = 0)
      | 1 => decide (mc.frameCount.tmod 12 = 0)
      | _ => decide (mc.frameCount.tmod 16 = 0)) := by
  unfold MainComponent.activeAt
  rw [hr]
  simp only [RhythmPattern.calculateActiveNotes]
  rw [List.getElem?_map, List.getElem?_range hi]
  rfl

/-- With no drone, every rhythm other than Sequential returns the empty mask. -/
theorem calculateActiveNotes_zero (m : CMath K) (r : RhythmPattern)
    (statics : RandomRhythmStatics) (rand : Nat → Int) (frameCount : Int)
    (hr : r ≠ RhythmPattern.Sequential) :
    ∃ statics1, r.calculateActiveNotes m statics rand 0 frameCount = some ([], statics1) := by
  cases r
  · exact ⟨statics, rfl⟩
  · exact ⟨statics, rfl⟩
  · exact absurd rfl hr
  · exact ⟨statics, rfl⟩
  · by_cases hc : frameCount.tdiv 20 ≠ statics.lastUpdateFrame.tdiv 20
        ∨ statics.pattern.length ≠ 0
    · refine ⟨⟨frameCount, []⟩, ?_⟩
      simp only [RhythmPattern.calculateActiveNotes]
      rw [if_pos hc]
      rfl
    · refine ⟨statics, ?_⟩
      simp only [RhythmPattern.calculateActiveNotes]
      rw [if_neg hc]
      push_neg at hc
      rw [List.length_eq_zero.mp hc.2]
  · exact ⟨statics, rfl⟩

/-- Counterexample for C22: with no drone, at tick 0, `SequentialRhythm` evaluates
`% numDrones` with `numDrones = 0`, which is undefined: it returns no mask, and the
note check of the empty swarm under the Sequential rhythm returns no event list. -/
theorem sequential_zero_drones_undefined :
    RhythmPattern.Sequential.calculateActiveNotes
        (⟨Real.sqrt, Real.sin, Real.cos, 2 * Real.pi⟩ : CMath ℝ)
        RandomRhythmStatics.initial (fun _ => 0) 0 0 = none
      ∧ (emptySwarm RhythmPattern.Sequential 0 : MainComponent ℝ).isNoteCheck
      ∧ MainComponent.generateMidi (⟨Real.sqrt, Real.sin, Real.cos, 2 * Real.pi⟩ : CMath ℝ)
          (emptySwarm RhythmPattern.Sequential 0) RandomRhythmStatics.initial
          (fun _ => 0) (fun _ => 1) = none := by
  refine ⟨rfl, ⟨rfl, rfl⟩, ?_⟩
  unfold MainComponent.generateMidi
  simp [emptySwarm, MainComponent.NOTE_CHECK_INTERVAL, RhythmPattern.calculateActiveNotes]

/-- Claim C22, amended (zero agents, rhythms). For agent count 0, at every tick and
from every state of the statics, each of the five rhythms Continuous, Alternating,
Wave, Random and Polyrhythm returns the empty mask (no `int` is divided by zero and no
entry is written); and every call of `generateMidi` on an empty swarm under one of
these five rhythms, note check or not, returns with the component unchanged and an
empty list of messages. -/
theorem zero_drones_empty_mask [FloorRing K] (m : CMath K) (mc : MainComponent K)
    (statics : RandomRhythmStatics) (rand : Nat → Int) (nextFloat : Nat → K)
    (frameCount : Int)
    (hdrones : mc.drones = []) (hr : mc.currentRhythm ≠ RhythmPattern.Sequential) :
    (∃ statics1, mc.currentRhythm.calculateActiveNotes m statics rand 0 frameCount
        = some ([], statics1))
      ∧ ∃ statics1, MainComponent.generateMidi m mc statics rand nextFloat
          = some (mc, statics1, []) := by
  refine ⟨calculateActiveNotes_zero m _ statics rand frameCount hr, ?_⟩
  by_cases hcheck : mc.isNoteCheck
  · obtain ⟨statics1, hmask⟩ := calculateActiveNotes_zero m _ statics rand mc.frameCount hr
    refine ⟨statics1, ?_⟩
    obtain ⟨hout, hmod⟩ := hcheck
    obtain ⟨midiOutput, drones, rhythm, fc, paused, chaos, fs, scale, root⟩ := mc
    simp only at hdrones hout hmod hmask
    subst hdrones
    subst hout
    unfold MainComponent.generateMidi
    simp only [List.length_nil, hmask, hmod, MainComponent.processDrones]
    simp
  · exact ⟨statics, generateMidi_not_check m mc statics rand nextFloat hcheck⟩

/-- Witness for C22: the empty swarm under the Random rhythm at frame 21. -/
theorem zero_drones_empty_mask_witness :
    (∃ statics1, (emptySwarm RhythmPattern.Random 21 : MainComponent ℝ).currentRhythm.calculateActiveNotes
        (⟨Real.sqrt, Real.sin, Real.cos, 2 * Real.pi⟩ : CMath ℝ)
        RandomRhythmStatics.initial (fun _ => 0) 0 21 = some ([], statics1))
      ∧ ∃ statics1, MainComponent.generateMidi
          (⟨Real.sqrt, Real.sin, Real.cos, 2 * Real.pi⟩ : CMath ℝ)
          (emptySwarm RhythmPattern.Random 21) RandomRhythmStatics.initial
          (fun _ => 0) (fun _ => 1)
          = some (emptySwarm RhythmPattern.Random 21, statics1, []) :=
  zero_drones_empty_mask ⟨Real.sqrt, Real.sin, Real.cos, 2 * Real.pi⟩
    (emptySwarm RhythmPattern.Random 21) RandomRhythmStatics.initial (fun _ => 0)
    (fun _ => 1) 21 rfl (by decide)

/-- Claim C30 (effective polyrhythm periods). Under `PolyrhythmRhythm`, with a MIDI
output and `frameCount ≥ 0`, the call of `generateMidi` is a note check that reads a
true mask entry for drone `i` exactly when `frameCount` is a multiple of 24 if
`i mod 3 = 0`, of 12 if `i mod 3 = 1`, and of 48 if `i mod 3 = 2`. -/
theorem polyrhythm_effective_periods (m : CMath K) (mc : MainComponent K)
    (statics : RandomRhythmStatics) (rand : Nat → Int) (i : Nat)
    (hr : mc.currentRhythm = RhythmPattern.Polyrhythm) (hout : mc.midiOutput = true)
    (hi : i < mc.drones.length) (hf : 0 ≤ mc.frameCount) :
    ((mc.isNoteCheck ∧ mc.activeAt m statics rand i = some true)
      ↔ mc.frameCount % (if i % 3 = 0 then 24 else if i % 3 = 1 then 12 else 48) = 0) := by
  rw [activeAt_polyrhythm m mc statics rand i hr hi]
  unfold MainComponent.isNoteCheck MainComponent.NOTE_CHECK_INTERVAL
  have h3 : mc.frameCount.tmod 3 = mc.frameCount % 3 := Int.tmod_eq_emod hf (by decide)
  have h8 : mc.frameCount.tmod 8 = mc.frameCount % 8 := Int.tmod_eq_emod hf (by decide)
  have h12 : mc.frameCount.tmod 12 = mc.frameCount % 12 := Int.tmod_eq_emod hf (by decide)
  have h16 : mc.frameCount.tmod 16 = mc.frameCount % 16 := Int.tmod_eq_emod hf (by decide)
  rw [h3, h8, h12, h16]
  have hcases : i % 3 = 0 ∨ i % 3 = 1 ∨ i % 3 = 2 := by omega
  rcases hcases with h | h | h
  · rw [h]
    simp only [hout, true_and, Option.some.injEq, decide_eq_true_eq, if_true]
    omega
  · rw [h]
    simp only [hout, true_and, Option.some.injEq, decide_eq_true_eq]
    norm_num
    omega
  · rw [h]
    simp only [hout, true_and, Option.some.injEq, decide_eq_true_eq]
    norm_num
    omega

/-- Witness for C30: four drones at frame 24; drone 3 is in group 0. -/
theorem polyrhythm_effective_periods_witness :
    (((examplePoly 24 : MainComponent ℝ).isNoteCheck
        ∧ (examplePoly 24 : MainComponent ℝ).activeAt
            ⟨Real.sqrt, Real.sin, Real.cos, 2 * Real.pi⟩ RandomRhythmStatics.initial
            (fun _ => 0) 3 = some true)
      ↔ (examplePoly 24 : MainComponent ℝ).frameCount
          % (if 3 % 3 = 0 then 24 else if 3 % 3 = 1 then 12 else 48) = 0) :=
  polyrhythm_effective_periods ⟨Real.sqrt, Real.sin, Real.cos, 2 * Real.pi⟩
    (examplePoly 24) RandomRhythmStatics.initial (fun _ => 0) 3 rfl rfl (by decide)
    (by decide)

end Rhythms

section NoteMapping

/-! ## The note mapping of generateMidi (C24, C29) -/

/-- The conversion `static_cast<int>` of a whole value is that value. -/
theorem truncToInt_intCast [FloorRing K] (n : Int) : truncToInt ((n : Int) : K) = n := by
  unfold truncToInt
  split
  · exact Int.floor_intCast n
  · exact Int.ceil_intCast n

end NoteMapping

section Formations

/-! ## Circle formation (C15) -/

/-- The loop of `CircleFormation::calculateTargets` from index `k` on: the `j`-th drone
of the list keeps everything but its target, which is the point of the circle for
index `k + j`. -/
theorem calculateTargetsFrom_getElem? (m : CMath K) (n : Nat) :
    ∀ (ds : List (SwarmDrone K)) (k j : Nat) (d : SwarmDrone K), ds[j]? = some d →
      (CircleFormation.calculateTargetsFrom m n k ds)[j]?
        = some { d with targetPosition :=
            ⟨m.cos ((((k + j : Nat) : K) / (n : K)) * m.twoPi) * 10,
             if (k + j) % 2 = 0 then 2 else -2,
             m.sin ((((k + j : Nat) : K) / (n : K)) * m.twoPi) * 10⟩ } := by
  intro ds
  induction ds with
  | nil => intro k j d h; simp at h
  | cons e rest ih =>
    intro k j d h
    cases j with
    | zero =>
      simp only [List.getElem?_cons_zero, Option.some.injEq] at h
      subst h
      simp only [CircleFormation.calculateTargetsFrom, List.getElem?_cons_zero, Nat.add_zero]
    | succ j =>
      simp only [List.getElem?_cons_succ] at h
      simp only [CircleFormation.calculateTargetsFrom, List.getElem?_cons_succ]
      rw [ih (k + 1) j d h]
      have hidx : k + 1 + j = k + (j + 1) := by omega
      rw [hidx]

theorem calculateTargetsFrom_length (m : CMath K) (n : Nat) :
    ∀ (ds : List (SwarmDrone K)) (k : Nat),
      (CircleFormation.calculateTargetsFrom m n k ds).length = ds.length := by
  intro ds
  induction ds with
  | nil => intro k; rfl
  | cons e rest ih =>
    intro k
    simp only [CircleFormation.calculateTargetsFrom, List.length_cons, ih]

/-- Claim C15 (circle targets). Over real arithmetic, for a swarm of `n ≥ 1` drones,
every time factor and every `i < n`, `CircleFormation::calculateTargets` leaves drone
`i` unchanged but for its target, which becomes `(10 cos (2 pi i / n), +2 for even i and
-2 for odd i, 10 sin (2 pi i / n))`: the time factor and the state of the drones do not
enter. The number of drones is kept. -/
theorem circle_targets (drones : List (SwarmDrone ℝ)) (timeFactor : ℝ) (i : Nat)
    (d : SwarmDrone ℝ) (hd : drones[i]? = some d) :
    (CircleFormation.calculateTargets ⟨Real.sqrt, Real.sin, Real.cos, 2 * Real.pi⟩ drones
        timeFactor)[i]?
      = some { d with targetPosition :=
          ⟨10 * Real.cos (2 * Real.pi * (i : ℝ) / (drones.length : ℝ)),
           if i % 2 = 0 then 2 else -2,
           10 * Real.sin (2 * Real.pi * (i : ℝ) / (drones.length : ℝ))⟩ }
    ∧ (CircleFormation.calculateTargets ⟨Real.sqrt, Real.sin, Real.cos, 2 * Real.pi⟩ drones
        timeFactor).length = drones.length := by
  refine ⟨?_, calculateTargetsFrom_length _ _ _ _⟩
  unfold CircleFormation.calculateTargets
  rw [calculateTargetsFrom_getElem? _ _ drones 0 i d hd]
  simp only [Nat.zero_add]
  have hangle : ((i : ℝ) / (drones.length : ℝ)) * (2 * Real.pi)
      = 2 * Real.pi * (i : ℝ) / (drones.length : ℝ) := by ring
  rw [hangle, mul_comm (Real.cos _) 10, mul_comm (Real.sin _) 10]

/-- The points of the circle for four drones: the cosine and sine at the four angles. -/
theorem circle_four_angles :
    Real.cos (2 * Real.pi * ((0 : Nat) : ℝ) / ((4 : Nat) : ℝ)) = 1
    ∧ Real.sin (2 * Real.pi * ((0 : Nat) : ℝ) / ((4 : Nat) : ℝ)) = 0
    ∧ Real.cos (2 * Real.pi * ((1 : Nat) : ℝ) / ((4 : Nat) : ℝ)) = 0
    ∧ Real.sin (2 * Real.pi * ((1 : Nat) : ℝ) / ((4 : Nat) : ℝ)) = 1
    ∧ Real.cos (2 * Real.pi * ((2 : Nat) : ℝ) / ((4 : Nat) : ℝ)) = -1
    ∧ Real.sin (2 * Real.pi * ((2 : Nat) : ℝ) / ((4 : Nat) : ℝ)) = 0
    ∧ Real.cos (2 * Real.pi * ((3 : Nat) : ℝ) / ((4 : Nat) : ℝ)) = 0
    ∧ Real.sin (2 * Real.pi * ((3 : Nat) : ℝ) / ((4 : Nat) : ℝ)) = -1 := by
  have a0 : 2 * Real.pi * ((0 : Nat) : ℝ) / ((4 : Nat) : ℝ) = 0 := by norm_num
  have a1 : 2 * Real.pi * ((1 : Nat) : ℝ) / ((4 : Nat) : ℝ) = Real.pi / 2 := by
    push_cast; ring
  have a2 : 2 * Real.pi * ((2 : Nat) : ℝ) / ((4 : Nat) : ℝ) = Real.pi := by
    push_cast; ring
  have a3 : 2 * Real.pi * ((3 : Nat) : ℝ) / ((4 : Nat) : ℝ) = Real.pi / 2 + Real.pi := by
    push_cast; ring
  rw [a0, a1, a2, a3, Real.cos_zero, Real.sin_zero, Real.cos_pi_div_two,
    Real.sin_pi_div_two, Real.cos_pi, Real.sin_pi, Real.cos_add_pi, Real.sin_add_pi,
    Real.cos_pi_div_two, Real.sin_pi_div_two]
  norm_num

/-- Witness for C15: four drones get the targets (10, 2, 0), (0, -2, 10), (-10, 2, 0)
and (0, -2, -10). -/
theorem circle_targets_witness :
    ((CircleFormation.calculateTargets ⟨Real.sqrt, Real.sin, Real.cos, 2 * Real.pi⟩
        (exampleFour (K := ℝ)) 0.37)[0]?).map (fun d => d.targetPosition)
      = some ⟨10, 2, 0⟩
    ∧ ((CircleFormation.calculateTargets ⟨Real.sqrt, Real.sin, Real.cos, 2 * Real.pi⟩
        (exampleFour (K := ℝ)) 0.37)[1]?).map (fun d => d.targetPosition)
      = some ⟨0, -2, 10⟩
    ∧ ((CircleFormation.calculateTargets ⟨Real.sqrt, Real.sin, Real.cos, 2 * Real.pi⟩
        (exampleFour (K := ℝ)) 0.37)[2]?).map (fun d => d.targetPosition)
      = some ⟨-10, 2, 0⟩
    ∧ ((CircleFormation.calculateTargets ⟨Real.sqrt, Real.sin, Real.cos, 2 * Real.pi⟩
        (exampleFour (K := ℝ)) 0.37)[3]?).map (fun d => d.targetPosition)
      = some ⟨0, -2, -10⟩ := by
  obtain ⟨c0, s0, c1, s1, c2, s2, c3, s3⟩ := circle_four_angles
  have hlen : ((exampleFour (K := ℝ)).length : ℝ) = ((4 : Nat) : ℝ) := rfl
  refine ⟨?_, ?_, ?_, ?_⟩
  · rw [(circle_targets (exampleFour (K := ℝ)) 0.37 0 _ rfl).1, hlen]
    simp only [Option.map_some', c0, s0]
    norm_num
  · rw [(circle_targets (exampleFour (K := ℝ)) 0.37 1 _ rfl).1, hlen]
    simp only [Option.map_some', c1, s1]
    norm_num
  · rw [(circle_targets (exampleFour (K := ℝ)) 0.37 2 _ rfl).1, hlen]
    simp only [Option.map_some', c2, s2]
    norm_num
  · rw [(circle_targets (exampleFour (K := ℝ)) 0.37 3 _ rfl).1, hlen]
    simp only [Option.map_some', c3, s3]
    norm_num

/-! ## Degenerate swarms and the Grid lattice (C23, C27) -/

/-- The loop of the Grid formation returns when `gridSize` is not 0, and gives drone
`i + j` the target computed from its row `(i + j) / gridSize` and column
`(i + j) % gridSize`. -/
theorem grid_calculateTargetsFrom_spec [FloorRing K] (m : CMath K) (n : Nat) (tf : K)
    (hg : GridFormation.gridSize m n ≠ 0) :
    ∀ (ds : List (SwarmDrone K)) (i : Nat),
      ∃ ds1, GridFormation.calculateTargetsFrom m n tf i ds = some ds1
        ∧ ds1.length = ds.length
        ∧ ∀ (j : Nat) (d : SwarmDrone K), ds[j]? = some d →
            ds1[j]? = some { d with targetPosition :=
              ⟨5 * ((((i + j : Nat) : Int).tmod (GridFormation.gridSize m n) : Int) : K)
                  - 5 * ((GridFormation.gridSize m n - 1 : Int) : K) * 0.5,
                2 * m.sin (tf + ((i + j : Nat) : K) * 0.2),
                5 * ((((i + j : Nat) : Int).tdiv (GridFormation.gridSize m n) : Int) : K)
                  - 5 * ((GridFormation.gridSize m n - 1 : Int) : K) * 0.5⟩ } := by
  intro ds
  induction ds with
  | nil =>
    intro i
    exact ⟨[], rfl, rfl, fun j d h => absurd h (by simp)⟩
  | cons drone rest ih =>
    intro i
    obtain ⟨rest1, hrest, hlen, hent⟩ := ih (i + 1)
    simp only [GridFormation.calculateTargetsFrom]
    rw [if_neg hg, hrest]
    refine ⟨_, rfl, ?_, ?_⟩
    · simp [hlen]
    · intro j d hj
      cases j with
      | zero =>
        simp only [List.getElem?_cons_zero, Option.some.injEq] at hj
        subst hj
        simp
      | succ j =>
        simp only [List.getElem?_cons_succ] at hj
        have h := hent j d hj
        simp only [List.getElem?_cons_succ]
        rw [h]
        have e : i + 1 + j = i + (j + 1) := by omega
        rw [e]

/-- Over the reals `gridSize` is the ceiling of the square root of the agent count. -/
theorem gridSize_real (sin cos : ℝ → ℝ) (twoPi : ℝ) (n : Nat) :
    GridFormation.gridSize (⟨Real.sqrt, sin, cos, twoPi⟩ : CMath ℝ) n
      = ⌈Real.sqrt (n : ℝ)⌉ := by
  unfold GridFormation.gridSize ceil
  exact truncToInt_intCast _

/-- The ceiling of the square root of `n ≥ 1` is at least 1 and its square is at
least `n`. -/
theorem ceil_sqrt_bounds (n : Nat) (hn : 1 ≤ n) :
    1 ≤ ⌈Real.sqrt (n : ℝ)⌉ ∧ (n : Int) ≤ ⌈Real.sqrt (n : ℝ)⌉ * ⌈Real.sqrt (n : ℝ)⌉ := by
  have hpos : (0 : ℝ) < (n : ℝ) := by exact_mod_cast hn
  constructor
  · have : 0 < ⌈Real.sqrt (n : ℝ)⌉ := Int.ceil_pos.mpr (Real.sqrt_pos.mpr hpos)
    omega
  · have h := Int.le_ceil (Real.sqrt (n : ℝ))
    have hsq : (n : ℝ) = Real.sqrt (n : ℝ) * Real.sqrt (n : ℝ) :=
      (Real.mul_self_sqrt (le_of_lt hpos)).symm
    have hle : (n : ℝ) ≤ (⌈Real.sqrt (n : ℝ)⌉ : ℝ) * (⌈Real.sqrt (n : ℝ)⌉ : ℝ) :=
      le_trans (le_of_eq hsq) (mul_self_le_mul_self (Real.sqrt_nonneg _) h)
    exact_mod_cast hle

/-- Claim C27 (grid lattice). Over the reals, for every swarm of `n ≥ 1` drones, with
`g = ceil (sqrt n)`: `g ≥ 1` and `g * g ≥ n`; `GridFormation::calculateTargets` returns,
and drone `i` gets row `i div g` and column `i mod g`, both in `[0, g - 1]`, and the
target `x = 5 * col - 2.5 * (g - 1)`, `z = 5 * row - 2.5 * (g - 1)`; two distinct drones
get distinct `(x, z)` cells; and the lattice is centred on the origin: the coordinate
of the index `c` is the opposite of the coordinate of the index `g - 1 - c`. -/
theorem grid_lattice (drones : List (SwarmDrone ℝ)) (timeFactor : ℝ)
    (hn : 1 ≤ drones.length) :
    ∃ (g : Int) (drones1 : List (SwarmDrone ℝ)),
      g = GridFormation.gridSize (⟨Real.sqrt, Real.sin, Real.cos, 2 * Real.pi⟩ : CMath ℝ)
            drones.length
        ∧ g = ⌈Real.sqrt (drones.length : ℝ)⌉
        ∧ 1 ≤ g ∧ (drones.length : Int) ≤ g * g
        ∧ GridFormation.calculateTargets ⟨Real.sqrt, Real.sin, Real.cos, 2 * Real.pi⟩
            drones timeFactor = some drones1
        ∧ drones1.length = drones.length
        ∧ (∀ (i : Nat) (d1 : SwarmDrone ℝ), drones1[i]? = some d1 →
            (0 ≤ (i : Int) / g ∧ (i : Int) / g ≤ g - 1)
              ∧ (0 ≤ (i : Int) % g ∧ (i : Int) % g ≤ g - 1)
              ∧ d1.targetPosition.x = 5 * (((i : Int) % g : Int) : ℝ) - 2.5 * ((g : ℝ) - 1)
              ∧ d1.targetPosition.z = 5 * (((i : Int) / g : Int) : ℝ) - 2.5 * ((g : ℝ) - 1))
        ∧ (∀ (i j : Nat) (d1 d2 : SwarmDrone ℝ), i ≠ j →
            drones1[i]? = some d1 → drones1[j]? = some d2 →
            (d1.targetPosition.x, d1.targetPosition.z)
              ≠ (d2.targetPosition.x, d2.targetPosition.z))
        ∧ (∀ c : Int, (5 * (c : ℝ) - 2.5 * ((g : ℝ) - 1))
            = -(5 * ((g - 1 - c : Int) : ℝ) - 2.5 * ((g : ℝ) - 1))) := by
  have hgr := gridSize_real Real.sin Real.cos (2 * Real.pi) drones.length
  obtain ⟨hg1, hgsq⟩ := ceil_sqrt_bounds drones.length hn
  rw [← hgr] at hg1 hgsq
  obtain ⟨drones1, hret, hlen, hent⟩ :=
    grid_calculateTargetsFrom_spec (⟨Real.sqrt, Real.sin, Real.cos, 2 * Real.pi⟩ : CMath ℝ)
      drones.length timeFactor (by omega) drones 0
  generalize hgdef : GridFormation.gridSize
    (⟨Real.sqrt, Real.sin, Real.cos, 2 * Real.pi⟩ : CMath ℝ) drones.length = g
    at hgr hg1 hgsq hent
  have cell : ∀ (i : Nat) (d1 : SwarmDrone ℝ), drones1[i]? = some d1 →
      (0 ≤ (i : Int) / g ∧ (i : Int) / g ≤ g - 1)
        ∧ (0 ≤ (i : Int) % g ∧ (i : Int) % g ≤ g - 1)
        ∧ d1.targetPosition.x = 5 * (((i : Int) % g : Int) : ℝ) - 2.5 * ((g : ℝ) - 1)
        ∧ d1.targetPosition.z = 5 * (((i : Int) / g : Int) : ℝ) - 2.5 * ((g : ℝ) - 1) := by
    intro i d1 hd1
    have hi : i < drones.length := by
      have := (List.getElem?_eq_some.mp hd1).1
      omega
    obtain ⟨d, hd⟩ : ∃ d, drones[i]? = some d := ⟨_, List.getElem?_eq_getElem hi⟩
    have h := hent i d hd
    rw [hd1, Nat.zero_add] at h
    simp only [Option.some.injEq] at h
    have hi0 : (0 : Int) ≤ (i : Int) := Int.ofNat_nonneg i
    have hgpos : (0 : Int) < g := by omega
    have hdiv : (i : Int).tdiv g = (i : Int) / g := Int.tdiv_eq_ediv hi0 (le_of_lt hgpos)
    have hmod : (i : Int).tmod g = (i : Int) % g := Int.tmod_eq_emod hi0 (le_of_lt hgpos)
    have hrow : (i : Int) / g < g :=
      Int.ediv_lt_of_lt_mul hgpos (lt_of_lt_of_le (by exact_mod_cast hi) hgsq)
    have hrow0 : 0 ≤ (i : Int) / g := Int.ediv_nonneg hi0 (le_of_lt hgpos)
    have hcol0 : 0 ≤ (i : Int) % g := Int.emod_nonneg _ (by omega)
    have hcol : (i : Int) % g < g := Int.emod_lt_of_pos _ hgpos
    refine ⟨⟨hrow0, by omega⟩, ⟨hcol0, by omega⟩, ?_, ?_⟩
    · rw [h]
      simp only [hmod]
      push_cast
      ring
    · rw [h]
      simp only [hdiv]
      push_cast
      ring
  refine ⟨g, drones1, rfl, hgr, hg1, hgsq, hret, hlen, cell, ?_, ?_⟩
  · intro i j d1 d2 hij h1 h2 heq
    obtain ⟨_, _, hx1, hz1⟩ := cell i d1 h1
    obtain ⟨_, _, hx2, hz2⟩ := cell j d2 h2
    simp only [Prod.mk.injEq] at heq
    rw [hx1, hx2, hz1, hz2] at heq
    have hc : (((i : Int) % g : Int) : ℝ) = (((j : Int) % g : Int) : ℝ) := by linarith [heq.1]
    have hr : (((i : Int) / g : Int) : ℝ) = (((j : Int) / g : Int) : ℝ) := by linarith [heq.2]
    have hc2 : (i : Int) % g = (j : Int) % g := by exact_mod_cast hc
    have hr2 : (i : Int) / g = (j : Int) / g := by exact_mod_cast hr
    have ei := Int.ediv_add_emod (i : Int) g
    have ej := Int.ediv_add_emod (j : Int) g
    rw [hc2, hr2] at ei
    have hint : (i : Int) = (j : Int) := ei.symm.trans ej
    exact hij (by exact_mod_cast hint)
  · intro c
    push_cast
    ring

/-- Witness for C27: the four example drones, a lattice of size 2. -/
theorem grid_lattice_witness :
    ∃ (g : Int) (drones1 : List (SwarmDrone ℝ)),
      g = GridFormation.gridSize (⟨Real.sqrt, Real.sin, Real.cos, 2 * Real.pi⟩ : CMath ℝ)
            (exampleFour : List (SwarmDrone ℝ)).length
        ∧ g = ⌈Real.sqrt ((exampleFour : List (SwarmDrone ℝ)).length : ℝ)⌉
        ∧ 1 ≤ g ∧ ((exampleFour : List (SwarmDrone ℝ)).length : Int) ≤ g * g
        ∧ GridFormation.calculateTargets ⟨Real.sqrt, Real.sin, Real.cos, 2 * Real.pi⟩
            exampleFour 0 = some drones1
        ∧ drones1.length = (exampleFour : List (SwarmDrone ℝ)).length
        ∧ (∀ (i : Nat) (d1 : SwarmDrone ℝ), drones1[i]? = some d1 →
            (0 ≤ (i : Int) / g ∧ (i : Int) / g ≤ g - 1)
              ∧ (0 ≤ (i : Int) % g ∧ (i : Int) % g ≤ g - 1)
              ∧ d1.targetPosition.x = 5 * (((i : Int) % g : Int) : ℝ) - 2.5 * ((g : ℝ) - 1)
              ∧ d1.targetPosition.z = 5 * (((i : Int) / g : Int) : ℝ) - 2.5 * ((g : ℝ) - 1))
        ∧ (∀ (i j : Nat) (d1 d2 : SwarmDrone ℝ), i ≠ j →
            drones1[i]? = some d1 → drones1[j]? = some d2 →
            (d1.targetPosition.x, d1.targetPosition.z)
              ≠ (d2.targetPosition.x, d2.targetPosition.z))
        ∧ (∀ c : Int, (5 * (c : ℝ) - 2.5 * ((g : ℝ) - 1))
            = -(5 * ((g - 1 - c : Int) : ℝ) - 2.5 * ((g : ℝ) - 1))) :=
  grid_lattice exampleFour 0 (by decide)

/-! ## The Flock formation (C26) -/

/-- The velocity limit of the Flock formation, over the reals: the limited velocity
has length at most 0.3. -/
theorem limitVelocity_length_le (sin cos : ℝ → ℝ) (twoPi : ℝ) (velocity force : Vector3D ℝ) :
    (FlockFormation.limitVelocity ⟨Real.sqrt, sin, cos, twoPi⟩ velocity force).length
      ⟨Real.sqrt, sin, cos, twoPi⟩ ≤ 0.3 := by
  have hsq := real_sqrt_sq_lengthSquared (velocity.add force)
  unfold FlockFormation.limitVelocity
  simp only [Vector3D.length]
  split
  · next h =>
    have hpos : (0 : ℝ) < Real.sqrt (velocity.add force).lengthSquared := by linarith
    have hne : Real.sqrt (velocity.add force).lengthSquared ≠ 0 := ne_of_gt hpos
    have key : ((velocity.add force).mul
          (0.3 / Real.sqrt (velocity.add force).lengthSquared)).lengthSquared
        = (velocity.add force).lengthSquared
            * (0.3 / Real.sqrt (velocity.add force).lengthSquared) ^ 2 := by
      simp only [Vector3D.mul, Vector3D.lengthSquared]
      ring
    have h2 : (0.3 / Real.sqrt (velocity.add force).lengthSquared) ^ 2
        = 0.09 / (Real.sqrt (velocity.add force).lengthSquared
            * Real.sqrt (velocity.add force).lengthSquared) := by
      field_simp
      ring
    have hl : (velocity.add force).lengthSquared ≠ 0 := by
      intro h0
      apply hne
      rw [h0]
      exact Real.sqrt_zero
    rw [key, h2, hsq, mul_div_assoc', mul_comm, mul_div_assoc, div_self hl,
      Real.sqrt_le_left (by norm_num)]
    norm_num
  · next h =>
    exact not_lt.mp h

/-- The inner loop of the Flock formation returns when every index it visits is in
range of the drones and of the velocity cache. -/
theorem neighbours_isSome (m : CMath K) (drones : List (SwarmDrone K))
    (velocities : List (Vector3D K)) (i : Nat) (position : Vector3D K) :
    ∀ (js : List Nat) (sums : FlockSums K),
      (∀ j ∈ js, j < drones.length ∧ j < velocities.length) →
      ∃ sums1, FlockFormation.neighbours m drones velocities i position js sums
        = some sums1 := by
  intro js
  induction js with
  | nil =>
    intro sums _
    exact ⟨sums, rfl⟩
  | cons j js ih =>
    intro sums hjs
    have hj := hjs j (List.mem_cons_self _ _)
    have hrest : ∀ k ∈ js, k < drones.length ∧ k < velocities.length :=
      fun k hk => hjs k (List.mem_cons_of_mem _ hk)
    simp only [FlockFormation.neighbours]
    rw [List.getElem?_eq_getElem hj.1, List.getElem?_eq_getElem hj.2]
    simp only
    split_ifs <;> exact ih _ hrest

/-- The outer loop of the Flock formation, over the reals: it returns when the indices
it visits are in range; it keeps the sizes and every position; and every index that it
visits, or that was steered ahead before, is steered ahead afterwards. -/
theorem updateFlock_spec (sin cos : ℝ → ℝ) (twoPi : ℝ) (n : Nat) (tf : ℝ) :
    ∀ (is : List Nat) (ds : List (SwarmDrone ℝ)) (vs : List (Vector3D ℝ)),
      ds.length = n → vs.length = n → (∀ i ∈ is, i < n) →
      ∃ ds1 vs1,
        FlockFormation.updateFlock ⟨Real.sqrt, sin, cos, twoPi⟩ n tf is ds vs = some (ds1, vs1)
          ∧ ds1.length = n ∧ vs1.length = n
          ∧ (∀ (k : Nat) (d : SwarmDrone ℝ), ds[k]? = some d →
              ∃ d1, ds1[k]? = some d1 ∧ d1.position = d.position)
          ∧ (∀ k, (FlockFormation.aheadAt ⟨Real.sqrt, sin, cos, twoPi⟩ ds vs k ∨ k ∈ is) →
              FlockFormation.aheadAt ⟨Real.sqrt, sin, cos, twoPi⟩ ds1 vs1 k) := by
  intro is
  induction is with
  | nil =>
    intro ds vs hds hvs _
    refine ⟨ds, vs, rfl, hds, hvs, fun k d h => ⟨d, h, rfl⟩, ?_⟩
    intro k h
    rcases h with h | h
    · exact h
    · simp at h
  | cons i rest ih =>
    intro ds vs hds hvs his
    have hi : i < n := his i (List.mem_cons_self _ _)
    have hrest : ∀ k ∈ rest, k < n := fun k hk => his k (List.mem_cons_of_mem _ hk)
    have hid : i < ds.length := by omega
    have hiv : i < vs.length := by omega
    obtain ⟨sums, hsums⟩ := neighbours_isSome (⟨Real.sqrt, sin, cos, twoPi⟩ : CMath ℝ)
      ds vs i ds[i].position (List.range n)
      ⟨⟨0, 0, 0⟩, ⟨0, 0, 0⟩, ⟨0, 0, 0⟩, 0, 0, 0⟩
      (fun j hj => by
        have := List.mem_range.mp hj
        omega)
    simp only [FlockFormation.updateFlock]
    rw [List.getElem?_eq_getElem hid]
    simp only
    rw [hsums, List.getElem?_eq_getElem hiv]
    simp only
    have hb := limitVelocity_length_le sin cos twoPi vs[i]
      (FlockFormation.force ⟨Real.sqrt, sin, cos, twoPi⟩ tf i ds[i].position sums)
    generalize FlockFormation.limitVelocity ⟨Real.sqrt, sin, cos, twoPi⟩ vs[i]
      (FlockFormation.force ⟨Real.sqrt, sin, cos, twoPi⟩ tf i ds[i].position sums) = v1
      at hb ⊢
    obtain ⟨ds1, vs1, hret, hl1, hl2, hpos, hahead⟩ := ih
      (ds.set i { ds[i] with targetPosition := ds[i].position.add (v1.mul 5) })
      (vs.set i v1)
      (by rw [List.length_set]; exact hds) (by rw [List.length_set]; exact hvs) hrest
    refine ⟨ds1, vs1, hret, hl1, hl2, ?_, ?_⟩
    · intro k d hk
      by_cases hki : k = i
      · subst hki
        rw [List.getElem?_eq_getElem hid] at hk
        simp only [Option.some.injEq] at hk
        obtain ⟨d1, hd1, hp1⟩ := hpos k _ (by
          rw [List.getElem?_set_self hid])
        exact ⟨d1, hd1, by rw [hp1, ← hk]⟩
      · exact hpos k d (by
          rw [List.getElem?_set_ne (Ne.symm hki)]
          exact hk)
    · intro k hk
      by_cases hki : k = i
      · subst hki
        apply hahead k
        left
        exact ⟨_, _, List.getElem?_set_self hid, List.getElem?_set_self hiv,
          hb, rfl⟩
      · apply hahead k
        rcases hk with hk | hk
        · left
          obtain ⟨d, v, hd, hv, hb, ht⟩ := hk
          exact ⟨d, v, by rw [List.getElem?_set_ne (Ne.symm hki)]; exact hd,
            by rw [List.getElem?_set_ne (Ne.symm hki)]; exact hv, hb, ht⟩
        · right
          rcases List.mem_cons.mp hk with h | h
          · exact absurd h hki
          · exact h

/-- A target 5 velocities ahead of the position, with a velocity of length at most
0.3, is at most 1.5 away. -/
theorem ahead_distance_le (sin cos : ℝ → ℝ) (twoPi : ℝ) (position v : Vector3D ℝ)
    (hv : v.length ⟨Real.sqrt, sin, cos, twoPi⟩ ≤ 0.3) :
    (((position.add (v.mul 5)).sub position).length ⟨Real.sqrt, sin, cos, twoPi⟩) ≤ 1.5 := by
  simp only [Vector3D.length] at hv ⊢
  rw [Real.sqrt_le_left (by norm_num)] at hv ⊢
  simp only [Vector3D.lengthSquared, Vector3D.add, Vector3D.sub, Vector3D.mul] at hv ⊢
  nlinarith

/-- Claim C26 (Flock steer-ahead bound). Over the reals, for every swarm, every state
of the velocity cache and every time factor, `FlockFormation::calculateTargets`
returns; afterwards the cache has as many entries as there are drones, each of length
at most 0.3, every drone keeps its position, and its target is its position plus 5
times its cached velocity, at most 1.5 away. -/
theorem flock_steer_ahead (flock : FlockFormation ℝ) (drones : List (SwarmDrone ℝ))
    (timeFactor : ℝ) :
    ∃ drones1 flock1,
      FlockFormation.calculateTargets ⟨Real.sqrt, Real.sin, Real.cos, 2 * Real.pi⟩
          flock drones timeFactor = some (drones1, flock1)
        ∧ flock1.velocities.length = drones.length
        ∧ drones1.length = drones.length
        ∧ (∀ v ∈ flock1.velocities,
            v.length ⟨Real.sqrt, Real.sin, Real.cos, 2 * Real.pi⟩ ≤ 0.3)
        ∧ (∀ (i : Nat) (d : SwarmDrone ℝ), drones[i]? = some d →
            ∃ d1 v, drones1[i]? = some d1 ∧ flock1.velocities[i]? = some v
              ∧ d1.position = d.position
              ∧ d1.targetPosition = d1.position.add (v.mul 5)
              ∧ (d1.targetPosition.sub d1.position).length
                  ⟨Real.sqrt, Real.sin, Real.cos, 2 * Real.pi⟩ ≤ 1.5) := by
  have hv0 : ∃ vs0, (if flock.velocities.length ≠ drones.length then
        FlockFormation.initialVelocities ⟨Real.sqrt, Real.sin, Real.cos, 2 * Real.pi⟩
          drones.length
      else flock.velocities) = vs0 ∧ vs0.length = drones.length := by
    refine ⟨_, rfl, ?_⟩
    split
    · simp [FlockFormation.initialVelocities]
    · next h =>
      push_neg at h
      exact h
  obtain ⟨vs0, hvs0, hlen0⟩ := hv0
  obtain ⟨ds1, vs1, hret, hl1, hl2, hpos, hahead⟩ :=
    updateFlock_spec Real.sin Real.cos (2 * Real.pi) drones.length timeFactor
      (List.range drones.length) drones vs0 rfl hlen0
      (fun i hi => List.mem_range.mp hi)
  refine ⟨ds1, ⟨vs1⟩, ?_, hl2, hl1, ?_, ?_⟩
  · unfold FlockFormation.calculateTargets
    simp only
    rw [hvs0, hret]
  · intro v hv
    obtain ⟨k, hk⟩ := List.mem_iff_getElem?.mp hv
    have hkn : k < drones.length := by
      have hk1 : k < vs1.length := (List.getElem?_eq_some.mp hk).1
      omega
    obtain ⟨d, v2, _, hv2, hb, _⟩ := hahead k (Or.inr (List.mem_range.mpr hkn))
    rw [hk] at hv2
    simp only [Option.some.injEq] at hv2
    rw [hv2]
    exact hb
  · intro i d hd
    have hin : i < drones.length := (List.getElem?_eq_some.mp hd).1
    obtain ⟨d1, v, hd1, hv, hb, ht⟩ := hahead i (Or.inr (List.mem_range.mpr hin))
    obtain ⟨d2, hd2, hp⟩ := hpos i d hd
    rw [hd1] at hd2
    simp only [Option.some.injEq] at hd2
    refine ⟨d1, v, hd1, hv, by rw [hd2]; exact hp, ht, ?_⟩
    rw [ht]
    exact ahead_distance_le Real.sin Real.cos (2 * Real.pi) d1.position v hb

end Formations

end DroneSwarm
